import Mathlib

/-!
# Location based network node: admission rules and discovery

A shallow embedding of `src/src/locnet.cpp` (class `Node`).

* Distances and coordinates live in an ordered field `D` (the C++ `Distance` and
  `GpsCoordinate` are floating point numbers); `log10` and the great circle distance
  `GetDistanceKm` are parameters of the environment, so the definitions evaluate over `ℚ`
  and the theorems can be read over `ℝ` with the real logarithm.
* `ISpatialDatabase` is an interface whose implementation is not part of the sources:
  it is modelled as a list of entries keyed by node id.
* Remote peers, the connection factory, the persistence backend and the random
  generator are oracles that see the whole history of calls made so far, so every
  (adaptive) behaviour of the outside world is an environment.
* Every call that leaves the node is recorded, with its outcome, in a trace.
-/

namespace LocNet

/-! ## Data model -/

abbrev NodeId := String

/-- The message of a caught `std::exception`. -/
abbrev Err := String

/-- A non-null `shared_ptr<IRemoteNode>` handed out by the connection factory. -/
abbrev Conn := Nat

structure NodeProfile where
  id : NodeId
  ipv4Address : String
  ipv4Port : Nat
  ipv6Address : String
  ipv6Port : Nat
deriving DecidableEq, Repr

structure GpsLocation (D : Type) where
  latitude : D
  longitude : D
deriving DecidableEq, Repr

structure NodeInfo (D : Type) where
  profile : NodeProfile
  location : GpsLocation D
deriving DecidableEq, Repr

inductive NodeRelationType where
  | Colleague
  | Neighbour
deriving DecidableEq, Repr

inductive NodeContactRoleType where
  | Initiator
  | Acceptor
deriving DecidableEq, Repr

inductive Neighbours where
  | Included
  | Excluded
  | NeighboursOnly
deriving DecidableEq, Repr

structure NodeDbEntry (D : Type) extends NodeInfo D where
  relationType : NodeRelationType
  roleType : NodeContactRoleType
deriving DecidableEq, Repr

/-- Every call that leaves the node object, together with what it answered. -/
inductive Event (D : Type) where
  | ConnectTo (node : NodeProfile) (result : Except Err (Option Conn))
  | AcceptColleague (conn : Conn) (node : NodeInfo D) (result : Except Err Bool)
  | AcceptNeighbour (conn : Conn) (node : NodeInfo D) (result : Except Err Bool)
  | GetNodeCount (conn : Conn) (nodeType : NodeRelationType) (result : Except Err Nat)
  | GetRandomNodes (conn : Conn) (maxNodeCount : Nat) (filter : Neighbours)
      (result : Except Err (List (NodeInfo D)))
  | GetClosestNodes (conn : Conn) (location : GpsLocation D) (radiusKm : Option D)
      (maxNodeCount : Nat) (filter : Neighbours) (result : Except Err (List (NodeInfo D)))
  | Store (entry : NodeDbEntry D) (result : Except Err Bool)
  | Update (node : NodeInfo D) (result : Except Err Bool)
  | Random (value : Nat)

/-- The world outside the node. Each oracle is given the trace of all earlier calls. -/
structure Env (D : Type) where
  /-- The `log10` of the C maths library. -/
  log10 : D → D
  /-- The method `ISpatialDatabase::GetDistanceKm`. -/
  GetDistanceKm : GpsLocation D → GpsLocation D → D
  /-- The method `IRemoteNodeConnectionFactory::ConnectTo`: throws, or returns a pointer. -/
  ConnectTo : List (Event D) → NodeProfile → Except Err (Option Conn)
  AcceptColleague : List (Event D) → Conn → NodeInfo D → Except Err Bool
  AcceptNeighbour : List (Event D) → Conn → NodeInfo D → Except Err Bool
  GetNodeCount : List (Event D) → Conn → NodeRelationType → Except Err Nat
  GetRandomNodes : List (Event D) → Conn → Nat → Neighbours → Except Err (List (NodeInfo D))
  GetClosestNodes : List (Event D) → Conn → GpsLocation D → Option D → Nat → Neighbours →
    Except Err (List (NodeInfo D))
  /-- Whether the persistence backend carries out a `Store`: throws, or reports success. -/
  StoreResult : List (Event D) → NodeDbEntry D → Except Err Bool
  /-- Whether the persistence backend carries out an `Update`. -/
  UpdateResult : List (Event D) → NodeInfo D → Except Err Bool
  /-- The next value of the random device. -/
  Random : List (Event D) → Nat

/-- The mutable state: the content of the spatial database and the trace. -/
structure Sys (D : Type) where
  db : List (NodeDbEntry D)
  trace : List (Event D)

/-- How a function of the model can end other than by returning. -/
inductive Fault where
  /-- The model ran out of loop iterations (not a behaviour of the program). -/
  | outOfFuel
  /-- The call `front()` on an empty vector: undefined behaviour. -/
  | emptyFront
  /-- An exception leaves the function. -/
  | thrown (what : String)
deriving DecidableEq, Repr

variable {D : Type}

def Sys.log (s : Sys D) (e : Event D) : Sys D :=
  { s with trace := s.trace ++ [e] }

/-! ## Constants -/

def NEIGHBOURHOOD_MAX_RANGE_KM [LinearOrderedField D] : D := 100

def NEIGHBOURHOOD_MAX_NODE_COUNT : Nat := 100

def INIT_WORLD_RANDOM_NODE_COUNT : Nat := 100

def INIT_NEIGHBOURHOOD_QUERY_NODE_COUNT : Nat := 10

/-- The natural number nearest to `n` that an IEEE single-precision `float` represents:
`n` rounded to 24 significant bits, to nearest, ties to even. This is the conversion of a
`size_t` to `float` (no `size_t` overflows the range of `float`). -/
def roundToFloat (n : Nat) : Nat :=
  let shift := Nat.log2 n + 1 - 24
  let q := n / 2 ^ shift
  let r := n % 2 ^ shift
  if 2 ^ shift < 2 * r ∨ (2 * r = 2 ^ shift ∧ q % 2 = 1) then (q + 1) * 2 ^ shift
  else q * 2 ^ shift

/-- The value `size_t(INIT_WORLD_NODE_FILL_TARGET_RATE * n)` with the rate `0.75f`: the
count is converted to `float`, the product with `0.75f` is rounded to `float` (the exact
product is `3 * float(n) / 4`, and rounding commutes with the division by 4), and the
conversion to `size_t` truncates. -/
def fillTarget (seedNodeColleagueCount : Nat) : Nat :=
  roundToFloat (3 * roundToFloat seedNodeColleagueCount) / 4

/-- The hardwired seed list `Node::_seedNodes`. -/
def _seedNodes [LinearOrderedField D] : List (NodeInfo D) :=
  [ { profile := { id := "FirstSeedNodeId", ipv4Address := "1.2.3.4", ipv4Port := 5555,
                   ipv6Address := "", ipv6Port := 0 },
      location := { latitude := 1, longitude := 2 } },
    { profile := { id := "SecondSeedNodeId", ipv4Address := "6.7.8.9", ipv4Port := 5555,
                   ipv6Address := "", ipv6Port := 0 },
      location := { latitude := 3, longitude := 4 } } ]

/-! ## The spatial database -/

namespace Db

/-- Modelled from the spec: which relation a query filter draws from (`Included` =
Colleague and Neighbour, `Excluded` = only Colleague, `NeighboursOnly` = only Neighbour). -/
def matchesFilter (filter : Neighbours) (e : NodeDbEntry D) : Bool :=
  match filter with
  | Neighbours.Included => true
  | Neighbours.Excluded => decide (e.relationType = NodeRelationType.Colleague)
  | Neighbours.NeighboursOnly => decide (e.relationType = NodeRelationType.Neighbour)

/-- Modelled from the spec: `ISpatialDatabase::Store`, insert or overwrite by node id. -/
def Store (db : List (NodeDbEntry D)) (entry : NodeDbEntry D) : List (NodeDbEntry D) :=
  db.filter (fun e => decide (e.profile.id ≠ entry.profile.id)) ++ [entry]

/-- Modelled from the spec: `ISpatialDatabase::Load`, lookup by identity. -/
def Load (db : List (NodeDbEntry D)) (id : NodeId) : Option (NodeInfo D) :=
  (db.find? (fun e => decide (e.profile.id = id))).map (fun e => e.toNodeInfo)

/-- Modelled from the spec: `ISpatialDatabase::Update`, replaces the node info of the
stored entry with the same id and keeps its relation and role. -/
def Update (db : List (NodeDbEntry D)) (node : NodeInfo D) : List (NodeDbEntry D) :=
  db.map (fun e => if e.profile.id = node.profile.id then { e with toNodeInfo := node } else e)

/-- Modelled from the spec: `ISpatialDatabase::GetNodeCount`. -/
def GetNodeCount (db : List (NodeDbEntry D)) (nodeType : NodeRelationType) : Nat :=
  (db.filter (fun e => decide (e.relationType = nodeType))).length

/-- The order of the answers of `GetClosestNodes`: ascending distance from the centre,
ties broken by node id. -/
def closerTo [LinearOrderedField D] (dist : GpsLocation D → GpsLocation D → D)
    (center : GpsLocation D) (a b : NodeDbEntry D) : Prop :=
  dist center a.location < dist center b.location ∨
    (dist center a.location = dist center b.location ∧ a.profile.id ≤ b.profile.id)

instance [LinearOrderedField D] (dist : GpsLocation D → GpsLocation D → D)
    (center : GpsLocation D) : DecidableRel (closerTo dist center) :=
  fun _ _ => by unfold closerTo; exact inferInstance

/-- Modelled from the spec: `ISpatialDatabase::GetClosestNodes`, the entries that the
filter admits within `radiusKm` of `center` (`none` stands for
`numeric_limits<Distance>::max()`), sorted ascending by distance and truncated to
`maxNodeCount`. -/
def GetClosestNodes [LinearOrderedField D] (dist : GpsLocation D → GpsLocation D → D)
    (db : List (NodeDbEntry D)) (center : GpsLocation D) (radiusKm : Option D)
    (maxNodeCount : Nat) (filter : Neighbours) : List (NodeInfo D) :=
  let admitted := db.filter (fun e => matchesFilter filter e &&
    (match radiusKm with
     | none => true
     | some r => decide (dist center e.location ≤ r)))
  ((admitted.insertionSort (closerTo dist center)).take maxNodeCount).map
    (fun e => e.toNodeInfo)

/-- Modelled from the spec: `ISpatialDatabase::GetRandomNodes`, a sample without
replacement of the entries that the filter admits; `seed` is the random choice. -/
def GetRandomNodes (db : List (NodeDbEntry D)) (seed : Nat) (maxNodeCount : Nat)
    (filter : Neighbours) : List (NodeInfo D) :=
  let admitted := db.filter (matchesFilter filter)
  ((admitted.rotate (seed % admitted.length)).take maxNodeCount).map (fun e => e.toNodeInfo)

end Db

/-! ## Admission -/

section Node

variable [LinearOrderedField D]

def GetBubbleSize (env : Env D) (myNodeInfo : NodeInfo D) (location : GpsLocation D) : D :=
  let distance := env.GetDistanceKm myNodeInfo.location location
  let bubbleSize := env.log10 (distance + 2500) * 500 - 1700
  bubbleSize

def BubbleOverlaps (env : Env D) (myNodeInfo : NodeInfo D) (db : List (NodeDbEntry D))
    (newNodeLocation : GpsLocation D) : Bool :=
  -- Get our closest node to location, no matter the radius
  match Db.GetClosestNodes env.GetDistanceKm db newNodeLocation none 1 Neighbours.Excluded with
  | [] => false
  | closest :: _ =>
    let myClosesNodeLocation := closest.location
    let myClosestNodeBubbleSize := GetBubbleSize env myNodeInfo myClosesNodeLocation
    let newNodeBubbleSize := GetBubbleSize env myNodeInfo newNodeLocation
    let newNodeDistanceFromClosestNode :=
      env.GetDistanceKm newNodeLocation myClosesNodeLocation
    decide (myClosestNodeBubbleSize + newNodeBubbleSize > newNodeDistanceFromClosestNode)

def SafeConnectTo (env : Env D) (myNodeInfo : NodeInfo D) (s : Sys D) (node : NodeProfile) :
    Option Conn × Sys D :=
  -- There is no point in connecting to ourselves
  if node.id = myNodeInfo.profile.id then (none, s)
  else
    let r := env.ConnectTo s.trace node
    match r with
    | Except.ok c => (c, s.log (Event.ConnectTo node r))
    | Except.error _ => (none, s.log (Event.ConnectTo node r))

/-- The call `_spatialDb->Store(entry)`: the backend throws, refuses, or carries it out. -/
def StoreEntry (env : Env D) (s : Sys D) (entry : NodeDbEntry D) : Except Err Bool × Sys D :=
  let r := env.StoreResult s.trace entry
  match r with
  | Except.ok true => (r, { db := Db.Store s.db entry, trace := s.trace ++ [Event.Store entry r] })
  | _ => (r, s.log (Event.Store entry r))

/-- The call `_spatialDb->Update(node)`. -/
def UpdateEntry (env : Env D) (s : Sys D) (node : NodeInfo D) : Except Err Bool × Sys D :=
  let r := env.UpdateResult s.trace node
  match r with
  | Except.ok true => (r, { db := Db.Update s.db node, trace := s.trace ++ [Event.Update node r] })
  | _ => (r, s.log (Event.Update node r))

/-- The first `switch` of `SafeStoreNode` ("Check if node is acceptable"): true when the
function returns false there. The relation type has two values, so the `default` branch
(which throws) is never taken. -/
def locallyRejected (env : Env D) (myNodeInfo : NodeInfo D) (db : List (NodeDbEntry D))
    (entry : NodeDbEntry D) : Bool :=
  match entry.relationType with
  | NodeRelationType.Neighbour =>
      decide (Db.GetNodeCount db NodeRelationType.Neighbour ≥ NEIGHBOURHOOD_MAX_NODE_COUNT) ||
      decide (env.GetDistanceKm myNodeInfo.location entry.location ≥ NEIGHBOURHOOD_MAX_RANGE_KM)
  | NodeRelationType.Colleague => BubbleOverlaps env myNodeInfo db entry.location

/-- The remote call by which the initiator asks for permission. -/
def AskPermission (env : Env D) (myNodeInfo : NodeInfo D) (s : Sys D)
    (relationType : NodeRelationType) (conn : Conn) : Except Err Bool × Sys D :=
  match relationType with
  | NodeRelationType.Colleague =>
      let r := env.AcceptColleague s.trace conn myNodeInfo
      (r, s.log (Event.AcceptColleague conn myNodeInfo r))
  | NodeRelationType.Neighbour =>
      let r := env.AcceptNeighbour s.trace conn myNodeInfo
      (r, s.log (Event.AcceptNeighbour conn myNodeInfo r))

/-- The last statement of the `try` block of `SafeStoreNode`; an exception of `Store` is
caught and the function returns false. -/
def storeOrFalse (env : Env D) (s : Sys D) (entry : NodeDbEntry D) : Bool × Sys D :=
  match StoreEntry env s entry with
  | (Except.ok b, s1) => (b, s1)
  | (Except.error _, s1) => (false, s1)

/-- The statement "If no connection argument is specified, try connecting to candidate
node" of `SafeStoreNode`. -/
def obtainConnection (env : Env D) (myNodeInfo : NodeInfo D) (s : Sys D) (entry : NodeDbEntry D)
    (nodeConnection : Option Conn) : Option Conn × Sys D :=
  match nodeConnection with
  | none => SafeConnectTo env myNodeInfo s entry.profile
  | some conn => (some conn, s)

/-- The block of `SafeStoreNode` for the initiator role: false when the function returns
false inside it (no connection, permission refused, or an exception that is caught), true
when control reaches the `Store` call. -/
def initiatorHandshake (env : Env D) (myNodeInfo : NodeInfo D) (s : Sys D)
    (entry : NodeDbEntry D) (nodeConnection : Option Conn) : Bool × Sys D :=
  match obtainConnection env myNodeInfo s entry nodeConnection with
  | (none, s1) => (false, s1)
  | (some conn, s1) =>
      -- Ask for its permission to add it
      match AskPermission env myNodeInfo s1 entry.relationType conn with
      | (Except.ok permitted, s2) => (permitted, s2)
      | (Except.error _, s2) => (false, s2)

def SafeStoreNode (env : Env D) (myNodeInfo : NodeInfo D) (s : Sys D) (entry : NodeDbEntry D)
    (nodeConnection : Option Conn) : Bool × Sys D :=
  -- Check if node is acceptable
  if locallyRejected env myNodeInfo s.db entry then (false, s)
  else
    match entry.roleType with
    | NodeContactRoleType.Initiator =>
        match initiatorHandshake env myNodeInfo s entry nodeConnection with
        | (true, s2) => storeOrFalse env s2 entry
        | (false, s2) => (false, s2)
    | NodeContactRoleType.Acceptor => storeOrFalse env s entry

def AcceptColleague (env : Env D) (myNodeInfo : NodeInfo D) (s : Sys D) (newNode : NodeInfo D) :
    Bool × Sys D :=
  SafeStoreNode env myNodeInfo s
    { toNodeInfo := newNode, relationType := NodeRelationType.Colleague,
      roleType := NodeContactRoleType.Acceptor } none

def AcceptNeighbour (env : Env D) (myNodeInfo : NodeInfo D) (s : Sys D) (node : NodeInfo D) :
    Bool × Sys D :=
  SafeStoreNode env myNodeInfo s
    { toNodeInfo := node, relationType := NodeRelationType.Neighbour,
      roleType := NodeContactRoleType.Acceptor } none

/-- The method `Node::RenewNodeConnection`; an exception of `Update` leaves the function. -/
def RenewNodeConnection (env : Env D) (s : Sys D) (updatedNode : NodeInfo D) :
    Except Err Bool × Sys D :=
  match Db.Load s.db updatedNode.profile.id with
  | some storedProfile =>
      if storedProfile.location = updatedNode.location then UpdateEntry env s updatedNode
      else (Except.ok false, s)
  | none => (Except.ok false, s)

/-! ## World discovery -/

/-- The local variables of the seed phase of `DiscoverWorld`. -/
structure SeedPhase (D : Type) where
  triedSeedNodes : List NodeId
  seedNodeColleagueCount : Nat
  randomColleagueCandidates : List (NodeInfo D)
  sys : Sys D

/-- The first `while` loop of `DiscoverWorld`; one unit of fuel per evaluation of the body. -/
def seedLoop (env : Env D) (myNodeInfo : NodeInfo D) (seedNodes : List (NodeInfo D)) :
    Nat → SeedPhase D → Except Fault (SeedPhase D)
  | 0, st =>
      if st.triedSeedNodes.length < seedNodes.length then Except.error Fault.outOfFuel
      else Except.ok st
  | fuel + 1, st =>
      if h : st.triedSeedNodes.length < seedNodes.length then
        -- Select random node from hardwired seed node list
        let value := env.Random st.sys.trace
        let s0 := st.sys.log (Event.Random value)
        let selectedSeedNode := seedNodes.get
          ⟨value % seedNodes.length, Nat.mod_lt _ (Nat.lt_of_le_of_lt (Nat.zero_le _) h)⟩
        -- If node has been already tried and failed, choose another one
        if selectedSeedNode.profile.id ∈ st.triedSeedNodes then
          seedLoop env myNodeInfo seedNodes fuel { st with sys := s0 }
        else
          let tried := st.triedSeedNodes ++ [selectedSeedNode.profile.id]
          -- Try connecting to selected seed node
          match SafeConnectTo env myNodeInfo s0 selectedSeedNode.profile with
          | (none, s1) =>
              seedLoop env myNodeInfo seedNodes fuel { st with triedSeedNodes := tried, sys := s1 }
          | (some conn, s1) =>
              -- And query both a target World Map size and an initial list of random nodes
              let r1 := env.GetNodeCount s1.trace conn NodeRelationType.Colleague
              let s2 := s1.log (Event.GetNodeCount conn NodeRelationType.Colleague r1)
              match r1 with
              | Except.error _ =>
                  seedLoop env myNodeInfo seedNodes fuel
                    { st with triedSeedNodes := tried, sys := s2 }
              | Except.ok count =>
                  let maxNodeCount := min INIT_WORLD_RANDOM_NODE_COUNT count
                  let r2 := env.GetRandomNodes s2.trace conn maxNodeCount Neighbours.Excluded
                  let s3 := s2.log (Event.GetRandomNodes conn maxNodeCount Neighbours.Excluded r2)
                  match r2 with
                  | Except.error _ =>
                      seedLoop env myNodeInfo seedNodes fuel
                        { st with triedSeedNodes := tried, seedNodeColleagueCount := count,
                                  sys := s3 }
                  | Except.ok candidates =>
                      -- If got a reasonable response from a seed server, stop contacting others
                      if count > 0 ∧ candidates ≠ [] then
                        let seedNodeDistance :=
                          env.GetDistanceKm myNodeInfo.location selectedSeedNode.location
                        let seedNodeType :=
                          if seedNodeDistance ≤ NEIGHBOURHOOD_MAX_RANGE_KM
                          then NodeRelationType.Neighbour else NodeRelationType.Colleague
                        let stored := SafeStoreNode env myNodeInfo s3
                          { toNodeInfo := selectedSeedNode, relationType := seedNodeType,
                            roleType := NodeContactRoleType.Initiator } none
                        Except.ok { triedSeedNodes := tried, seedNodeColleagueCount := count,
                                    randomColleagueCandidates := candidates, sys := stored.2 }
                      else
                        seedLoop env myNodeInfo seedNodes fuel
                          { triedSeedNodes := tried, seedNodeColleagueCount := count,
                            randomColleagueCandidates := candidates, sys := s3 }
      else Except.ok st

/-- The innermost `while` loop of `DiscoverWorld` ("pick some more random candidates");
the answer `none` stands for the `return false` inside it. -/
def refillLoop (env : Env D) (myNodeInfo : NodeInfo D) :
    Nat → Sys D → Except Fault (Option (List (NodeInfo D)) × Sys D)
  | 0, _ => Except.error Fault.outOfFuel
  | fuel + 1, s =>
      -- Select random node that we already know so far
      let value := env.Random s.trace
      let s0 := s.log (Event.Random value)
      match Db.GetRandomNodes s0.db value 1 Neighbours.Excluded with
      | [] => Except.ok (none, s0)
      | front :: rest =>
          -- Connect to selected random node
          match SafeConnectTo env myNodeInfo s0 front.profile with
          | (none, s1) => Except.ok (some (front :: rest), s1)
          | (some conn, s1) =>
              -- Ask for random colleague candidates
              let r := env.GetRandomNodes s1.trace conn INIT_WORLD_RANDOM_NODE_COUNT
                Neighbours.Excluded
              let s2 := s1.log
                (Event.GetRandomNodes conn INIT_WORLD_RANDOM_NODE_COUNT Neighbours.Excluded r)
              match r with
              | Except.error _ => Except.ok (some (front :: rest), s2)
              | Except.ok [] => refillLoop env myNodeInfo fuel s2
              | Except.ok (c :: cs) => Except.ok (some (c :: cs), s2)

/-- The `for` loop of `DiscoverWorld` that fills the world map. -/
def fillLoop (env : Env D) (myNodeInfo : NodeInfo D) (targetColleageCound : Nat) :
    Nat → Nat → List (NodeInfo D) → Sys D → Except Fault (Bool × Sys D)
  | 0, addedColleagueCount, _, s =>
      if addedColleagueCount < targetColleageCound then Except.error Fault.outOfFuel
      else Except.ok (true, s)
  | fuel + 1, addedColleagueCount, randomColleagueCandidates, s =>
      if addedColleagueCount < targetColleageCound then
        match randomColleagueCandidates.getLast? with
        | some nodeInfo =>
            -- Pick a single node from the candidate list and try to make it a colleague node
            match SafeStoreNode env myNodeInfo s
                { toNodeInfo := nodeInfo, relationType := NodeRelationType.Colleague,
                  roleType := NodeContactRoleType.Initiator } none with
            | (true, s1) =>
                fillLoop env myNodeInfo targetColleageCound fuel (addedColleagueCount + 1)
                  randomColleagueCandidates.dropLast s1
            | (false, s1) =>
                fillLoop env myNodeInfo targetColleageCound fuel addedColleagueCount
                  randomColleagueCandidates.dropLast s1
        | none =>
            -- We ran out of colleague candidates, pick some more random candidates
            match refillLoop env myNodeInfo (fuel + 1) s with
            | Except.error f => Except.error f
            | Except.ok (none, s1) => Except.ok (false, s1)
            | Except.ok (some candidates, s1) =>
                fillLoop env myNodeInfo targetColleageCound fuel addedColleagueCount candidates s1
      else Except.ok (true, s)

def DiscoverWorld (env : Env D) (myNodeInfo : NodeInfo D) (seedNodes : List (NodeInfo D))
    (fuel : Nat) (s : Sys D) : Except Fault (Bool × Sys D) :=
  match seedLoop env myNodeInfo seedNodes fuel
      { triedSeedNodes := [], seedNodeColleagueCount := 0, randomColleagueCandidates := [],
        sys := s } with
  | Except.error f => Except.error f
  | Except.ok st =>
      -- Check if all seed nodes tried and failed
      if st.seedNodeColleagueCount = 0 ∧ st.randomColleagueCandidates = [] ∧
          st.triedSeedNodes.length = seedNodes.length ∧
          -- This still might be normal if we are the very first seed node of the network
          (seedNodes.find? (fun seedProfile => decide (myNodeInfo.profile = seedProfile.profile)))
            = none
      then Except.ok (false, st.sys)
      else
        -- We received a reasonable random node list from a seed, try to fill in our world map
        fillLoop env myNodeInfo (fillTarget st.seedNodeColleagueCount) fuel 0
          st.randomColleagueCandidates st.sys

/-! ## Neighbourhood discovery -/

/-- The condition of the first `while` loop of `DiscoverNeighbourhood`; `front()` is only
evaluated when the sizes agree. -/
def closestChanged (oldClosestNode newClosestNode : List (NodeInfo D)) : Except Fault Bool :=
  if oldClosestNode.length ≠ newClosestNode.length then Except.ok true
  else
    match oldClosestNode.head?, newClosestNode.head? with
    | some o, some n => Except.ok (decide (o.profile.id ≠ n.profile.id))
    | _, _ => Except.error Fault.emptyFront

/-- The first `while` loop of `DiscoverNeighbourhood` ("asking the closest node for an even
closer node"); the answer `none` stands for the `return false` inside it. -/
def descentLoop (env : Env D) (myNodeInfo : NodeInfo D) :
    Nat → List (NodeInfo D) → List (NodeInfo D) → Sys D →
      Except Fault (Option (List (NodeInfo D)) × Sys D)
  | 0, oldClosestNode, newClosestNode, s =>
      match closestChanged oldClosestNode newClosestNode with
      | Except.error f => Except.error f
      | Except.ok false => Except.ok (some newClosestNode, s)
      | Except.ok true => Except.error Fault.outOfFuel
  | fuel + 1, oldClosestNode, newClosestNode, s =>
      match closestChanged oldClosestNode newClosestNode with
      | Except.error f => Except.error f
      | Except.ok false => Except.ok (some newClosestNode, s)
      | Except.ok true =>
          match newClosestNode.head? with
          | none => Except.error Fault.emptyFront
          | some front =>
              match SafeConnectTo env myNodeInfo s front.profile with
              | (none, s1) => Except.ok (none, s1)
              | (some conn, s1) =>
                  let r := env.GetClosestNodes s1.trace conn myNodeInfo.location none 1
                    Neighbours.Included
                  let s2 := s1.log (Event.GetClosestNodes conn myNodeInfo.location none 1
                    Neighbours.Included r)
                  match r with
                  | Except.ok closer =>
                      descentLoop env myNodeInfo fuel newClosestNode closer s2
                  | Except.error _ =>
                      descentLoop env myNodeInfo fuel newClosestNode newClosestNode s2

/-- The second `while` loop of `DiscoverNeighbourhood` ("fill neighbourhood map until limit
reached or no new nodes left to ask"). Nothing is ever added to `neighbourCandidates`. -/
def expandLoop (env : Env D) (myNodeInfo : NodeInfo D) (neighbourCandidates : List (NodeInfo D)) :
    Nat → List (NodeInfo D) → List NodeId → Sys D → Except Fault (Bool × Sys D)
  | 0, nodesToAskQueue, _, s =>
      if neighbourCandidates.length < NEIGHBOURHOOD_MAX_NODE_COUNT ∧ nodesToAskQueue ≠ [] then
        Except.error Fault.outOfFuel
      else Except.ok (true, s)
  | fuel + 1, nodesToAskQueue, askedNodeIds, s =>
      if neighbourCandidates.length < NEIGHBOURHOOD_MAX_NODE_COUNT then
        match nodesToAskQueue with
        | [] => Except.ok (true, s)
        | neighbourCandidate :: queue =>
            -- Skip it if has been processed already
            if neighbourCandidate.profile.id ∈ askedNodeIds then
              expandLoop env myNodeInfo neighbourCandidates fuel queue askedNodeIds s
            else
              -- Try connecting to the node
              match SafeConnectTo env myNodeInfo s neighbourCandidate.profile with
              | (none, s1) =>
                  expandLoop env myNodeInfo neighbourCandidates fuel queue askedNodeIds s1
              | (some conn, s1) =>
                  -- Try to add node as neighbour, reusing connection
                  let stored := SafeStoreNode env myNodeInfo s1
                    { toNodeInfo := neighbourCandidate,
                      relationType := NodeRelationType.Neighbour,
                      roleType := NodeContactRoleType.Initiator } (some conn)
                  let s2 := stored.2
                  -- Get its neighbours closest to us
                  let r := env.GetClosestNodes s2.trace conn myNodeInfo.location
                    (some (INIT_NEIGHBOURHOOD_QUERY_NODE_COUNT : D)) 10 Neighbours.Included
                  let s3 := s2.log (Event.GetClosestNodes conn myNodeInfo.location
                    (some (INIT_NEIGHBOURHOOD_QUERY_NODE_COUNT : D)) 10 Neighbours.Included r)
                  match r with
                  | Except.ok newNeighbourCandidates =>
                      -- Mark current node as processed and append its new neighbours
                      expandLoop env myNodeInfo neighbourCandidates fuel
                        (queue ++ newNeighbourCandidates)
                        (neighbourCandidate.profile.id :: askedNodeIds) s3
                  | Except.error _ =>
                      expandLoop env myNodeInfo neighbourCandidates fuel queue askedNodeIds s3
      else Except.ok (true, s)

def DiscoverNeighbourhood (env : Env D) (myNodeInfo : NodeInfo D) (fuel : Nat) (s : Sys D) :
    Except Fault (Bool × Sys D) :=
  -- Get the closest node known to us so far
  match Db.GetClosestNodes env.GetDistanceKm s.db myNodeInfo.location none 1
      Neighbours.Included with
  | [] => Except.ok (false, s)
  | closest :: rest =>
      match descentLoop env myNodeInfo fuel [] (closest :: rest) s with
      | Except.error f => Except.error f
      | Except.ok (none, s1) => Except.ok (false, s1)
      | Except.ok (some newClosestNode, s1) =>
          expandLoop env myNodeInfo [] fuel newClosestNode [] s1

/-! ## Construction -/

/-- The constructor `Node::Node` on a non-null database and connection factory: the state
of the freshly built node, or the exception thrown. -/
def Node (env : Env D) (nodeInfo : NodeInfo D) (seedNodes : List (NodeInfo D))
    (spatialDb : List (NodeDbEntry D)) (ignoreDiscovery : Bool) (fuel : Nat) :
    Except Fault (Sys D) :=
  let s : Sys D := { db := spatialDb, trace := [] }
  if Db.GetNodeCount spatialDb NodeRelationType.Colleague = 0 ∧ ignoreDiscovery = false then
    match DiscoverWorld env nodeInfo seedNodes fuel s with
    | Except.error f => Except.error f
    | Except.ok (false, _) => Except.error (Fault.thrown "Network discovery failed")
    | Except.ok (true, s1) =>
        match DiscoverNeighbourhood env nodeInfo fuel s1 with
        | Except.error f => Except.error f
        | Except.ok (false, _) => Except.error (Fault.thrown "Network discovery failed")
        | Except.ok (true, s2) => Except.ok s2
  else Except.ok s

/-! ## Calls, invariants and sample worlds used by the statements below -/

/-- The operations of a node that can change its database. -/
inductive Call (D : Type) where
  | AcceptColleague (newNode : NodeInfo D)
  | AcceptNeighbour (node : NodeInfo D)
  | RenewNodeConnection (updatedNode : NodeInfo D)
  | SafeStoreNode (entry : NodeDbEntry D) (nodeConnection : Option Conn)

/-- The state after a call. -/
def perform (env : Env D) (myNodeInfo : NodeInfo D) (s : Sys D) : Call D → Sys D
  | Call.AcceptColleague newNode => (AcceptColleague env myNodeInfo s newNode).2
  | Call.AcceptNeighbour node => (AcceptNeighbour env myNodeInfo s node).2
  | Call.RenewNodeConnection updatedNode => (RenewNodeConnection env s updatedNode).2
  | Call.SafeStoreNode entry nodeConnection =>
      (SafeStoreNode env myNodeInfo s entry nodeConnection).2

/-- The entry that a call offers for the colleague view, if it offers one. -/
def Call.colleagueCandidate : Call D → Option (NodeDbEntry D)
  | Call.AcceptColleague newNode =>
      some { toNodeInfo := newNode, relationType := NodeRelationType.Colleague,
             roleType := NodeContactRoleType.Acceptor }
  | Call.SafeStoreNode entry _ =>
      if entry.relationType = NodeRelationType.Colleague then some entry else none
  | _ => none

/-- A store keyed by node id holds at most one entry per id. -/
def UniqueIds (db : List (NodeDbEntry D)) : Prop :=
  (db.map (fun e => e.profile.id)).Nodup

/-- No stored entry carries the given node id. -/
def Absent (id : NodeId) (db : List (NodeDbEntry D)) : Prop :=
  ∀ e ∈ db, e.profile.id ≠ id

/-- The bubbles of two locations do not overlap. -/
def Apart (env : Env D) (myNodeInfo : NodeInfo D) (a b : GpsLocation D) : Prop :=
  GetBubbleSize env myNodeInfo a + GetBubbleSize env myNodeInfo b ≤ env.GetDistanceKm a b

/-- Every two distinct stored colleagues have bubbles that do not overlap. -/
def BubbleInvariant (env : Env D) (myNodeInfo : NodeInfo D) (db : List (NodeDbEntry D)) :
    Prop :=
  ∀ c ∈ db, ∀ c2 ∈ db, c.relationType = NodeRelationType.Colleague →
    c2.relationType = NodeRelationType.Colleague → c.profile.id ≠ c2.profile.id →
    Apart env myNodeInfo c.location c2.location

/-- At most `NEIGHBOURHOOD_MAX_NODE_COUNT` neighbours, each closer than
`NEIGHBOURHOOD_MAX_RANGE_KM`. -/
def NeighbourInvariant (env : Env D) (myNodeInfo : NodeInfo D) (db : List (NodeDbEntry D)) :
    Prop :=
  Db.GetNodeCount db NodeRelationType.Neighbour ≤ NEIGHBOURHOOD_MAX_NODE_COUNT ∧
  ∀ n ∈ db, n.relationType = NodeRelationType.Neighbour →
    env.GetDistanceKm myNodeInfo.location n.location < NEIGHBOURHOOD_MAX_RANGE_KM

/-- The distance function is a metric. -/
def IsMetric (dist : GpsLocation D → GpsLocation D → D) : Prop :=
  (∀ a b, dist a b = 0 ↔ a = b) ∧ (∀ a b, dist a b = dist b a) ∧
  (∀ a b c, dist a c ≤ dist a b + dist b c)

/-- The call threw. -/
def Event.raised : Event D → Bool
  | Event.ConnectTo _ (Except.error _) => true
  | Event.AcceptColleague _ _ (Except.error _) => true
  | Event.AcceptNeighbour _ _ (Except.error _) => true
  | Event.GetNodeCount _ _ (Except.error _) => true
  | Event.GetRandomNodes _ _ _ (Except.error _) => true
  | Event.GetClosestNodes _ _ _ _ _ (Except.error _) => true
  | Event.Store _ (Except.error _) => true
  | Event.Update _ (Except.error _) => true
  | _ => false

/-- The event of asking the peer behind `conn` for permission. -/
def permissionEvent (myNodeInfo : NodeInfo D) (relationType : NodeRelationType) (conn : Conn)
    (result : Except Err Bool) : Event D :=
  match relationType with
  | NodeRelationType.Colleague => Event.AcceptColleague conn myNodeInfo result
  | NodeRelationType.Neighbour => Event.AcceptNeighbour conn myNodeInfo result

/-- The events that a call appended to the trace. -/
def newEvents (before after : Sys D) : List (Event D) :=
  after.trace.drop before.trace.length

/-- What a caught-or-returned boolean answer counts as: an exception counts as false. -/
def granted : Except Err Bool → Bool
  | Except.ok b => b
  | Except.error _ => false

/-- How `SafeStoreNode` came by the connection `conn` to the candidate: it was handed in
(nothing is dialled), or none was handed in, the candidate is not the node itself and the
dial returned `conn`; `dialled` is what this added to the trace. -/
def Obtained (env : Env D) (myNodeInfo : NodeInfo D) (s : Sys D) (entry : NodeDbEntry D)
    (nodeConnection : Option Conn) (conn : Conn) (dialled : List (Event D)) : Prop :=
  (nodeConnection = some conn ∧ dialled = []) ∨
  (nodeConnection = none ∧ entry.profile.id ≠ myNodeInfo.profile.id ∧
    env.ConnectTo s.trace entry.profile = Except.ok (some conn) ∧
    dialled = [Event.ConnectTo entry.profile (Except.ok (some conn))])

/-- The dial of `SafeConnectTo` yields no connection: the target is the node itself, or
the factory throws or hands out a null pointer. -/
def DialFails (env : Env D) (myNodeInfo : NodeInfo D) (s : Sys D) (node : NodeProfile) : Prop :=
  node.id = myNodeInfo.profile.id ∨ ∀ conn, env.ConnectTo s.trace node ≠ Except.ok (some conn)

/-- A point of the plane. -/
def gpsAt (latitude longitude : D) : GpsLocation D :=
  { latitude := latitude, longitude := longitude }

/-- A node with the given id and position. -/
def nodeAt (id : NodeId) (latitude longitude : D) : NodeInfo D :=
  { profile := { id := id, ipv4Address := "10.0.0.1", ipv4Port := 5555, ipv6Address := "",
                 ipv6Port := 0 },
    location := gpsAt latitude longitude }

/-- An entry for the node with the given id and position. -/
def entryAt (id : NodeId) (latitude longitude : D) (relationType : NodeRelationType)
    (roleType : NodeContactRoleType) : NodeDbEntry D :=
  { toNodeInfo := nodeAt id latitude longitude, relationType := relationType,
    roleType := roleType }

/-- A stored colleague with the given id and position. -/
def colleagueAt (id : NodeId) (latitude longitude : D) : NodeDbEntry D :=
  { toNodeInfo := nodeAt id latitude longitude, relationType := NodeRelationType.Colleague,
    roleType := NodeContactRoleType.Acceptor }

/-- A sample world: the plane with the taxicab metric, no peer can be dialled, and the
backend carries out every `Store` and `Update`. -/
def quietEnv (log10 : D → D) : Env D :=
  { log10 := log10
    GetDistanceKm := fun a b => abs (a.latitude - b.latitude) + abs (a.longitude - b.longitude)
    ConnectTo := fun _ _ => Except.error "unreachable"
    AcceptColleague := fun _ _ _ => Except.ok true
    AcceptNeighbour := fun _ _ _ => Except.ok true
    GetNodeCount := fun _ _ _ => Except.ok 0
    GetRandomNodes := fun _ _ _ _ => Except.ok []
    GetClosestNodes := fun _ _ _ _ _ _ => Except.ok []
    StoreResult := fun _ _ => Except.ok true
    UpdateResult := fun _ _ => Except.ok true
    Random := fun trace => trace.length }

/-- A sample world like `quietEnv`, but every dial succeeds (and every peer accepts). -/
def openEnv (log10 : D → D) : Env D :=
  { quietEnv log10 with ConnectTo := fun _ _ => Except.ok (some 1) }

/-- A sample world like `quietEnv`, but the persistence backend throws on every `Store`. -/
def brokenStoreEnv (log10 : D → D) : Env D :=
  { quietEnv log10 with StoreResult := fun _ _ => Except.error "database failure" }

/-- A sample world like `quietEnv` whose coordinates are degrees: about 111 km per degree. -/
def degreeEnv (log10 : D → D) : Env D :=
  { quietEnv log10 with
    GetDistanceKm := fun a b =>
      111 * (abs (a.latitude - b.latitude) + abs (a.longitude - b.longitude)) }

/-- A sample world like `openEnv`, with coordinates in degrees, in which every peer answers
`GetNodeCount` with `count` and `GetRandomNodes` with `candidates`. -/
def answeringEnv (log10 : D → D) (count : Nat) (candidates : List (NodeInfo D)) : Env D :=
  { openEnv log10 with
    GetDistanceKm := (degreeEnv log10).GetDistanceKm
    GetNodeCount := fun _ _ _ => Except.ok count
    GetRandomNodes := fun _ _ _ _ => Except.ok candidates }

/-- The value that a discovery function returned, if it returned. -/
def returned (r : Except Fault (Bool × Sys D)) : Option Bool :=
  match r with
  | Except.ok (b, _) => some b
  | Except.error _ => none

/-- The local variables of `DiscoverWorld` when it enters its seed loop. -/
def seedPhaseStart (s : Sys D) : SeedPhase D :=
  { triedSeedNodes := [], seedNodeColleagueCount := 0, randomColleagueCandidates := [],
    sys := s }

/-- The own profile is one of the declared seeds. -/
def isSeed (myNodeInfo : NodeInfo D) (seedNodes : List (NodeInfo D)) : Bool :=
  seedNodes.any (fun seed => decide (myNodeInfo.profile = seed.profile))

/-- No seed ever reports anything: every `GetNodeCount` answer is zero or an exception and
every `GetRandomNodes` answer is the empty list or an exception (unreachable seeds
included, they are never asked). -/
def SeedsAnswerNothing (env : Env D) : Prop :=
  (∀ trace conn nodeType, env.GetNodeCount trace conn nodeType = Except.ok 0 ∨
    ∃ what, env.GetNodeCount trace conn nodeType = Except.error what) ∧
  (∀ trace conn maxNodeCount filter,
    env.GetRandomNodes trace conn maxNodeCount filter = Except.ok [] ∨
    ∃ what, env.GetRandomNodes trace conn maxNodeCount filter = Except.error what)

/-- The entry that the seed phase of `DiscoverWorld` submits for a seed that answered: a
neighbour when the seed is within `NEIGHBOURHOOD_MAX_RANGE_KM`, a colleague otherwise, in
the initiator role. -/
def seedAdmission (env : Env D) (myNodeInfo : NodeInfo D) (seed : NodeInfo D) : NodeDbEntry D :=
  { toNodeInfo := seed,
    relationType :=
      if env.GetDistanceKm myNodeInfo.location seed.location ≤ NEIGHBOURHOOD_MAX_RANGE_KM
      then NodeRelationType.Neighbour else NodeRelationType.Colleague,
    roleType := NodeContactRoleType.Initiator }

/-- The state after a seed behind `conn` has answered `GetNodeCount` with `count` and
`GetRandomNodes` with `candidates`. -/
def afterSeedAnswers (s1 : Sys D) (conn : Conn) (count : Nat) (candidates : List (NodeInfo D)) :
    Sys D :=
  (s1.log (Event.GetNodeCount conn NodeRelationType.Colleague (Except.ok count))).log
    (Event.GetRandomNodes conn (min INIT_WORLD_RANDOM_NODE_COUNT count) Neighbours.Excluded
      (Except.ok candidates))

/-- The successful `Store` of an initiator-role entry of the given relation. -/
def Event.isAdmission (relationType : NodeRelationType) : Event D → Bool
  | Event.Store entry (Except.ok true) =>
      decide (entry.relationType = relationType ∧
        entry.roleType = NodeContactRoleType.Initiator)
  | _ => false

/-- The number of nodes admitted in the initiator role into the given relation, as the
trace records it. -/
def admittedCount (relationType : NodeRelationType) (events : List (Event D)) : Nat :=
  (events.filter (Event.isAdmission relationType)).length

/-- The dial of a peer with the given node id. -/
def Event.isDial (id : NodeId) : Event D → Bool
  | Event.ConnectTo node _ => decide (node.id = id)
  | _ => false

/-- How often the peer with the given node id has been dialled, as the trace records it. -/
def dialCount (id : NodeId) (events : List (Event D)) : Nat :=
  (events.filter (Event.isDial id)).length

/-- A sample world like `quietEnv` whose random generator returns the same value on every
draw. -/
def constantDrawEnv (log10 : D → D) (value : Nat) : Env D :=
  { quietEnv log10 with Random := fun _ => value }

/-- A sample world like `quietEnv` with three peers: "a" and "c" can be dialled, "b"
cannot. Asked for the one node closest, every peer names "a"; asked for its neighbours,
"a" names "b" and "c", and "c" names "b". Nobody accepts a request. -/
def relayEnv (log10 : D → D) : Env D :=
  { quietEnv log10 with
    ConnectTo := fun _ node =>
      if node.id = "a" then Except.ok (some 1)
      else if node.id = "c" then Except.ok (some 2)
      else Except.error "unreachable"
    AcceptColleague := fun _ _ _ => Except.ok false
    AcceptNeighbour := fun _ _ _ => Except.ok false
    GetClosestNodes := fun _ conn _ _ maxNodeCount _ =>
      if maxNodeCount = 1 then Except.ok [nodeAt "a" 0 1]
      else if conn = 1 then Except.ok [nodeAt "b" 0 2, nodeAt "c" 0 3]
      else Except.ok [nodeAt "b" 0 2] }

/-- The peer number `n` of a chain of peers that all sit at the origin; its id is the
letter p repeated `n` times. -/
def chainPeer (n : Nat) : NodeInfo D :=
  nodeAt (String.mk (List.replicate n 'p')) 0 0

/-- A sample world like `quietEnv` with a chain of `length` peers: every dial succeeds (the
connection to a peer is numbered by the length of its id), nobody accepts a request; asked
for the one node closest, a peer names the first peer of the chain, and asked for its
neighbours, peer `n` names peer `n + 1`, the last one names nobody. -/
def chainEnv (log10 : D → D) (length : Nat) : Env D :=
  { quietEnv log10 with
    ConnectTo := fun _ node => Except.ok (some node.id.length)
    AcceptColleague := fun _ _ _ => Except.ok false
    AcceptNeighbour := fun _ _ _ => Except.ok false
    GetClosestNodes := fun _ conn _ _ maxNodeCount _ =>
      if maxNodeCount = 1 then Except.ok [chainPeer 1]
      else if conn < length then Except.ok [chainPeer (conn + 1)]
      else Except.ok [] }

/-- The request to a peer to accept the node as a neighbour. -/
def Event.isNeighbourRequest : Event D → Bool
  | Event.AcceptNeighbour _ _ _ => true
  | _ => false

/-- The number of Neighbour-Initiator admission attempts that reached the peer, as the
trace records it. -/
def neighbourRequests (events : List (Event D)) : Nat :=
  (events.filter Event.isNeighbourRequest).length

/-- A sample world like `openEnv`, but every `GetClosestNodes` query to a peer throws. -/
def throwingEnv (log10 : D → D) : Env D :=
  { openEnv log10 with GetClosestNodes := fun _ _ _ _ _ _ => Except.error "query failed" }

/-- A sample world like `openEnv` in which every peer answers every `GetClosestNodes` query
with the two nodes "a" and "b", whatever the requested maximum. -/
def pairEnv (log10 : D → D) : Env D :=
  { openEnv log10 with
    GetClosestNodes := fun _ _ _ _ _ _ => Except.ok [nodeAt "a" 0 1, nodeAt "b" 0 2] }

/-- A sample world like `answeringEnv` in which every peer answers `GetNodeCount` with
`count` and then throws on `GetRandomNodes`. -/
def countOnlyEnv (log10 : D → D) (count : Nat) : Env D :=
  { answeringEnv log10 count [] with
    GetRandomNodes := fun _ _ _ _ => Except.error "query failed" }

/-- The first entry of the seed list, as the own node info of the founding node. -/
def firstSeed : NodeInfo D :=
  { profile := { id := "FirstSeedNodeId", ipv4Address := "1.2.3.4", ipv4Port := 5555,
                 ipv6Address := "", ipv6Port := 0 },
    location := gpsAt 1 2 }

/-! ## The services registry -/

/-- The member `_services`, an `unordered_map` from service type to service profile,
as the list of its key and value pairs. -/
abbrev Services (ServiceType ServiceProfile : Type) := List (ServiceType × ServiceProfile)

/-- The lookup `_services.find(serviceType)`; `none` stands for `_services.end()`. -/
def Services.find {ServiceType ServiceProfile : Type} [DecidableEq ServiceType]
    (services : Services ServiceType ServiceProfile) (serviceType : ServiceType) :
    Option ServiceProfile :=
  (List.find? (fun kv => decide (kv.1 = serviceType)) services).map (fun kv => kv.2)

/-- The assignment `_services[serviceType] = serviceInfo`: overwrites the value of a
present key, inserts an absent one. -/
def Services.assign {ServiceType ServiceProfile : Type} [DecidableEq ServiceType]
    (services : Services ServiceType ServiceProfile) (serviceType : ServiceType)
    (serviceInfo : ServiceProfile) : Services ServiceType ServiceProfile :=
  if (Services.find services serviceType).isSome then
    List.map (fun kv => if kv.1 = serviceType then (serviceType, serviceInfo) else kv) services
  else services ++ [(serviceType, serviceInfo)]

/-- The removal `_services.erase(serviceType)`. -/
def Services.erase {ServiceType ServiceProfile : Type} [DecidableEq ServiceType]
    (services : Services ServiceType ServiceProfile) (serviceType : ServiceType) :
    Services ServiceType ServiceProfile :=
  List.filter (fun kv => decide (kv.1 ≠ serviceType)) services

/-- The method `Node::RegisterService`: the exception thrown, if any, and the registry
afterwards. -/
def RegisterService {ServiceType ServiceProfile : Type} [DecidableEq ServiceType]
    (services : Services ServiceType ServiceProfile) (serviceType : ServiceType)
    (serviceInfo : ServiceProfile) : Except Err Unit × Services ServiceType ServiceProfile :=
  match Services.find services serviceType with
  | some _ => (Except.error "Service type is already registered", services)
  | none => (Except.ok (), Services.assign services serviceType serviceInfo)

/-- The method `Node::RemoveService`. -/
def RemoveService {ServiceType ServiceProfile : Type} [DecidableEq ServiceType]
    (services : Services ServiceType ServiceProfile) (serviceType : ServiceType) :
    Except Err Unit × Services ServiceType ServiceProfile :=
  match Services.find services serviceType with
  | none => (Except.error "Service type was not registered", services)
  | some _ => (Except.ok (), Services.erase services serviceType)

/-! ## Message framing (`src/src/network.cpp`) -/

def MessageHeaderSize : Nat := 5

def MessageSizeOffset : Nat := 1

def MaxMessageSize : Nat := 1024 * 1024

/-- The function `GetMessageSizeFromHeader`. Each `char` is read as a `uint8_t` (its value
modulo 256); the sum is formed in `int` and converted to `uint32_t` on return, which is
the sum of the shifted bytes modulo `2^32`. -/
def GetMessageSizeFromHeader (bytes : List Nat) : Nat :=
  let data := fun (i : Nat) => bytes.getD i 0 % 256
  (data 0 + (data 1 <<< 8) + (data 2 <<< 16) + (data 3 <<< 24)) % 2 ^ 32

/-- The socket stream `_stream`: the bytes that the peer sends and that have not been read
yet, and the state flag that `good()` reports. -/
structure Stream where
  incoming : List Nat
  good : Bool
deriving DecidableEq, Repr

/-- The call `_stream.read(buffer, count)` on a zero-filled buffer: the buffer afterwards
and the stream afterwards. A stream that is not good reads nothing; a stream that ends
before `count` bytes have arrived delivers what there is and is no longer good. -/
def Stream.read (stream : Stream) (count : Nat) : List Nat × Stream :=
  if stream.good then
    if count ≤ stream.incoming.length then
      (stream.incoming.take count, { incoming := stream.incoming.drop count, good := true })
    else
      (stream.incoming ++ List.replicate (count - stream.incoming.length) 0,
       { incoming := [], good := false })
  else (List.replicate count 0, stream)

/-- The method `ProtoBufTcpStreamSession::ReceiveMessage`: the exception thrown or the
pointer returned (`none` is `nullptr`), and the stream afterwards. `parse` stands for
`MessageWithHeader::ParseFromString` of the protocol buffer library. -/
def ReceiveMessage {Message : Type} (parse : List Nat → Message) (stream : Stream) :
    Except Err (Option Message) × Stream :=
  -- Allocate a buffer for the message header and read it
  match stream.read MessageHeaderSize with
  | (header, s1) =>
      if s1.good = false then (Except.ok none, s1)
      else
        -- Extract message size from the header to know how many bytes to read
        let bodySize := GetMessageSizeFromHeader (header.drop MessageSizeOffset)
        if bodySize > MaxMessageSize then
          (Except.error ("Message size is over limit: " ++ toString bodySize), s1)
        else
          -- Extend buffer to fit remaining message size and read it
          match s1.read bodySize with
          | (body, s2) => (Except.ok (some (parse (header ++ body))), s2)

end Node

/-! ## Theorems -/

section Theorems

set_option linter.unusedSectionVars false

variable [LinearOrderedField D]

/-! ### The fill target in single precision -/

theorem log2_eq_of_bounds (n k : Nat) (h1 : 2 ^ k ≤ n) (h2 : n < 2 ^ (k + 1)) :
    Nat.log2 n = k := by
  have hn : n ≠ 0 := by
    intro h0
    rw [h0] at h1
    exact absurd h1 (by simp)
  have ha := (Nat.le_log2 hn).2 h1
  have hb := (Nat.log2_lt hn).2 h2
  omega

theorem roundToFloat_small (n : Nat) (h : n < 2 ^ 24) : roundToFloat n = n := by
  have hshift : Nat.log2 n + 1 - 24 = 0 := by
    by_cases hn : n = 0
    · subst hn
      simp [Nat.log2]
    · have := (Nat.log2_lt hn).2 h
      omega
  unfold roundToFloat
  simp [hshift, Nat.mod_one]

theorem fillTarget_small (n : Nat) (h : 3 * n < 2 ^ 24) : fillTarget n = 3 * n / 4 := by
  unfold fillTarget
  rw [roundToFloat_small n (by omega), roundToFloat_small (3 * n) h]

theorem fillTarget_zero : fillTarget 0 = 0 := fillTarget_small 0 (by norm_num)

/-- The rounding of a number with `24 + k` bits drops its `k` low bits. -/
theorem roundToFloat_of_bits (n k : Nat) (h1 : 2 ^ (k + 23) ≤ n) (h2 : n < 2 ^ (k + 24)) :
    roundToFloat n =
      if 2 ^ k < 2 * (n % 2 ^ k) ∨ (2 * (n % 2 ^ k) = 2 ^ k ∧ n / 2 ^ k % 2 = 1)
      then (n / 2 ^ k + 1) * 2 ^ k else n / 2 ^ k * 2 ^ k := by
  have hlog := log2_eq_of_bounds n (k + 23) h1 h2
  have hshift : Nat.log2 n + 1 - 24 = k := by omega
  unfold roundToFloat
  simp only [hshift]

/-- Between `2^24` and `2^25` a `float` represents the even numbers only. -/
theorem roundToFloat_25 (n : Nat) (h1 : 2 ^ 24 ≤ n) (h2 : n < 2 ^ 25) :
    roundToFloat n =
      if n % 2 = 1 ∧ n / 2 % 2 = 1 then (n / 2 + 1) * 2 else n / 2 * 2 := by
  have hlog := log2_eq_of_bounds n 24 h1 h2
  unfold roundToFloat
  simp only [hlog]
  have hr : n % 2 = 0 ∨ n % 2 = 1 := by omega
  rcases hr with hr | hr
  · simp [hr]
  · simp [hr]

/-- Below 5592409 the single-precision target is the integer part of `0.75 * n`. -/
theorem fillTarget_eq_floor (n : Nat) (h : n < 5592409) : fillTarget n = 3 * n / 4 := by
  by_cases hs : 3 * n < 2 ^ 24
  · exact fillTarget_small n hs
  · have hcases : n = 5592406 ∨ n = 5592407 ∨ n = 5592408 := by omega
    unfold fillTarget
    rw [roundToFloat_small n (by omega)]
    rcases hcases with rfl | rfl | rfl
    · rw [roundToFloat_25 _ (by norm_num) (by norm_num)]
      norm_num
    · rw [roundToFloat_25 _ (by norm_num) (by norm_num)]
      norm_num
    · rw [roundToFloat_25 _ (by norm_num) (by norm_num)]
      norm_num

theorem fillTarget_of_rounded (n a b : Nat) (h1 : roundToFloat n = a)
    (h2 : roundToFloat (3 * a) = b) : fillTarget n = b / 4 := by
  unfold fillTarget
  rw [h1, h2]

/-- At 5592409 the single-precision target is above the integer part of `0.75 * n` (the
product rounds up), and at 22369628 it is below it (the product rounds down). -/
theorem fillTarget_off_floor :
    fillTarget 5592409 = 4194307 ∧ 3 * 5592409 / 4 = 4194306 ∧
    fillTarget 22369628 = 16777220 ∧ 3 * 22369628 / 4 = 16777221 := by
  have ha : roundToFloat 5592409 = 5592409 := roundToFloat_small 5592409 (by norm_num)
  have hb : roundToFloat (3 * 5592409) = 16777228 :=
    (roundToFloat_of_bits (3 * 5592409) 1 (by norm_num) (by norm_num)).trans (by norm_num)
  have hc : roundToFloat 22369628 = 22369628 :=
    (roundToFloat_of_bits 22369628 1 (by norm_num) (by norm_num)).trans (by norm_num)
  have hd : roundToFloat (3 * 22369628) = 67108880 :=
    (roundToFloat_of_bits (3 * 22369628) 3 (by norm_num) (by norm_num)).trans (by norm_num)
  exact ⟨(fillTarget_of_rounded _ _ _ ha hb).trans (by norm_num), by norm_num,
    (fillTarget_of_rounded _ _ _ hc hd).trans (by norm_num), by norm_num⟩

/-! ### Basic facts about the admission steps -/

theorem SafeStoreNode_rejected (env : Env D) (myNodeInfo : NodeInfo D) (s : Sys D)
    (entry : NodeDbEntry D) (nodeConnection : Option Conn)
    (h : locallyRejected env myNodeInfo s.db entry = true) :
    SafeStoreNode env myNodeInfo s entry nodeConnection = (false, s) := by
  simp [SafeStoreNode, h]

theorem SafeStoreNode_acceptor (env : Env D) (myNodeInfo : NodeInfo D) (s : Sys D)
    (entry : NodeDbEntry D) (nodeConnection : Option Conn)
    (h : locallyRejected env myNodeInfo s.db entry = false)
    (hrole : entry.roleType = NodeContactRoleType.Acceptor) :
    SafeStoreNode env myNodeInfo s entry nodeConnection = storeOrFalse env s entry := by
  simp [SafeStoreNode, h, hrole]

theorem SafeConnectTo_db (env : Env D) (myNodeInfo : NodeInfo D) (s : Sys D)
    (node : NodeProfile) : (SafeConnectTo env myNodeInfo s node).2.db = s.db := by
  unfold SafeConnectTo
  by_cases h : node.id = myNodeInfo.profile.id
  · simp [h]
  · cases hc : env.ConnectTo s.trace node <;> simp [h, hc, Sys.log]

theorem AskPermission_db (env : Env D) (myNodeInfo : NodeInfo D) (s : Sys D)
    (relationType : NodeRelationType) (conn : Conn) :
    (AskPermission env myNodeInfo s relationType conn).2.db = s.db := by
  cases relationType <;> rfl

theorem storeOrFalse_db (env : Env D) (s : Sys D) (entry : NodeDbEntry D) :
    (storeOrFalse env s entry).2.db = s.db ∨
    ((storeOrFalse env s entry).2.db = Db.Store s.db entry ∧
      (storeOrFalse env s entry).1 = true) := by
  unfold storeOrFalse StoreEntry
  rcases h : env.StoreResult s.trace entry with e | b
  · left; simp [h, Sys.log]
  · cases b
    · left; simp [h, Sys.log]
    · right; simp [h]

theorem obtainConnection_db (env : Env D) (myNodeInfo : NodeInfo D) (s : Sys D)
    (entry : NodeDbEntry D) (nodeConnection : Option Conn) :
    (obtainConnection env myNodeInfo s entry nodeConnection).2.db = s.db := by
  cases nodeConnection with
  | none => exact SafeConnectTo_db env myNodeInfo s entry.profile
  | some c => rfl

theorem initiatorHandshake_db (env : Env D) (myNodeInfo : NodeInfo D) (s : Sys D)
    (entry : NodeDbEntry D) (nodeConnection : Option Conn) :
    (initiatorHandshake env myNodeInfo s entry nodeConnection).2.db = s.db := by
  have h1 := obtainConnection_db env myNodeInfo s entry nodeConnection
  unfold initiatorHandshake
  rcases ho : obtainConnection env myNodeInfo s entry nodeConnection with ⟨c, s1⟩
  rw [ho] at h1
  cases c with
  | none => exact h1
  | some conn =>
      have h2 := AskPermission_db env myNodeInfo s1 entry.relationType conn
      rcases ha : AskPermission env myNodeInfo s1 entry.relationType conn with ⟨r, s2⟩
      rw [ha] at h2
      cases r <;> simp_all

/-- Whatever `SafeStoreNode` does, the database afterwards is the old one, or the old one
with the entry stored (and then the function returned true). -/
theorem SafeStoreNode_db (env : Env D) (myNodeInfo : NodeInfo D) (s : Sys D)
    (entry : NodeDbEntry D) (nodeConnection : Option Conn) :
    (SafeStoreNode env myNodeInfo s entry nodeConnection).2.db = s.db ∨
    (locallyRejected env myNodeInfo s.db entry = false ∧
      (SafeStoreNode env myNodeInfo s entry nodeConnection).2.db = Db.Store s.db entry ∧
      (SafeStoreNode env myNodeInfo s entry nodeConnection).1 = true) := by
  by_cases hrej : locallyRejected env myNodeInfo s.db entry = true
  · left; rw [SafeStoreNode_rejected env myNodeInfo s entry nodeConnection hrej]
  · have hrej2 : locallyRejected env myNodeInfo s.db entry = false := by
      simpa using hrej
    cases hrole : entry.roleType with
    | Acceptor =>
        rw [SafeStoreNode_acceptor env myNodeInfo s entry nodeConnection hrej2 hrole]
        rcases storeOrFalse_db env s entry with h | h
        · exact Or.inl h
        · exact Or.inr ⟨hrej2, h⟩
    | Initiator =>
        have h1 := initiatorHandshake_db env myNodeInfo s entry nodeConnection
        simp only [SafeStoreNode, hrej2, hrole]
        rcases hh : initiatorHandshake env myNodeInfo s entry nodeConnection with ⟨b, s2⟩
        rw [hh] at h1
        simp only at h1
        cases b with
        | false => left; simpa using h1
        | true =>
            rcases storeOrFalse_db env s2 entry with h | h
            · left; simpa [h1] using h
            · right; exact ⟨trivial, by simpa [h1] using h.1, by simpa using h.2⟩

/-! ### The shape of a run of `SafeStoreNode` -/

theorem SafeConnectTo_self (env : Env D) (myNodeInfo : NodeInfo D) (s : Sys D)
    (node : NodeProfile) (h : node.id = myNodeInfo.profile.id) :
    SafeConnectTo env myNodeInfo s node = (none, s) := by
  simp [SafeConnectTo, h]

theorem SafeConnectTo_other (env : Env D) (myNodeInfo : NodeInfo D) (s : Sys D)
    (node : NodeProfile) (h : node.id ≠ myNodeInfo.profile.id) :
    SafeConnectTo env myNodeInfo s node =
      ((match env.ConnectTo s.trace node with
        | Except.ok c => c
        | Except.error _ => none),
       { db := s.db, trace := s.trace ++ [Event.ConnectTo node (env.ConnectTo s.trace node)] }) := by
  unfold SafeConnectTo
  cases hc : env.ConnectTo s.trace node <;> simp [h, hc, Sys.log]

theorem AskPermission_eq (env : Env D) (myNodeInfo : NodeInfo D) (s : Sys D)
    (relationType : NodeRelationType) (conn : Conn) :
    ∃ r, AskPermission env myNodeInfo s relationType conn =
      (r, { db := s.db, trace := s.trace ++ [permissionEvent myNodeInfo relationType conn r] }) := by
  cases relationType
  · exact ⟨env.AcceptColleague s.trace conn myNodeInfo, rfl⟩
  · exact ⟨env.AcceptNeighbour s.trace conn myNodeInfo, rfl⟩

theorem storeOrFalse_eq (env : Env D) (s : Sys D) (entry : NodeDbEntry D) :
    storeOrFalse env s entry =
      (granted (env.StoreResult s.trace entry),
       { db := if granted (env.StoreResult s.trace entry) = true then Db.Store s.db entry
               else s.db,
         trace := s.trace ++ [Event.Store entry (env.StoreResult s.trace entry)] }) := by
  unfold storeOrFalse StoreEntry
  rcases h : env.StoreResult s.trace entry with e | b
  · simp [granted, Sys.log]
  · cases b <;> simp [granted, Sys.log]

/-- Every run of `SafeStoreNode` in the initiator role that passes the pre-check has one
of four shapes: no connection (nothing or one failed dial in the trace), permission not
granted, or permission granted followed by the `Store` call. -/
theorem SafeStoreNode_initiator_shape (env : Env D) (myNodeInfo : NodeInfo D) (s : Sys D)
    (entry : NodeDbEntry D) (nodeConnection : Option Conn)
    (hrej : locallyRejected env myNodeInfo s.db entry = false)
    (hrole : entry.roleType = NodeContactRoleType.Initiator) :
    (nodeConnection = none ∧ entry.profile.id = myNodeInfo.profile.id ∧
      SafeStoreNode env myNodeInfo s entry nodeConnection = (false, s)) ∨
    (nodeConnection = none ∧ entry.profile.id ≠ myNodeInfo.profile.id ∧
      (∀ conn, env.ConnectTo s.trace entry.profile ≠ Except.ok (some conn)) ∧
      SafeStoreNode env myNodeInfo s entry nodeConnection =
        (false, { db := s.db, trace := s.trace ++
          [Event.ConnectTo entry.profile (env.ConnectTo s.trace entry.profile)] })) ∨
    (∃ conn dialled r, Obtained env myNodeInfo s entry nodeConnection conn dialled ∧
      r ≠ Except.ok true ∧
      SafeStoreNode env myNodeInfo s entry nodeConnection =
        (false, { db := s.db, trace := s.trace ++
          (dialled ++ [permissionEvent myNodeInfo entry.relationType conn r]) })) ∨
    (∃ conn dialled r, Obtained env myNodeInfo s entry nodeConnection conn dialled ∧
      SafeStoreNode env myNodeInfo s entry nodeConnection =
        (granted r, { db := if granted r = true then Db.Store s.db entry else s.db,
                      trace := s.trace ++ (dialled ++
                        [permissionEvent myNodeInfo entry.relationType conn (Except.ok true),
                         Event.Store entry r]) })) := by
  have step : ∀ (conn : Conn) (dialled : List (Event D)),
      Obtained env myNodeInfo s entry nodeConnection conn dialled →
      obtainConnection env myNodeInfo s entry nodeConnection =
        (some conn, { db := s.db, trace := s.trace ++ dialled }) →
      ((∃ conn dialled r, Obtained env myNodeInfo s entry nodeConnection conn dialled ∧
        r ≠ Except.ok true ∧
        SafeStoreNode env myNodeInfo s entry nodeConnection =
          (false, { db := s.db, trace := s.trace ++
            (dialled ++ [permissionEvent myNodeInfo entry.relationType conn r]) })) ∨
      (∃ conn dialled r, Obtained env myNodeInfo s entry nodeConnection conn dialled ∧
        SafeStoreNode env myNodeInfo s entry nodeConnection =
          (granted r, { db := if granted r = true then Db.Store s.db entry else s.db,
                        trace := s.trace ++ (dialled ++
                          [permissionEvent myNodeInfo entry.relationType conn (Except.ok true),
                           Event.Store entry r]) }))) := by
    intro conn dialled hob ho
    obtain ⟨r, hr⟩ := AskPermission_eq env myNodeInfo
      { db := s.db, trace := s.trace ++ dialled } entry.relationType conn
    by_cases hg : r = Except.ok true
    · right
      refine ⟨conn, dialled, env.StoreResult (s.trace ++ dialled ++
        [permissionEvent myNodeInfo entry.relationType conn (Except.ok true)]) entry, hob, ?_⟩
      subst hg
      simp only [SafeStoreNode, hrej, hrole, initiatorHandshake, ho, hr, storeOrFalse_eq]
      simp [List.append_assoc]
    · left
      refine ⟨conn, dialled, r, hob, hg, ?_⟩
      simp only [SafeStoreNode, hrej, hrole, initiatorHandshake, ho, hr]
      rcases r with e | b
      · simp [List.append_assoc]
      · cases b
        · simp [List.append_assoc]
        · exact absurd rfl hg
  cases nodeConnection with
  | some c =>
      right; right
      exact step c [] (Or.inl ⟨rfl, rfl⟩) (by simp [obtainConnection])
  | none =>
      by_cases hid : entry.profile.id = myNodeInfo.profile.id
      · left
        refine ⟨rfl, hid, ?_⟩
        simp [SafeStoreNode, hrej, hrole, initiatorHandshake, obtainConnection,
          SafeConnectTo_self env myNodeInfo s entry.profile hid]
      · rcases hc : env.ConnectTo s.trace entry.profile with e | oc
        · right; left
          refine ⟨rfl, hid, by simp, ?_⟩
          simp [SafeStoreNode, hrej, hrole, initiatorHandshake, obtainConnection,
            SafeConnectTo_other env myNodeInfo s entry.profile hid, hc]
        · cases oc with
          | none =>
              right; left
              refine ⟨rfl, hid, by simp, ?_⟩
              simp [SafeStoreNode, hrej, hrole, initiatorHandshake, obtainConnection,
                SafeConnectTo_other env myNodeInfo s entry.profile hid, hc]
          | some c =>
              right; right
              exact step c [Event.ConnectTo entry.profile (Except.ok (some c))]
                (Or.inr ⟨rfl, hid, hc, rfl⟩)
                (by simp [obtainConnection,
                  SafeConnectTo_other env myNodeInfo s entry.profile hid, hc])

/-! ### Lookup in a store keyed by node id -/

theorem Load_absent (db : List (NodeDbEntry D)) (id : NodeId) (h : Absent id db) :
    Db.Load db id = none := by
  unfold Db.Load
  have : db.find? (fun e => decide (e.profile.id = id)) = none := by
    rw [List.find?_eq_none]
    intro e he
    simpa using h e he
  rw [this]; rfl

theorem Load_present (db : List (NodeDbEntry D)) (e : NodeDbEntry D) (hu : UniqueIds db)
    (he : e ∈ db) : Db.Load db e.profile.id = some e.toNodeInfo := by
  induction db with
  | nil => cases he
  | cons x xs ih =>
      unfold UniqueIds at hu
      rw [List.map_cons, List.nodup_cons] at hu
      rcases List.mem_cons.mp he with rfl | hmem
      · simp [Db.Load]
      · have hne : x.profile.id ≠ e.profile.id := by
          intro heq
          exact hu.1 (heq ▸ List.mem_map_of_mem (fun e => e.profile.id) hmem)
        have := ih hu.2 hmem
        simpa [Db.Load, List.find?_cons, hne] using this

/-! ### Claims C5, C7 and C10 -/

/-- C5. Neighbour pre-check: for a candidate with relation Neighbour, in either role, with
or without a supplied connection and in every environment (whatever the remote peer would
answer), `SafeStoreNode` returns false whenever the database already holds at least 100
neighbours or the candidate is at 100 km or more from the own location; so a candidate at
exactly 100 km is rejected. -/
theorem neighbour_precheck_rejects (env : Env D) (myNodeInfo : NodeInfo D) (s : Sys D)
    (entry : NodeDbEntry D) (nodeConnection : Option Conn)
    (hrel : entry.relationType = NodeRelationType.Neighbour)
    (h : 100 ≤ Db.GetNodeCount s.db NodeRelationType.Neighbour ∨
      100 ≤ env.GetDistanceKm myNodeInfo.location entry.location) :
    NEIGHBOURHOOD_MAX_NODE_COUNT = 100 ∧ (NEIGHBOURHOOD_MAX_RANGE_KM : D) = 100 ∧
    (SafeStoreNode env myNodeInfo s entry nodeConnection).1 = false := by
  refine ⟨rfl, rfl, ?_⟩
  rw [SafeStoreNode_rejected]
  unfold locallyRejected
  rw [hrel]
  rcases h with h | h
  · simp [NEIGHBOURHOOD_MAX_NODE_COUNT, h]
  · simp [NEIGHBOURHOOD_MAX_RANGE_KM, h]

/-- Witness of C5: a neighbour candidate at exactly 100 km, offered in the initiator role
to a node with an empty database, is rejected. -/
theorem neighbour_precheck_rejects_witness :
    (SafeStoreNode (quietEnv (fun _ => (0 : ℚ))) (nodeAt "self" 0 0) { db := [], trace := [] }
      { toNodeInfo := nodeAt "candidate" 100 0, relationType := NodeRelationType.Neighbour,
        roleType := NodeContactRoleType.Initiator } none).1 = false :=
  (neighbour_precheck_rejects (quietEnv (fun _ => (0 : ℚ))) (nodeAt "self" 0 0)
    { db := [], trace := [] }
    { toNodeInfo := nodeAt "candidate" 100 0, relationType := NodeRelationType.Neighbour,
      roleType := NodeContactRoleType.Initiator } none rfl
    (Or.inr (by norm_num [quietEnv, nodeAt, gpsAt]))).2.2

/-- C7. Local rejection has no outbound effect: when the pre-check of `SafeStoreNode`
fails for an entry (neighbour view already at 100 entries, neighbour candidate at 100 km
or more, or colleague bubble overlap), the function returns false, appends nothing to the
trace (no dial, no `AcceptColleague`/`AcceptNeighbour` of the candidate, no `Store`) and
leaves the database unchanged; this holds for every role, the initiator role included. -/
theorem local_rejection_has_no_effect (env : Env D) (myNodeInfo : NodeInfo D) (s : Sys D)
    (entry : NodeDbEntry D) (nodeConnection : Option Conn)
    (h : (entry.relationType = NodeRelationType.Neighbour ∧
          (100 ≤ Db.GetNodeCount s.db NodeRelationType.Neighbour ∨
           100 ≤ env.GetDistanceKm myNodeInfo.location entry.location)) ∨
         (entry.relationType = NodeRelationType.Colleague ∧
          BubbleOverlaps env myNodeInfo s.db entry.location = true)) :
    (SafeStoreNode env myNodeInfo s entry nodeConnection).1 = false ∧
    (SafeStoreNode env myNodeInfo s entry nodeConnection).2.trace = s.trace ∧
    (SafeStoreNode env myNodeInfo s entry nodeConnection).2.db = s.db := by
  have hrej : locallyRejected env myNodeInfo s.db entry = true := by
    unfold locallyRejected
    rcases h with ⟨hrel, h | h⟩ | ⟨hrel, h⟩
    · rw [hrel]; simp [NEIGHBOURHOOD_MAX_NODE_COUNT, h]
    · rw [hrel]; simp [NEIGHBOURHOOD_MAX_RANGE_KM, h]
    · rw [hrel]; exact h
  rw [SafeStoreNode_rejected env myNodeInfo s entry nodeConnection hrej]
  exact ⟨rfl, rfl, rfl⟩

/-- Witness of C7: the neighbour candidate at exactly 100 km in the initiator role. -/
theorem local_rejection_has_no_effect_witness :
    (SafeStoreNode (quietEnv (fun _ => (0 : ℚ))) (nodeAt "self" 0 0) { db := [], trace := [] }
      { toNodeInfo := nodeAt "candidate" 0 100, relationType := NodeRelationType.Neighbour,
        roleType := NodeContactRoleType.Initiator } none).2.trace = [] :=
  (local_rejection_has_no_effect (quietEnv (fun _ => (0 : ℚ))) (nodeAt "self" 0 0)
    { db := [], trace := [] }
    { toNodeInfo := nodeAt "candidate" 0 100, relationType := NodeRelationType.Neighbour,
      roleType := NodeContactRoleType.Initiator } none
    (Or.inl ⟨rfl, Or.inr (by norm_num [quietEnv, nodeAt, gpsAt])⟩)).2.1

/-- C10. `RenewNodeConnection(u)` returns false and leaves the database (and the trace)
unchanged when no entry with the node id of `u` is stored, or when the stored entry has a
location different from that of `u`; when the entry exists and the locations are equal,
it makes the call `Update(u)` and returns its result. The database is a store keyed by
node id. -/
theorem renew_only_when_location_matches (env : Env D) (s : Sys D) (u : NodeInfo D)
    (hu : UniqueIds s.db) :
    (Absent u.profile.id s.db → RenewNodeConnection env s u = (Except.ok false, s)) ∧
    (∀ e ∈ s.db, e.profile.id = u.profile.id → e.location ≠ u.location →
      RenewNodeConnection env s u = (Except.ok false, s)) ∧
    (∀ e ∈ s.db, e.profile.id = u.profile.id → e.location = u.location →
      (RenewNodeConnection env s u).1 = env.UpdateResult s.trace u ∧
      (RenewNodeConnection env s u).2.trace =
        s.trace ++ [Event.Update u (env.UpdateResult s.trace u)] ∧
      (RenewNodeConnection env s u).2.db =
        (match env.UpdateResult s.trace u with
         | Except.ok true => Db.Update s.db u
         | _ => s.db)) := by
  refine ⟨?_, ?_, ?_⟩
  · intro h
    simp [RenewNodeConnection, Load_absent s.db u.profile.id h]
  · intro e he hid hloc
    have hl := Load_present s.db e hu he
    rw [hid] at hl
    simp [RenewNodeConnection, hl, hloc]
  · intro e he hid hloc
    have hl := Load_present s.db e hu he
    rw [hid] at hl
    simp only [RenewNodeConnection, hl, hloc, if_true, UpdateEntry]
    rcases hr : env.UpdateResult s.trace u with err | b
    · simp [Sys.log]
    · cases b <;> simp [Sys.log]

/-- Witness of C10: renewing a stored colleague from its stored location. -/
theorem renew_only_when_location_matches_witness :
    (RenewNodeConnection (quietEnv (fun _ => (0 : ℚ)))
      { db := [colleagueAt "peer" 3 4], trace := [] } (nodeAt "peer" 3 4)).1 =
      Except.ok true :=
  ((renew_only_when_location_matches (quietEnv (fun _ => (0 : ℚ)))
      { db := [colleagueAt "peer" 3 4], trace := [] } (nodeAt "peer" 3 4)
      (by simp [UniqueIds])).2.2
    (colleagueAt "peer" 3 4) (by simp) rfl rfl).1

/-! ### Claims C8 and C9 -/

theorem newEvents_append (s : Sys D) (db : List (NodeDbEntry D)) (evs : List (Event D)) :
    newEvents s { db := db, trace := s.trace ++ evs } = evs := by
  simp [newEvents]

theorem newEvents_self (s : Sys D) : newEvents s s = [] := by
  simp [newEvents]

/-- C8. Initiator handshake gates the store: for an initiator-role entry that passes the
pre-check, the outcome of `SafeStoreNode` is determined as follows. (a) If no connection is
supplied and the dial fails (the candidate is the node itself, or `ConnectTo` throws or
yields no connection), it returns false, the database is unchanged, and at most the failed
dial has been made. (b) With the supplied or freshly dialled connection it calls the
candidate's `AcceptColleague` (colleague entry) or `AcceptNeighbour` (neighbour entry); if
the answer is not true (false or an exception), it returns false, the database is
unchanged, and `Store` has not been called. (c) If the answer is true, it calls `Store`
next, returns the result of `Store` (false when `Store` throws), and the database holds the
entry exactly when that result is true. -/
theorem initiator_handshake_gates_store (env : Env D) (myNodeInfo : NodeInfo D) (s : Sys D)
    (entry : NodeDbEntry D) (nodeConnection : Option Conn)
    (hrole : entry.roleType = NodeContactRoleType.Initiator)
    (hpre : locallyRejected env myNodeInfo s.db entry = false) :
    (nodeConnection = none → DialFails env myNodeInfo s entry.profile →
      SafeStoreNode env myNodeInfo s entry nodeConnection =
        (false, { db := s.db, trace := s.trace ++
          (if entry.profile.id = myNodeInfo.profile.id then []
           else [Event.ConnectTo entry.profile (env.ConnectTo s.trace entry.profile)]) })) ∧
    (∀ conn dialled answer, Obtained env myNodeInfo s entry nodeConnection conn dialled →
      answer = (match entry.relationType with
        | NodeRelationType.Colleague => env.AcceptColleague (s.trace ++ dialled) conn myNodeInfo
        | NodeRelationType.Neighbour =>
            env.AcceptNeighbour (s.trace ++ dialled) conn myNodeInfo) →
      (answer ≠ Except.ok true →
        SafeStoreNode env myNodeInfo s entry nodeConnection =
          (false, { db := s.db, trace := s.trace ++ dialled ++
            [match entry.relationType with
              | NodeRelationType.Colleague => Event.AcceptColleague conn myNodeInfo answer
              | NodeRelationType.Neighbour => Event.AcceptNeighbour conn myNodeInfo answer] })) ∧
      (answer = Except.ok true →
        ∀ r, r = env.StoreResult (s.trace ++ dialled ++
            [match entry.relationType with
              | NodeRelationType.Colleague => Event.AcceptColleague conn myNodeInfo answer
              | NodeRelationType.Neighbour => Event.AcceptNeighbour conn myNodeInfo answer])
            entry →
          SafeStoreNode env myNodeInfo s entry nodeConnection =
            (granted r, { db := if granted r = true then Db.Store s.db entry else s.db,
                          trace := s.trace ++ dialled ++
                            [match entry.relationType with
                              | NodeRelationType.Colleague =>
                                  Event.AcceptColleague conn myNodeInfo answer
                              | NodeRelationType.Neighbour =>
                                  Event.AcceptNeighbour conn myNodeInfo answer,
                             Event.Store entry r] }))) := by
  have hshape : SafeStoreNode env myNodeInfo s entry nodeConnection =
      match initiatorHandshake env myNodeInfo s entry nodeConnection with
      | (true, s2) => storeOrFalse env s2 entry
      | (false, s2) => (false, s2) := by
    unfold SafeStoreNode
    rw [hpre]
    simp only [hrole]
    rfl
  have hconnected : ∀ conn dialled, Obtained env myNodeInfo s entry nodeConnection conn dialled →
      obtainConnection env myNodeInfo s entry nodeConnection =
        (some conn, { db := s.db, trace := s.trace ++ dialled }) := by
    intro conn dialled hob
    rcases hob with ⟨rfl, rfl⟩ | ⟨rfl, hid, hconn, rfl⟩
    · simp [obtainConnection]
    · simp [obtainConnection, SafeConnectTo, hid, hconn, Sys.log]
  refine ⟨?_, ?_⟩
  · intro hnone hfail
    subst hnone
    rw [hshape]
    unfold initiatorHandshake obtainConnection
    by_cases hid : entry.profile.id = myNodeInfo.profile.id
    · simp [SafeConnectTo, hid]
    · rcases hfail with h | h
      · exact absurd h hid
      · rcases hc : env.ConnectTo s.trace entry.profile with err | c
        · simp [SafeConnectTo, hid, hc, Sys.log]
        · cases c with
          | none => simp [SafeConnectTo, hid, hc, Sys.log]
          | some c => exact absurd hc (h c)
  · intro conn dialled answer hob hanswer
    have hc := hconnected conn dialled hob
    constructor
    · intro hno
      rw [hshape]
      unfold initiatorHandshake
      rw [hc]
      cases hrel : entry.relationType with
      | Colleague =>
          rw [hrel] at hanswer
          simp only at hanswer
          simp only [AskPermission, Sys.log, ← hanswer]
          rcases answer with err | b
          · rfl
          · cases b with
            | false => rfl
            | true => exact absurd rfl hno
      | Neighbour =>
          rw [hrel] at hanswer
          simp only at hanswer
          simp only [AskPermission, Sys.log, ← hanswer]
          rcases answer with err | b
          · rfl
          · cases b with
            | false => rfl
            | true => exact absurd rfl hno
    · intro hyes r hr
      subst hyes
      rw [hshape]
      unfold initiatorHandshake
      rw [hc]
      cases hrel : entry.relationType with
      | Colleague =>
          rw [hrel] at hanswer hr
          simp only at hanswer hr
          simp only [AskPermission, Sys.log, ← hanswer]
          rw [storeOrFalse_eq]
          subst hr
          simp [List.append_assoc]
      | Neighbour =>
          rw [hrel] at hanswer hr
          simp only at hanswer hr
          simp only [AskPermission, Sys.log, ← hanswer]
          rw [storeOrFalse_eq]
          subst hr
          simp [List.append_assoc]

/-- Witness of C8: a colleague and a neighbour candidate are dialled, accept, and are
stored; a neighbour candidate that refuses is not stored, and `Store` is not called. -/
theorem initiator_handshake_gates_store_witness :
    SafeStoreNode (openEnv (fun _ => (0 : ℚ))) (nodeAt "self" 0 0) { db := [], trace := [] }
        (entryAt "peer" 3 4 NodeRelationType.Colleague NodeContactRoleType.Initiator) none =
      (true, { db := [entryAt "peer" 3 4 NodeRelationType.Colleague
                  NodeContactRoleType.Initiator],
               trace := [Event.ConnectTo (nodeAt "peer" (3 : ℚ) 4).profile (Except.ok (some 1)),
                 Event.AcceptColleague 1 (nodeAt "self" 0 0) (Except.ok true),
                 Event.Store (entryAt "peer" 3 4 NodeRelationType.Colleague
                   NodeContactRoleType.Initiator) (Except.ok true)] }) ∧
    SafeStoreNode (openEnv (fun _ => (0 : ℚ))) (nodeAt "self" 0 0) { db := [], trace := [] }
        (entryAt "peer" 3 4 NodeRelationType.Neighbour NodeContactRoleType.Initiator) none =
      (true, { db := [entryAt "peer" 3 4 NodeRelationType.Neighbour
                  NodeContactRoleType.Initiator],
               trace := [Event.ConnectTo (nodeAt "peer" (3 : ℚ) 4).profile (Except.ok (some 1)),
                 Event.AcceptNeighbour 1 (nodeAt "self" 0 0) (Except.ok true),
                 Event.Store (entryAt "peer" 3 4 NodeRelationType.Neighbour
                   NodeContactRoleType.Initiator) (Except.ok true)] }) ∧
    SafeStoreNode (relayEnv (fun _ => (0 : ℚ))) (nodeAt "self" 0 0) { db := [], trace := [] }
        (entryAt "a" 0 1 NodeRelationType.Neighbour NodeContactRoleType.Initiator) none =
      (false, { db := [],
                trace := [Event.ConnectTo (nodeAt "a" (0 : ℚ) 1).profile (Except.ok (some 1)),
                  Event.AcceptNeighbour 1 (nodeAt "self" 0 0) (Except.ok false)] }) := by
  have h1 := ((initiator_handshake_gates_store (openEnv (fun _ => (0 : ℚ))) (nodeAt "self" 0 0)
    { db := [], trace := [] }
    (entryAt "peer" 3 4 NodeRelationType.Colleague NodeContactRoleType.Initiator) none rfl
    (by simp [locallyRejected, BubbleOverlaps, Db.GetClosestNodes, entryAt])).2 1
    [Event.ConnectTo (nodeAt "peer" (3 : ℚ) 4).profile (Except.ok (some 1))] (Except.ok true)
    (Or.inr ⟨rfl, by simp [entryAt, nodeAt], rfl, rfl⟩) rfl).2 rfl (Except.ok true) rfl
  have h2 := ((initiator_handshake_gates_store (openEnv (fun _ => (0 : ℚ))) (nodeAt "self" 0 0)
    { db := [], trace := [] }
    (entryAt "peer" 3 4 NodeRelationType.Neighbour NodeContactRoleType.Initiator) none rfl
    (by norm_num [locallyRejected, Db.GetNodeCount, entryAt, nodeAt, gpsAt, quietEnv, openEnv,
      NEIGHBOURHOOD_MAX_NODE_COUNT, NEIGHBOURHOOD_MAX_RANGE_KM])).2 1
    [Event.ConnectTo (nodeAt "peer" (3 : ℚ) 4).profile (Except.ok (some 1))] (Except.ok true)
    (Or.inr ⟨rfl, by simp [entryAt, nodeAt], rfl, rfl⟩) rfl).2 rfl (Except.ok true) rfl
  have h3 := ((initiator_handshake_gates_store (relayEnv (fun _ => (0 : ℚ))) (nodeAt "self" 0 0)
    { db := [], trace := [] }
    (entryAt "a" 0 1 NodeRelationType.Neighbour NodeContactRoleType.Initiator) none rfl
    (by norm_num [locallyRejected, Db.GetNodeCount, entryAt, nodeAt, gpsAt, quietEnv, relayEnv,
      NEIGHBOURHOOD_MAX_NODE_COUNT, NEIGHBOURHOOD_MAX_RANGE_KM])).2 1
    [Event.ConnectTo (nodeAt "a" (0 : ℚ) 1).profile (Except.ok (some 1))] (Except.ok false)
    (Or.inr ⟨rfl, by simp [entryAt, nodeAt], rfl, rfl⟩) rfl).1 (by simp)
  refine ⟨?_, ?_, ?_⟩
  · rw [h1]
    simp [granted, Db.Store, entryAt]
  · rw [h2]
    simp [granted, Db.Store, entryAt]
  · rw [h3]
    simp [entryAt]

/-- C9. `SafeStoreNode` never fails: the function always returns a boolean to its caller,
and whenever a call made during the run throws (the dial, the remote
`AcceptColleague`/`AcceptNeighbour`, or `Store`), it returns false (and the database is
unchanged), for every entry, role and supplied connection. -/
theorem SafeStoreNode_never_fails (env : Env D) (myNodeInfo : NodeInfo D) (s : Sys D)
    (entry : NodeDbEntry D) (nodeConnection : Option Conn)
    (h : ∃ e ∈ newEvents s (SafeStoreNode env myNodeInfo s entry nodeConnection).2,
      e.raised = true) :
    (SafeStoreNode env myNodeInfo s entry nodeConnection).1 = false ∧
    (SafeStoreNode env myNodeInfo s entry nodeConnection).2.db = s.db := by
  obtain ⟨e, he, hraised⟩ := h
  by_cases hrej : locallyRejected env myNodeInfo s.db entry = true
  · rw [SafeStoreNode_rejected env myNodeInfo s entry nodeConnection hrej]
    exact ⟨rfl, rfl⟩
  have hpre : locallyRejected env myNodeInfo s.db entry = false := by simpa using hrej
  cases hrole : entry.roleType with
  | Acceptor =>
      rw [SafeStoreNode_acceptor env myNodeInfo s entry nodeConnection hpre hrole,
        storeOrFalse_eq] at he ⊢
      simp only [newEvents_append, List.mem_singleton] at he
      subst he
      rcases hr : env.StoreResult s.trace entry with err | b
      · simp [granted]
      · simp [Event.raised, hr] at hraised
  | Initiator =>
      rcases SafeStoreNode_initiator_shape env myNodeInfo s entry nodeConnection hpre hrole with
        ⟨hc, hid, heq⟩ | ⟨hc, hid, hfail, heq⟩ | ⟨c, dialled, r, hob, hr, heq⟩ |
        ⟨c, dialled, r, hob, heq⟩
      · rw [heq]; exact ⟨rfl, rfl⟩
      · rw [heq]; exact ⟨rfl, rfl⟩
      · rw [heq]; exact ⟨rfl, rfl⟩
      · rw [heq] at he ⊢
        simp only [newEvents_append] at he
        have hd : ∀ e ∈ dialled, e.raised = false := by
          intro e he
          rcases hob with ⟨_, rfl⟩ | ⟨_, _, _, rfl⟩
          · cases he
          · have : e = Event.ConnectTo entry.profile (Except.ok (some c)) := by simpa using he
            rw [this]; rfl
        rcases List.mem_append.mp he with he | he
        · rw [hd e he] at hraised; cases hraised
        · simp only [List.mem_cons, List.mem_singleton, List.not_mem_nil, or_false] at he
          rcases he with rfl | rfl
          · cases hrel : entry.relationType <;>
              simp [permissionEvent, hrel, Event.raised] at hraised
          · rcases r with err | b
            · simp [granted]
            · simp [Event.raised] at hraised

/-- Witness of C9: when the persistence backend throws on `Store`, `AcceptColleague`
returns false. -/
theorem SafeStoreNode_never_fails_witness :
    (SafeStoreNode (brokenStoreEnv (fun _ => (0 : ℚ))) (nodeAt "self" 0 0)
      { db := [], trace := [] }
      (entryAt "peer" 3 4 NodeRelationType.Colleague NodeContactRoleType.Acceptor)
      none).1 = false :=
  (SafeStoreNode_never_fails (brokenStoreEnv (fun _ => (0 : ℚ))) (nodeAt "self" 0 0)
    { db := [], trace := [] }
    (entryAt "peer" 3 4 NodeRelationType.Colleague NodeContactRoleType.Acceptor) none
    ⟨Event.Store (entryAt "peer" 3 4 NodeRelationType.Colleague NodeContactRoleType.Acceptor)
        (Except.error "database failure"),
      by simp [newEvents, SafeStoreNode, locallyRejected, BubbleOverlaps, Db.GetClosestNodes,
        storeOrFalse, StoreEntry, brokenStoreEnv, quietEnv, entryAt, Sys.log],
      rfl⟩).1

/-! ### The store keyed by node id -/

theorem mem_Store (db : List (NodeDbEntry D)) (entry x : NodeDbEntry D) :
    x ∈ Db.Store db entry ↔ (x ∈ db ∧ x.profile.id ≠ entry.profile.id) ∨ x = entry := by
  simp [Db.Store]

theorem UniqueIds_Store (db : List (NodeDbEntry D)) (entry : NodeDbEntry D)
    (h : UniqueIds db) : UniqueIds (Db.Store db entry) := by
  unfold UniqueIds Db.Store at *
  rw [List.map_append, List.nodup_append]
  refine ⟨(List.filter_sublist db).map _ |>.nodup h, by simp, ?_⟩
  intro a ha hb
  simp only [List.map_cons, List.map_nil, List.mem_singleton] at hb
  obtain ⟨x, hx, rfl⟩ := List.mem_map.mp ha
  have := (List.mem_filter.mp hx).2
  simp at this
  exact this hb

theorem GetNodeCount_Store_le (db : List (NodeDbEntry D)) (entry : NodeDbEntry D)
    (nodeType : NodeRelationType) :
    Db.GetNodeCount (Db.Store db entry) nodeType ≤ Db.GetNodeCount db nodeType + 1 ∧
    (entry.relationType ≠ nodeType →
      Db.GetNodeCount (Db.Store db entry) nodeType ≤ Db.GetNodeCount db nodeType) := by
  have hsub : ((db.filter (fun e => decide (e.profile.id ≠ entry.profile.id))).filter
      (fun e => decide (e.relationType = nodeType))).length ≤
      (db.filter (fun e => decide (e.relationType = nodeType))).length :=
    ((List.filter_sublist db).filter _).length_le
  unfold Db.GetNodeCount Db.Store
  rw [List.filter_append, List.length_append]
  constructor
  · have : ([entry].filter (fun e => decide (e.relationType = nodeType))).length ≤ 1 :=
      (List.length_filter_le _ _)
    omega
  · intro hne
    have : [entry].filter (fun e => decide (e.relationType = nodeType)) = [] := by
      simp [hne]
    rw [this]
    simpa using hsub

theorem map_id_Update (db : List (NodeDbEntry D)) (node : NodeInfo D) :
    (Db.Update db node).map (fun e => e.profile.id) = db.map (fun e => e.profile.id) := by
  unfold Db.Update
  rw [List.map_map]
  apply List.map_congr_left
  intro e _
  by_cases h : e.profile.id = node.profile.id
  · simp [h]
  · simp [h]

theorem UniqueIds_Update (db : List (NodeDbEntry D)) (node : NodeInfo D)
    (h : UniqueIds db) : UniqueIds (Db.Update db node) := by
  unfold UniqueIds at *
  rw [map_id_Update]; exact h

theorem GetNodeCount_Update (db : List (NodeDbEntry D)) (node : NodeInfo D)
    (nodeType : NodeRelationType) :
    Db.GetNodeCount (Db.Update db node) nodeType = Db.GetNodeCount db nodeType := by
  unfold Db.GetNodeCount Db.Update
  induction db with
  | nil => rfl
  | cons x xs ih =>
      simp only [List.map_cons, List.filter_cons]
      by_cases hid : x.profile.id = node.profile.id <;>
        by_cases hrel : x.relationType = nodeType <;> simp [hid, hrel, ih]

/-- In a store keyed by node id, an update that repeats the stored location changes
neither the id, nor the location, nor the relation of any entry. -/
theorem mem_Update (db : List (NodeDbEntry D)) (node stored : NodeInfo D)
    (hu : UniqueIds db) (hl : Db.Load db node.profile.id = some stored)
    (hloc : stored.location = node.location) (x : NodeDbEntry D)
    (hx : x ∈ Db.Update db node) :
    ∃ e ∈ db, x.profile.id = e.profile.id ∧ x.location = e.location ∧
      x.relationType = e.relationType := by
  unfold Db.Update at hx
  obtain ⟨e, he, rfl⟩ := List.mem_map.mp hx
  refine ⟨e, he, ?_⟩
  by_cases hid : e.profile.id = node.profile.id
  · have hl2 := Load_present db e hu he
    rw [hid, hl] at hl2
    have hst : stored = e.toNodeInfo := Option.some.inj hl2
    have hloc2 : node.location = e.location := by
      rw [← hloc, hst]
    simp [hid, hloc2]
  · simp [hid]

theorem RenewNodeConnection_db (env : Env D) (s : Sys D) (u : NodeInfo D) :
    (RenewNodeConnection env s u).2.db = s.db ∨
    (∃ stored, Db.Load s.db u.profile.id = some stored ∧ stored.location = u.location ∧
      (RenewNodeConnection env s u).2.db = Db.Update s.db u) := by
  unfold RenewNodeConnection
  cases hl : Db.Load s.db u.profile.id with
  | none => left; rfl
  | some stored =>
      by_cases hloc : stored.location = u.location
      · simp only [hloc, if_true, UpdateEntry]
        rcases hr : env.UpdateResult s.trace u with err | b
        · left; simp [Sys.log]
        · cases b
          · left; simp [Sys.log]
          · right; exact ⟨stored, rfl, hloc, by simp⟩
      · left; simp [hloc]

/-! ### Claim C6 -/

theorem NeighbourInvariant_SafeStoreNode (env : Env D) (myNodeInfo : NodeInfo D) (s : Sys D)
    (entry : NodeDbEntry D) (nodeConnection : Option Conn)
    (h : NeighbourInvariant env myNodeInfo s.db) :
    NeighbourInvariant env myNodeInfo
      (SafeStoreNode env myNodeInfo s entry nodeConnection).2.db := by
  rcases SafeStoreNode_db env myNodeInfo s entry nodeConnection with hdb | ⟨hpre, hdb, _⟩
  · rw [hdb]; exact h
  · rw [hdb]
    obtain ⟨hcount, hrange⟩ := h
    have hc := GetNodeCount_Store_le s.db entry NodeRelationType.Neighbour
    cases hrel : entry.relationType with
    | Colleague =>
        refine ⟨le_trans (hc.2 (by simp [hrel])) hcount, ?_⟩
        intro n hn hnrel
        rcases (mem_Store s.db entry n).mp hn with ⟨hmem, _⟩ | rfl
        · exact hrange n hmem hnrel
        · rw [hrel] at hnrel; cases hnrel
    | Neighbour =>
        unfold locallyRejected at hpre
        rw [hrel] at hpre
        simp only [Bool.or_eq_false_iff, decide_eq_false_iff_not, not_le, ge_iff_le] at hpre
        refine ⟨?_, ?_⟩
        · have := hc.1
          omega
        · intro n hn hnrel
          rcases (mem_Store s.db entry n).mp hn with ⟨hmem, _⟩ | rfl
          · exact hrange n hmem hnrel
          · exact hpre.2

theorem UniqueIds_SafeStoreNode (env : Env D) (myNodeInfo : NodeInfo D) (s : Sys D)
    (entry : NodeDbEntry D) (nodeConnection : Option Conn) (h : UniqueIds s.db) :
    UniqueIds (SafeStoreNode env myNodeInfo s entry nodeConnection).2.db := by
  rcases SafeStoreNode_db env myNodeInfo s entry nodeConnection with hdb | ⟨_, hdb, _⟩
  · rw [hdb]; exact h
  · rw [hdb]; exact UniqueIds_Store s.db entry h

theorem UniqueIds_perform (env : Env D) (myNodeInfo : NodeInfo D) (s : Sys D) (call : Call D)
    (h : UniqueIds s.db) : UniqueIds (perform env myNodeInfo s call).db := by
  cases call with
  | AcceptColleague n => exact UniqueIds_SafeStoreNode env myNodeInfo s _ _ h
  | AcceptNeighbour n => exact UniqueIds_SafeStoreNode env myNodeInfo s _ _ h
  | SafeStoreNode entry c => exact UniqueIds_SafeStoreNode env myNodeInfo s _ _ h
  | RenewNodeConnection u =>
      show UniqueIds (RenewNodeConnection env s u).2.db
      rcases RenewNodeConnection_db env s u with hdb | ⟨_, _, _, hdb⟩
      · rw [hdb]; exact h
      · rw [hdb]; exact UniqueIds_Update s.db u h

/-- C6. Neighbour view invariant: over a database that is a store keyed by node id, if
the database holds at most 100 neighbours and every neighbour is closer than 100 km to
the own location, then the same holds (and the ids stay unique) after any
`AcceptColleague`, `AcceptNeighbour`, `RenewNodeConnection` or `SafeStoreNode` call
(initiator role included), executed sequentially, in every environment. -/
theorem neighbour_view_invariant (env : Env D) (myNodeInfo : NodeInfo D) (s : Sys D)
    (call : Call D) (hu : UniqueIds s.db)
    (h : Db.GetNodeCount s.db NodeRelationType.Neighbour ≤ 100 ∧
      ∀ n ∈ s.db, n.relationType = NodeRelationType.Neighbour →
        env.GetDistanceKm myNodeInfo.location n.location < 100) :
    UniqueIds (perform env myNodeInfo s call).db ∧
    Db.GetNodeCount (perform env myNodeInfo s call).db NodeRelationType.Neighbour ≤ 100 ∧
    ∀ n ∈ (perform env myNodeInfo s call).db, n.relationType = NodeRelationType.Neighbour →
      env.GetDistanceKm myNodeInfo.location n.location < 100 := by
  refine ⟨UniqueIds_perform env myNodeInfo s call hu, ?_⟩
  have hinv : NeighbourInvariant env myNodeInfo s.db := h
  show NeighbourInvariant env myNodeInfo (perform env myNodeInfo s call).db
  cases call with
  | AcceptColleague n => exact NeighbourInvariant_SafeStoreNode env myNodeInfo s _ _ hinv
  | AcceptNeighbour n => exact NeighbourInvariant_SafeStoreNode env myNodeInfo s _ _ hinv
  | SafeStoreNode entry c => exact NeighbourInvariant_SafeStoreNode env myNodeInfo s _ _ hinv
  | RenewNodeConnection u =>
      show NeighbourInvariant env myNodeInfo (RenewNodeConnection env s u).2.db
      rcases RenewNodeConnection_db env s u with hdb | ⟨stored, hl, hloc, hdb⟩
      · rw [hdb]; exact hinv
      · rw [hdb]
        refine ⟨by rw [GetNodeCount_Update]; exact hinv.1, ?_⟩
        intro n hn hnrel
        obtain ⟨e, he, _, hl2, hr2⟩ := mem_Update s.db u stored hu hl hloc n hn
        rw [hl2]
        exact hinv.2 e he (hr2 ▸ hnrel)

/-- Witness of C6: a node with one neighbour accepts a second one closer than 100 km. -/
theorem neighbour_view_invariant_witness :
    Db.GetNodeCount (perform (quietEnv (fun _ => (0 : ℚ))) (nodeAt "self" 0 0)
      { db := [entryAt "near" 30 20 NodeRelationType.Neighbour NodeContactRoleType.Acceptor],
        trace := [] }
      (Call.AcceptNeighbour (nodeAt "next" 10 10))).db NodeRelationType.Neighbour ≤ 100 :=
  (neighbour_view_invariant (quietEnv (fun _ => (0 : ℚ))) (nodeAt "self" 0 0)
    { db := [entryAt "near" 30 20 NodeRelationType.Neighbour NodeContactRoleType.Acceptor],
      trace := [] }
    (Call.AcceptNeighbour (nodeAt "next" 10 10))
    (by simp [UniqueIds])
    ⟨by simp [Db.GetNodeCount, entryAt],
     by norm_num [quietEnv, entryAt, nodeAt, gpsAt]⟩).2.1

/-! ### Claim C3 -/

theorem Absent_Store (id : NodeId) (db : List (NodeDbEntry D)) (entry : NodeDbEntry D)
    (h : Absent id db) (hne : entry.profile.id ≠ id) : Absent id (Db.Store db entry) := by
  intro x hx
  rcases (mem_Store db entry x).mp hx with ⟨hmem, _⟩ | rfl
  · exact h x hmem
  · exact hne

/-- An initiator-role admission of the own node id without a supplied connection stores
nothing: `SafeConnectTo` refuses to dial the node itself. -/
theorem SafeStoreNode_self_initiator (env : Env D) (myNodeInfo : NodeInfo D) (s : Sys D)
    (entry : NodeDbEntry D) (hid : entry.profile.id = myNodeInfo.profile.id)
    (hrole : entry.roleType = NodeContactRoleType.Initiator) :
    SafeStoreNode env myNodeInfo s entry none = (false, s) := by
  by_cases hrej : locallyRejected env myNodeInfo s.db entry = true
  · exact SafeStoreNode_rejected env myNodeInfo s entry none hrej
  · have hpre : locallyRejected env myNodeInfo s.db entry = false := by simpa using hrej
    simp [SafeStoreNode, hpre, hrole, initiatorHandshake, obtainConnection,
      SafeConnectTo_self env myNodeInfo s entry.profile hid]

theorem Absent_SafeStoreNode (env : Env D) (myNodeInfo : NodeInfo D) (s : Sys D)
    (entry : NodeDbEntry D) (nodeConnection : Option Conn)
    (h : Absent myNodeInfo.profile.id s.db)
    (hne : entry.profile.id ≠ myNodeInfo.profile.id) :
    Absent myNodeInfo.profile.id
      (SafeStoreNode env myNodeInfo s entry nodeConnection).2.db := by
  rcases SafeStoreNode_db env myNodeInfo s entry nodeConnection with hdb | ⟨_, hdb, _⟩
  · rw [hdb]; exact h
  · rw [hdb]; exact Absent_Store _ s.db entry h hne

theorem GetBubbleSize_eq (env : Env D) (myNodeInfo : NodeInfo D) (location : GpsLocation D) :
    GetBubbleSize env myNodeInfo location =
      env.log10 (env.GetDistanceKm myNodeInfo.location location + 2500) * 500 - 1700 := rfl

theorem BubbleOverlaps_of_closest (env : Env D) (myNodeInfo : NodeInfo D)
    (db : List (NodeDbEntry D)) (location : GpsLocation D) (closest : NodeInfo D)
    (rest : List (NodeInfo D))
    (h : Db.GetClosestNodes env.GetDistanceKm db location none 1 Neighbours.Excluded =
      closest :: rest) :
    BubbleOverlaps env myNodeInfo db location =
      decide (GetBubbleSize env myNodeInfo closest.location +
        GetBubbleSize env myNodeInfo location > env.GetDistanceKm location closest.location) := by
  unfold BubbleOverlaps
  rw [h]

theorem BubbleOverlaps_of_none (env : Env D) (myNodeInfo : NodeInfo D)
    (db : List (NodeDbEntry D)) (location : GpsLocation D)
    (h : Db.GetClosestNodes env.GetDistanceKm db location none 1 Neighbours.Excluded = []) :
    BubbleOverlaps env myNodeInfo db location = false := by
  unfold BubbleOverlaps
  rw [h]

/-! ### Values of the decimal logarithm -/

theorem log10_pow10 (k : ℕ) : Real.logb 10 ((10 : ℝ) ^ k) = k := by
  rw [Real.logb_pow, Real.logb_self_eq_one (by norm_num)]; ring

theorem log10_10000 : Real.logb 10 (10000 : ℝ) = 4 := by
  have h := log10_pow10 4
  norm_num at h
  exact h

theorem bubble_at_7500 (p : GpsLocation ℝ)
    (h : (quietEnv (Real.logb 10)).GetDistanceKm (nodeAt "self" 0 0).location p = 7500) :
    GetBubbleSize (quietEnv (Real.logb 10)) (nodeAt "self" 0 0) p = 300 := by
  unfold GetBubbleSize
  rw [h]
  have : (quietEnv (Real.logb 10)).log10 = Real.logb 10 := rfl
  rw [this]
  norm_num [log10_10000]

/-! ### Claim C4 -/

theorem boundary_closest :
    Db.GetClosestNodes (quietEnv (Real.logb 10)).GetDistanceKm [colleagueAt "c" 7500 0]
      (gpsAt 7200 300) none 1 Neighbours.Excluded = [nodeAt "c" 7500 0] := by
  simp [Db.GetClosestNodes, Db.matchesFilter, colleagueAt]

theorem boundary_on_bubble :
    GetBubbleSize (quietEnv (Real.logb 10)) (nodeAt "self" 0 0) (gpsAt 7500 0) +
      GetBubbleSize (quietEnv (Real.logb 10)) (nodeAt "self" 0 0) (gpsAt 7200 300) =
      (quietEnv (Real.logb 10)).GetDistanceKm (gpsAt 7200 300) (gpsAt 7500 0) := by
  rw [bubble_at_7500 _ (by norm_num [quietEnv, nodeAt, gpsAt]),
    bubble_at_7500 _ (by norm_num [quietEnv, nodeAt, gpsAt])]
  norm_num [quietEnv, gpsAt]

/-- C4, counterexample. Own node at (0, 0), one stored colleague at (7500, 0), candidate
at (7200, 300), distances in the taxicab metric and `log10` the real decimal logarithm:
both bubbles are 300 and the candidate is exactly 600 from the colleague, so it lies
exactly on the bubble boundary; `SafeStoreNode` in the acceptor role returns true and
stores it. -/
theorem bubble_boundary_counterexample :
    GetBubbleSize (quietEnv (Real.logb 10)) (nodeAt "self" 0 0) (gpsAt 7500 0) +
      GetBubbleSize (quietEnv (Real.logb 10)) (nodeAt "self" 0 0) (gpsAt 7200 300) =
      (quietEnv (Real.logb 10)).GetDistanceKm (gpsAt 7200 300) (gpsAt 7500 0) ∧
    Db.GetClosestNodes (quietEnv (Real.logb 10)).GetDistanceKm [colleagueAt "c" 7500 0]
      (gpsAt 7200 300) none 1 Neighbours.Excluded = [nodeAt "c" 7500 0] ∧
    (SafeStoreNode (quietEnv (Real.logb 10)) (nodeAt "self" 0 0)
      { db := [colleagueAt "c" 7500 0], trace := [] }
      (entryAt "n" 7200 300 NodeRelationType.Colleague NodeContactRoleType.Acceptor)
      none).1 = true ∧
    entryAt "n" 7200 300 NodeRelationType.Colleague NodeContactRoleType.Acceptor ∈
      (SafeStoreNode (quietEnv (Real.logb 10)) (nodeAt "self" 0 0)
        { db := [colleagueAt "c" 7500 0], trace := [] }
        (entryAt "n" 7200 300 NodeRelationType.Colleague NodeContactRoleType.Acceptor)
        none).2.db := by
  have hpre : locallyRejected (quietEnv (Real.logb 10)) (nodeAt "self" 0 0)
      [colleagueAt "c" 7500 0]
      (entryAt "n" 7200 300 NodeRelationType.Colleague NodeContactRoleType.Acceptor)
      = false := by
    show BubbleOverlaps (quietEnv (Real.logb 10)) (nodeAt "self" 0 0)
      [colleagueAt "c" 7500 0] (gpsAt 7200 300) = false
    rw [BubbleOverlaps_of_closest _ _ _ _ _ _ boundary_closest]
    have h := boundary_on_bubble
    simp only [decide_eq_false_iff_not, not_lt, gt_iff_lt]
    exact le_of_eq h
  refine ⟨boundary_on_bubble, boundary_closest, ?_, ?_⟩
  · rw [SafeStoreNode_acceptor _ _ _ _ _ hpre rfl, storeOrFalse_eq]
    rfl
  · rw [SafeStoreNode_acceptor _ _ _ _ _ hpre rfl, storeOrFalse_eq]
    simp [quietEnv, granted, Db.Store]

/-- C4, amended. For a colleague candidate whose closest stored colleague is `closest`,
the pre-check rejects exactly when the sum of the two bubbles is strictly greater than
their distance. A candidate exactly on the boundary passes the pre-check: in the acceptor
role `SafeStoreNode` returns the result of `Store` (and the candidate is stored when
`Store` succeeds), in the initiator role the handshake and `Store` decide. -/
theorem bubble_boundary_passes_precheck (env : Env D) (myNodeInfo : NodeInfo D) (s : Sys D)
    (entry : NodeDbEntry D) (nodeConnection : Option Conn) (closest : NodeInfo D)
    (rest : List (NodeInfo D))
    (hrel : entry.relationType = NodeRelationType.Colleague)
    (hclosest : Db.GetClosestNodes env.GetDistanceKm s.db entry.location none 1
      Neighbours.Excluded = closest :: rest) :
    (locallyRejected env myNodeInfo s.db entry = true ↔
      GetBubbleSize env myNodeInfo closest.location +
        GetBubbleSize env myNodeInfo entry.location >
        env.GetDistanceKm entry.location closest.location) ∧
    (GetBubbleSize env myNodeInfo closest.location +
        GetBubbleSize env myNodeInfo entry.location =
        env.GetDistanceKm entry.location closest.location →
      (entry.roleType = NodeContactRoleType.Acceptor →
        (SafeStoreNode env myNodeInfo s entry nodeConnection).1 =
          granted (env.StoreResult s.trace entry) ∧
        (env.StoreResult s.trace entry = Except.ok true →
          (SafeStoreNode env myNodeInfo s entry nodeConnection).1 = true ∧
          entry ∈ (SafeStoreNode env myNodeInfo s entry nodeConnection).2.db)) ∧
      (entry.roleType = NodeContactRoleType.Initiator →
        SafeStoreNode env myNodeInfo s entry nodeConnection =
          match initiatorHandshake env myNodeInfo s entry nodeConnection with
          | (true, s2) => storeOrFalse env s2 entry
          | (false, s2) => (false, s2))) := by
  have hiff : locallyRejected env myNodeInfo s.db entry = true ↔
      GetBubbleSize env myNodeInfo closest.location +
        GetBubbleSize env myNodeInfo entry.location >
        env.GetDistanceKm entry.location closest.location := by
    unfold locallyRejected
    rw [hrel]
    simp only [BubbleOverlaps_of_closest _ _ _ _ _ _ hclosest, decide_eq_true_eq]
  refine ⟨hiff, ?_⟩
  intro hboundary
  have hpre : locallyRejected env myNodeInfo s.db entry = false := by
    rcases hb : locallyRejected env myNodeInfo s.db entry with _ | _
    · rfl
    · exact absurd (hiff.mp hb) (not_lt.mpr (le_of_eq hboundary))
  refine ⟨?_, ?_⟩
  · intro hrole
    rw [SafeStoreNode_acceptor _ _ _ _ _ hpre hrole, storeOrFalse_eq]
    refine ⟨rfl, ?_⟩
    intro hok
    simp [hok, granted, Db.Store]
  · intro hrole
    simp [SafeStoreNode, hpre, hrole]

/-- Witness of C4 (amended): the candidate on the boundary of the counterexample, in the
acceptor role, gets the answer of `Store`. -/
theorem bubble_boundary_passes_precheck_witness :
    (SafeStoreNode (quietEnv (Real.logb 10)) (nodeAt "self" 0 0)
      { db := [colleagueAt "c" 7500 0], trace := [] }
      (entryAt "n" 7200 300 NodeRelationType.Colleague NodeContactRoleType.Acceptor)
      none).1 =
      granted ((quietEnv (Real.logb 10)).StoreResult []
        (entryAt "n" 7200 300 NodeRelationType.Colleague NodeContactRoleType.Acceptor)) :=
  (((bubble_boundary_passes_precheck (quietEnv (Real.logb 10)) (nodeAt "self" 0 0)
      { db := [colleagueAt "c" 7500 0], trace := [] }
      (entryAt "n" 7200 300 NodeRelationType.Colleague NodeContactRoleType.Acceptor)
      none (nodeAt "c" 7500 0) [] rfl boundary_closest).2 boundary_on_bubble).1 rfl).1

/-! ### Claim C2 -/

theorem BubbleInvariant_of_same (env : Env D) (myNodeInfo : NodeInfo D)
    (db db2 : List (NodeDbEntry D)) (h : BubbleInvariant env myNodeInfo db)
    (hsame : ∀ x ∈ db2, x.relationType = NodeRelationType.Colleague →
      ∃ e ∈ db, x.profile.id = e.profile.id ∧ x.location = e.location ∧
        x.relationType = e.relationType) :
    BubbleInvariant env myNodeInfo db2 := by
  intro c hc c2 hc2 hrel hrel2 hne
  obtain ⟨e, he, hid, hloc, hr⟩ := hsame c hc hrel
  obtain ⟨e2, he2, hid2, hloc2, hr2⟩ := hsame c2 hc2 hrel2
  rw [hloc, hloc2]
  exact h e he e2 he2 (hr ▸ hrel) (hr2 ▸ hrel2) (by rw [← hid, ← hid2]; exact hne)

theorem BubbleInvariant_SafeStoreNode_neighbour (env : Env D) (myNodeInfo : NodeInfo D)
    (s : Sys D) (entry : NodeDbEntry D) (nodeConnection : Option Conn)
    (hrel : entry.relationType = NodeRelationType.Neighbour)
    (h : BubbleInvariant env myNodeInfo s.db) :
    BubbleInvariant env myNodeInfo
      (SafeStoreNode env myNodeInfo s entry nodeConnection).2.db := by
  rcases SafeStoreNode_db env myNodeInfo s entry nodeConnection with hdb | ⟨_, hdb, _⟩
  · rw [hdb]; exact h
  · rw [hdb]
    apply BubbleInvariant_of_same env myNodeInfo s.db _ h
    intro x hx hxrel
    rcases (mem_Store s.db entry x).mp hx with ⟨hmem, _⟩ | rfl
    · exact ⟨x, hmem, rfl, rfl, rfl⟩
    · rw [hrel] at hxrel; cases hxrel

theorem colleague_store_keeps_others (env : Env D) (myNodeInfo : NodeInfo D)
    (s : Sys D) (entry : NodeDbEntry D) (nodeConnection : Option Conn)
    (h : BubbleInvariant env myNodeInfo s.db) :
    ∀ c ∈ (SafeStoreNode env myNodeInfo s entry nodeConnection).2.db,
    ∀ c2 ∈ (SafeStoreNode env myNodeInfo s entry nodeConnection).2.db,
      c.relationType = NodeRelationType.Colleague →
      c2.relationType = NodeRelationType.Colleague → c.profile.id ≠ c2.profile.id →
      c.profile.id ≠ entry.profile.id → c2.profile.id ≠ entry.profile.id →
      Apart env myNodeInfo c.location c2.location := by
  intro c hc c2 hc2 hrel hrel2 hne hce hc2e
  rcases SafeStoreNode_db env myNodeInfo s entry nodeConnection with hdb | ⟨_, hdb, _⟩
  · rw [hdb] at hc hc2
    exact h c hc c2 hc2 hrel hrel2 hne
  · rw [hdb] at hc hc2
    rcases (mem_Store s.db entry c).mp hc with ⟨hmem, _⟩ | rfl
    · rcases (mem_Store s.db entry c2).mp hc2 with ⟨hmem2, _⟩ | rfl
      · exact h c hmem c2 hmem2 hrel hrel2 hne
      · exact absurd rfl hc2e
    · exact absurd rfl hce

theorem colleague_store_checks_closest (env : Env D) (myNodeInfo : NodeInfo D)
    (s : Sys D) (entry : NodeDbEntry D) (nodeConnection : Option Conn)
    (hrel : entry.relationType = NodeRelationType.Colleague)
    (hchanged : (SafeStoreNode env myNodeInfo s entry nodeConnection).2.db ≠ s.db)
    (closest : NodeInfo D) (rest : List (NodeInfo D))
    (hclosest : Db.GetClosestNodes env.GetDistanceKm s.db entry.location none 1
      Neighbours.Excluded = closest :: rest) :
    GetBubbleSize env myNodeInfo closest.location +
      GetBubbleSize env myNodeInfo entry.location ≤
      env.GetDistanceKm entry.location closest.location := by
  rcases SafeStoreNode_db env myNodeInfo s entry nodeConnection with hdb | ⟨hpre, _, _⟩
  · exact absurd hdb hchanged
  · unfold locallyRejected at hpre
    rw [hrel] at hpre
    simp only [BubbleOverlaps_of_closest _ _ _ _ _ _ hclosest, decide_eq_false_iff_not,
      not_lt, gt_iff_lt] at hpre
    exact hpre

/-- C2, amended. Over a store keyed by node id in which every two distinct stored
colleagues have non-overlapping bubbles: after an `AcceptNeighbour`, a
`RenewNodeConnection` or a `SafeStoreNode` call for a neighbour entry this still holds for
every pair; after an `AcceptColleague` or a `SafeStoreNode` call for a colleague entry it
holds for every pair of stored colleagues other than the candidate, and a candidate that
was stored has a bubble that does not overlap the bubble of the one colleague that
`GetClosestNodes(candidate, max, 1, Excluded)` returned before the store. -/
theorem bubble_invariant_amended (env : Env D) (myNodeInfo : NodeInfo D) (s : Sys D)
    (call : Call D) (hu : UniqueIds s.db) (h : BubbleInvariant env myNodeInfo s.db) :
    UniqueIds (perform env myNodeInfo s call).db ∧
    (call.colleagueCandidate = none →
      BubbleInvariant env myNodeInfo (perform env myNodeInfo s call).db) ∧
    (∀ entry, call.colleagueCandidate = some entry →
      (∀ c ∈ (perform env myNodeInfo s call).db, ∀ c2 ∈ (perform env myNodeInfo s call).db,
        c.relationType = NodeRelationType.Colleague →
        c2.relationType = NodeRelationType.Colleague → c.profile.id ≠ c2.profile.id →
        c.profile.id ≠ entry.profile.id → c2.profile.id ≠ entry.profile.id →
        GetBubbleSize env myNodeInfo c.location + GetBubbleSize env myNodeInfo c2.location ≤
          env.GetDistanceKm c.location c2.location) ∧
      ((perform env myNodeInfo s call).db ≠ s.db →
        ∀ closest rest, Db.GetClosestNodes env.GetDistanceKm s.db entry.location none 1
            Neighbours.Excluded = closest :: rest →
          GetBubbleSize env myNodeInfo closest.location +
            GetBubbleSize env myNodeInfo entry.location ≤
            env.GetDistanceKm entry.location closest.location)) := by
  refine ⟨UniqueIds_perform env myNodeInfo s call hu, ?_, ?_⟩
  · intro hnone
    cases call with
    | AcceptColleague n => cases hnone
    | AcceptNeighbour n =>
        exact BubbleInvariant_SafeStoreNode_neighbour env myNodeInfo s _ _ rfl h
    | SafeStoreNode entry c =>
        cases hrel : entry.relationType with
        | Colleague => simp [Call.colleagueCandidate, hrel] at hnone
        | Neighbour =>
            exact BubbleInvariant_SafeStoreNode_neighbour env myNodeInfo s _ _ hrel h
    | RenewNodeConnection u =>
        show BubbleInvariant env myNodeInfo (RenewNodeConnection env s u).2.db
        rcases RenewNodeConnection_db env s u with hdb | ⟨stored, hl, hloc, hdb⟩
        · rw [hdb]; exact h
        · rw [hdb]
          apply BubbleInvariant_of_same env myNodeInfo s.db _ h
          intro x hx _
          exact mem_Update s.db u stored hu hl hloc x hx
  · intro entry hentry
    cases call with
    | AcceptNeighbour n => cases hentry
    | RenewNodeConnection u => cases hentry
    | AcceptColleague n =>
        have he : entry = NodeDbEntry.mk n NodeRelationType.Colleague
            NodeContactRoleType.Acceptor := by
          simpa [Call.colleagueCandidate] using hentry.symm
        subst he
        exact ⟨colleague_store_keeps_others env myNodeInfo s _ none h,
          fun hch closest rest hcl =>
            colleague_store_checks_closest env myNodeInfo s _ none rfl hch closest rest hcl⟩
    | SafeStoreNode e c =>
        cases hrel : e.relationType with
        | Neighbour => simp [Call.colleagueCandidate, hrel] at hentry
        | Colleague =>
            have he : entry = e := by
              simpa [Call.colleagueCandidate, hrel] using hentry.symm
            subst he
            exact ⟨colleague_store_keeps_others env myNodeInfo s _ c h,
              fun hch closest rest hcl =>
                colleague_store_checks_closest env myNodeInfo s _ c hrel hch closest rest hcl⟩

theorem quietEnv_metric (log10 : D → D) : IsMetric (quietEnv log10).GetDistanceKm := by
  refine ⟨?_, ?_, ?_⟩
  · intro a b
    show abs (a.latitude - b.latitude) + abs (a.longitude - b.longitude) = 0 ↔ a = b
    constructor
    · intro h
      have h1 := abs_nonneg (a.latitude - b.latitude)
      have h2 := abs_nonneg (a.longitude - b.longitude)
      have e1 : abs (a.latitude - b.latitude) = 0 := by linarith
      have e2 : abs (a.longitude - b.longitude) = 0 := by linarith
      have l1 : a.latitude = b.latitude := sub_eq_zero.mp (abs_eq_zero.mp e1)
      have l2 : a.longitude = b.longitude := sub_eq_zero.mp (abs_eq_zero.mp e2)
      cases a; cases b; simp_all
    · rintro rfl; simp
  · intro a b
    show abs (a.latitude - b.latitude) + abs (a.longitude - b.longitude) =
      abs (b.latitude - a.latitude) + abs (b.longitude - a.longitude)
    rw [abs_sub_comm a.latitude, abs_sub_comm a.longitude]
  · intro a b c
    show abs (a.latitude - c.latitude) + abs (a.longitude - c.longitude) ≤
      abs (a.latitude - b.latitude) + abs (a.longitude - b.longitude) +
      (abs (b.latitude - c.latitude) + abs (b.longitude - c.longitude))
    have h1 := abs_sub_le a.latitude b.latitude c.latitude
    have h2 := abs_sub_le a.longitude b.longitude c.longitude
    linarith

theorem bubble_le_of_le (p : GpsLocation ℝ) (x : ℝ) (k : ℕ)
    (h : (quietEnv (Real.logb 10)).GetDistanceKm (nodeAt "self" 0 0).location p = x)
    (h0 : 0 < x + 2500) (hk : x + 2500 ≤ 10 ^ k) :
    GetBubbleSize (quietEnv (Real.logb 10)) (nodeAt "self" 0 0) p ≤ k * 500 - 1700 := by
  rw [GetBubbleSize_eq, h]
  have : (quietEnv (Real.logb 10)).log10 = Real.logb 10 := rfl
  rw [this]
  have hle : Real.logb 10 (x + 2500) ≤ k := by
    rw [← log10_pow10 k]
    exact Real.logb_le_logb_of_le (by norm_num) h0 hk
  linarith

theorem bubble_at_8110 : 310 <
    GetBubbleSize (quietEnv (Real.logb 10)) (nodeAt "self" 0 0) (gpsAt 8110 0) := by
  have hd : (quietEnv (Real.logb 10)).GetDistanceKm (nodeAt "self" 0 0).location
      (gpsAt 8110 0) = 8110 := by norm_num [quietEnv, nodeAt, gpsAt]
  rw [GetBubbleSize_eq, hd]
  have : (quietEnv (Real.logb 10)).log10 = Real.logb 10 := rfl
  rw [this]
  have h1 : Real.logb 10 ((10 : ℝ) ^ 201) < Real.logb 10 ((10610 : ℝ) ^ 50) :=
    Real.logb_lt_logb (by norm_num) (by positivity) (by norm_num)
  rw [log10_pow10, Real.logb_pow] at h1
  push_cast at h1
  have h2 : (8110 : ℝ) + 2500 = 10610 := by norm_num
  rw [h2]
  linarith

theorem crowded_closest :
    Db.GetClosestNodes (quietEnv (Real.logb 10)).GetDistanceKm
      [colleagueAt "c" 6900 0, colleagueAt "d" 8110 0]
      (gpsAt 7500 0) none 1 Neighbours.Excluded = [nodeAt "c" 6900 0] := by
  have hlt : (quietEnv (Real.logb 10)).GetDistanceKm (gpsAt 7500 0)
      (colleagueAt "c" (6900 : ℝ) 0).location <
      (quietEnv (Real.logb 10)).GetDistanceKm (gpsAt 7500 0)
      (colleagueAt "d" (8110 : ℝ) 0).location := by
    norm_num [quietEnv, colleagueAt, nodeAt, gpsAt]
  have hc : Db.closerTo (quietEnv (Real.logb 10)).GetDistanceKm (gpsAt 7500 0)
      (colleagueAt "c" 6900 0) (colleagueAt "d" 8110 0) := Or.inl hlt
  have hr : ∀ (id : NodeId) (a b : ℝ),
      (colleagueAt id a b).relationType = NodeRelationType.Colleague := fun _ _ _ => rfl
  have hi : ∀ (id : NodeId) (a b : ℝ), (colleagueAt id a b).toNodeInfo = nodeAt id a b :=
    fun _ _ _ => rfl
  simp [Db.GetClosestNodes, Db.matchesFilter, List.insertionSort, List.orderedInsert, hc,
    hr, hi]

theorem bubble_at_6900 :
    GetBubbleSize (quietEnv (Real.logb 10)) (nodeAt "self" 0 0) (gpsAt 6900 0) ≤ 300 := by
  have h := bubble_le_of_le (gpsAt 6900 0) 6900 4 (by norm_num [quietEnv, nodeAt, gpsAt])
    (by norm_num) (by norm_num)
  norm_num at h
  exact h

theorem bubble_at_8110_le :
    GetBubbleSize (quietEnv (Real.logb 10)) (nodeAt "self" 0 0) (gpsAt 8110 0) ≤ 800 := by
  have h := bubble_le_of_le (gpsAt 8110 0) 8110 5 (by norm_num [quietEnv, nodeAt, gpsAt])
    (by norm_num) (by norm_num)
  norm_num at h
  exact h

theorem crowded_not_rejected :
    locallyRejected (quietEnv (Real.logb 10)) (nodeAt "self" 0 0)
      [colleagueAt "c" 6900 0, colleagueAt "d" 8110 0]
      (NodeDbEntry.mk (nodeAt "n" 7500 0) NodeRelationType.Colleague
        NodeContactRoleType.Acceptor) = false := by
  show BubbleOverlaps (quietEnv (Real.logb 10)) (nodeAt "self" 0 0)
    [colleagueAt "c" 6900 0, colleagueAt "d" 8110 0] (gpsAt 7500 0) = false
  rw [BubbleOverlaps_of_closest _ _ _ _ _ _ crowded_closest]
  simp only [decide_eq_false_iff_not, not_lt, gt_iff_lt]
  have h1 := bubble_at_6900
  have h2 : GetBubbleSize (quietEnv (Real.logb 10)) (nodeAt "self" 0 0) (gpsAt 7500 0)
      = 300 := bubble_at_7500 _ (by norm_num [quietEnv, nodeAt, gpsAt])
  have h3 : (quietEnv (Real.logb 10)).GetDistanceKm (gpsAt 7500 0)
      (nodeAt "c" (6900 : ℝ) 0).location = 600 := by
    norm_num [quietEnv, nodeAt, gpsAt]
  have h4 : (nodeAt "c" (6900 : ℝ) 0).location = gpsAt 6900 0 := rfl
  rw [h3, h4, h2]
  linarith

theorem crowded_invariant :
    BubbleInvariant (quietEnv (Real.logb 10)) (nodeAt "self" 0 0)
      [colleagueAt "c" 6900 0, colleagueAt "d" 8110 0] := by
  have h1 := bubble_at_6900
  have h2 := bubble_at_8110_le
  have d1 : (quietEnv (Real.logb 10)).GetDistanceKm (gpsAt 6900 0) (gpsAt 8110 0) = 1210 := by
    norm_num [quietEnv, gpsAt]
  have d2 : (quietEnv (Real.logb 10)).GetDistanceKm (gpsAt 8110 0) (gpsAt 6900 0) = 1210 := by
    norm_num [quietEnv, gpsAt]
  intro c hc c2 hc2 _ _ hne
  simp only [List.mem_cons, List.mem_singleton, List.not_mem_nil, or_false] at hc hc2
  rcases hc with rfl | rfl <;> rcases hc2 with rfl | rfl
  · exact absurd rfl hne
  · show GetBubbleSize _ _ (gpsAt 6900 0) + GetBubbleSize _ _ (gpsAt 8110 0) ≤
      (quietEnv (Real.logb 10)).GetDistanceKm (gpsAt 6900 0) (gpsAt 8110 0)
    rw [d1]; linarith
  · show GetBubbleSize _ _ (gpsAt 8110 0) + GetBubbleSize _ _ (gpsAt 6900 0) ≤
      (quietEnv (Real.logb 10)).GetDistanceKm (gpsAt 8110 0) (gpsAt 6900 0)
    rw [d2]; linarith
  · exact absurd rfl hne

/-- C2, counterexample. Own node at (0, 0), stored colleagues `c` at (6900, 0) and `d` at
(8110, 0), taxicab metric, real decimal logarithm; the two stored bubbles do not overlap.
`AcceptColleague` for a node `n` at (7500, 0) finds `c` as the closest colleague (600
away, the bubbles sum to less than 600), returns true and stores `n`; but `d` is only
610 away from `n` and their bubbles sum to more than 610. -/
theorem bubble_invariant_counterexample :
    IsMetric (quietEnv (Real.logb 10)).GetDistanceKm ∧
    UniqueIds [colleagueAt "c" (6900 : ℝ) 0, colleagueAt "d" 8110 0] ∧
    BubbleInvariant (quietEnv (Real.logb 10)) (nodeAt "self" 0 0)
      [colleagueAt "c" 6900 0, colleagueAt "d" 8110 0] ∧
    (AcceptColleague (quietEnv (Real.logb 10)) (nodeAt "self" 0 0)
      { db := [colleagueAt "c" 6900 0, colleagueAt "d" 8110 0], trace := [] }
      (nodeAt "n" 7500 0)).1 = true ∧
    ¬ BubbleInvariant (quietEnv (Real.logb 10)) (nodeAt "self" 0 0)
      (perform (quietEnv (Real.logb 10)) (nodeAt "self" 0 0)
        { db := [colleagueAt "c" 6900 0, colleagueAt "d" 8110 0], trace := [] }
        (Call.AcceptColleague (nodeAt "n" 7500 0))).db := by
  have hrun : AcceptColleague (quietEnv (Real.logb 10)) (nodeAt "self" 0 0)
      { db := [colleagueAt "c" 6900 0, colleagueAt "d" 8110 0], trace := [] }
      (nodeAt "n" 7500 0) =
      (true, { db := [colleagueAt "c" 6900 0, colleagueAt "d" 8110 0,
                      NodeDbEntry.mk (nodeAt "n" 7500 0) NodeRelationType.Colleague
                        NodeContactRoleType.Acceptor],
               trace := [Event.Store (NodeDbEntry.mk (nodeAt "n" 7500 0)
                 NodeRelationType.Colleague NodeContactRoleType.Acceptor) (Except.ok true)] }) := by
    unfold AcceptColleague
    rw [SafeStoreNode_acceptor _ _ _ _ _ crowded_not_rejected rfl, storeOrFalse_eq]
    simp [quietEnv, granted, Db.Store, colleagueAt, nodeAt]
  refine ⟨quietEnv_metric _, by simp [UniqueIds, colleagueAt, nodeAt], crowded_invariant,
    by rw [hrun], ?_⟩
  intro hinv
  have hdb : (perform (quietEnv (Real.logb 10)) (nodeAt "self" 0 0)
        { db := [colleagueAt "c" 6900 0, colleagueAt "d" 8110 0], trace := [] }
        (Call.AcceptColleague (nodeAt "n" 7500 0))).db =
      [colleagueAt "c" 6900 0, colleagueAt "d" 8110 0,
        NodeDbEntry.mk (nodeAt "n" 7500 0) NodeRelationType.Colleague
          NodeContactRoleType.Acceptor] := by
    show (AcceptColleague _ _ _ _).2.db = _
    rw [hrun]
  rw [hdb] at hinv
  have h := hinv (NodeDbEntry.mk (nodeAt "n" 7500 0) NodeRelationType.Colleague
      NodeContactRoleType.Acceptor) (by simp) (colleagueAt "d" 8110 0) (by simp) rfl rfl
      (by simp [colleagueAt, nodeAt])
  have h1 : GetBubbleSize (quietEnv (Real.logb 10)) (nodeAt "self" 0 0) (gpsAt 7500 0)
      = 300 := bubble_at_7500 _ (by norm_num [quietEnv, nodeAt, gpsAt])
  have h2 := bubble_at_8110
  have h3 : (quietEnv (Real.logb 10)).GetDistanceKm (gpsAt 7500 0) (gpsAt 8110 0) = 610 := by
    norm_num [quietEnv, gpsAt]
  have h4 : GetBubbleSize (quietEnv (Real.logb 10)) (nodeAt "self" 0 0) (gpsAt 7500 0) +
      GetBubbleSize (quietEnv (Real.logb 10)) (nodeAt "self" 0 0) (gpsAt 8110 0) ≤
      (quietEnv (Real.logb 10)).GetDistanceKm (gpsAt 7500 0) (gpsAt 8110 0) := h
  rw [h1, h3] at h4
  linarith

/-- Witness of C2 (amended): in the state of the counterexample the stored candidate does
not overlap the colleague that `GetClosestNodes` returned. -/
theorem bubble_invariant_amended_witness :
    GetBubbleSize (quietEnv (Real.logb 10)) (nodeAt "self" 0 0) (nodeAt "c" 6900 0).location +
      GetBubbleSize (quietEnv (Real.logb 10)) (nodeAt "self" 0 0) (nodeAt "n" 7500 0).location ≤
      (quietEnv (Real.logb 10)).GetDistanceKm (nodeAt "n" 7500 0).location
        (nodeAt "c" 6900 0).location :=
  ((bubble_invariant_amended (quietEnv (Real.logb 10)) (nodeAt "self" 0 0)
      { db := [colleagueAt "c" 6900 0, colleagueAt "d" 8110 0], trace := [] }
      (Call.AcceptColleague (nodeAt "n" 7500 0))
      (by simp [UniqueIds, colleagueAt, nodeAt]) crowded_invariant).2.2
    (NodeDbEntry.mk (nodeAt "n" 7500 0) NodeRelationType.Colleague
      NodeContactRoleType.Acceptor) rfl).2
    (by
      show (AcceptColleague _ _ _ _).2.db ≠ _
      unfold AcceptColleague
      rw [SafeStoreNode_acceptor _ _ _ _ _ crowded_not_rejected rfl, storeOrFalse_eq]
      simp [quietEnv, granted, Db.Store, colleagueAt, nodeAt])
    (nodeAt "c" 6900 0) [] crowded_closest

/-! ### Claim C1 -/

theorem SafeConnectTo_unreachable (env : Env D) (myNodeInfo : NodeInfo D) (s : Sys D)
    (node : NodeProfile)
    (hdial : ∀ trace node conn, env.ConnectTo trace node ≠ Except.ok (some conn)) :
    ∃ s1, SafeConnectTo env myNodeInfo s node = (none, s1) ∧ s1.db = s.db := by
  by_cases hid : node.id = myNodeInfo.profile.id
  · exact ⟨s, SafeConnectTo_self env myNodeInfo s node hid, rfl⟩
  · rw [SafeConnectTo_other env myNodeInfo s node hid]
    rcases hc : env.ConnectTo s.trace node with e | oc
    · exact ⟨_, rfl, rfl⟩
    · cases oc with
      | none => exact ⟨_, rfl, rfl⟩
      | some c => exact absurd hc (hdial _ _ _)

/-- When no peer can be dialled, the seed phase of `DiscoverWorld` changes neither the
database nor the answers recorded from the seeds. -/
theorem seedLoop_unreachable (env : Env D) (myNodeInfo : NodeInfo D)
    (seedNodes : List (NodeInfo D))
    (hdial : ∀ trace node conn, env.ConnectTo trace node ≠ Except.ok (some conn))
    (fuel : Nat) : ∀ st : SeedPhase D,
    seedLoop env myNodeInfo seedNodes fuel st = Except.error Fault.outOfFuel ∨
    ∃ st2, seedLoop env myNodeInfo seedNodes fuel st = Except.ok st2 ∧
      st2.seedNodeColleagueCount = st.seedNodeColleagueCount ∧
      st2.randomColleagueCandidates = st.randomColleagueCandidates ∧
      st2.sys.db = st.sys.db := by
  induction fuel with
  | zero =>
      intro st
      unfold seedLoop
      split
      · exact Or.inl rfl
      · exact Or.inr ⟨st, rfl, rfl, rfl, rfl⟩
  | succ fuel ih =>
      intro st
      unfold seedLoop
      split
      · simp only
        split
        · rcases ih { st with sys := st.sys.log (Event.Random (env.Random st.sys.trace)) } with
            h | ⟨st2, h, h1, h2, h3⟩
          · exact Or.inl h
          · exact Or.inr ⟨st2, h, h1, h2, h3⟩
        · obtain ⟨s1, hs1, hdb⟩ := SafeConnectTo_unreachable env myNodeInfo
            (st.sys.log (Event.Random (env.Random st.sys.trace)))
            (seedNodes.get ⟨env.Random st.sys.trace % seedNodes.length,
              Nat.mod_lt _ (Nat.lt_of_le_of_lt (Nat.zero_le _) (by assumption))⟩).profile hdial
          rw [hs1]
          simp only
          rcases ih { st with
              triedSeedNodes := st.triedSeedNodes ++ [(seedNodes.get
                ⟨env.Random st.sys.trace % seedNodes.length,
                  Nat.mod_lt _ (Nat.lt_of_le_of_lt (Nat.zero_le _) (by assumption))⟩).profile.id],
              sys := s1 } with
            h | ⟨st2, h, h1, h2, h3⟩
          · exact Or.inl h
          · exact Or.inr ⟨st2, h, h1, h2, by rw [h3]; exact hdb⟩
      · exact Or.inr ⟨st, rfl, rfl, rfl, rfl⟩

theorem fillLoop_zero_target (env : Env D) (myNodeInfo : NodeInfo D) (fuel added : Nat)
    (candidates : List (NodeInfo D)) (s : Sys D) :
    fillLoop env myNodeInfo 0 fuel added candidates s = Except.ok (true, s) := by
  cases fuel <;> simp [fillLoop]

theorem DiscoverNeighbourhood_empty (env : Env D) (myNodeInfo : NodeInfo D) (fuel : Nat)
    (s : Sys D) (h : s.db = []) :
    DiscoverNeighbourhood env myNodeInfo fuel s = Except.ok (false, s) := by
  simp [DiscoverNeighbourhood, Db.GetClosestNodes, h]

/-- C1, what the code does. When no peer can be dialled (every dial throws or yields no
connection), constructing a node on an empty database with discovery enabled never
succeeds, whatever the own profile and the seed list are: as soon as the seed loop has
ended, the constructor throws "Network discovery failed". For a node that is one of the
seeds `DiscoverWorld` returns true, but `DiscoverNeighbourhood` returns false because the
database has no closest node. -/
theorem founding_node_construction_throws (env : Env D) (nodeInfo : NodeInfo D)
    (seedNodes : List (NodeInfo D)) (fuel : Nat)
    (hdial : ∀ trace node conn, env.ConnectTo trace node ≠ Except.ok (some conn)) :
    Node env nodeInfo seedNodes [] false fuel = Except.error Fault.outOfFuel ∨
    Node env nodeInfo seedNodes [] false fuel =
      Except.error (Fault.thrown "Network discovery failed") := by
  unfold Node
  simp only [Db.GetNodeCount, List.filter_nil, List.length_nil, and_self, if_true]
  unfold DiscoverWorld
  rcases seedLoop_unreachable env nodeInfo seedNodes hdial fuel
      { triedSeedNodes := [], seedNodeColleagueCount := 0, randomColleagueCandidates := [],
        sys := { db := [], trace := [] } } with h | ⟨st2, h, h1, h2, h3⟩
  · left
    rw [h]
  · right
    rw [h]
    simp only at h1 h2 h3
    have ht : fillTarget st2.seedNodeColleagueCount = 0 := by rw [h1]; exact fillTarget_zero
    simp only [ht, fillLoop_zero_target]
    by_cases hc : st2.seedNodeColleagueCount = 0 ∧ st2.randomColleagueCandidates = [] ∧
        st2.triedSeedNodes.length = seedNodes.length ∧
        List.find? (fun seedProfile => decide (nodeInfo.profile = seedProfile.profile))
          seedNodes = none
    · rw [if_pos hc]
    · rw [if_neg hc]
      simp only [DiscoverNeighbourhood_empty env nodeInfo fuel st2.sys h3]

/-- Witness of C1 (failing input): own node info equal to the first entry of the seed
list, empty database, discovery enabled, every dial throws. Two iterations of the seed loop
try both seeds, and the constructor throws. -/
theorem founding_node_construction_throws_witness :
    firstSeed ∈ (_seedNodes : List (NodeInfo ℚ)) ∧
    Node (quietEnv (fun _ => (0 : ℚ))) firstSeed _seedNodes [] false 2 =
      Except.error (Fault.thrown "Network discovery failed") :=
  ⟨by simp [firstSeed, _seedNodes, gpsAt],
   (founding_node_construction_throws (quietEnv (fun _ => (0 : ℚ))) firstSeed _seedNodes 2
      (by intro trace node conn h; simp [quietEnv] at h)).resolve_left
    (by
      simp [Node, DiscoverWorld, seedLoop, SafeConnectTo, fillLoop, fillTarget_zero,
        DiscoverNeighbourhood, Db.GetClosestNodes, Db.GetNodeCount, quietEnv, firstSeed,
        _seedNodes, Sys.log])⟩

/-! ### Discovery never stores the own node -/

theorem SafeConnectTo_some_ne (env : Env D) (myNodeInfo : NodeInfo D) (s s1 : Sys D)
    (node : NodeProfile) (conn : Conn)
    (h : SafeConnectTo env myNodeInfo s node = (some conn, s1)) :
    node.id ≠ myNodeInfo.profile.id ∧ s1.db = s.db := by
  constructor
  · intro hid
    rw [SafeConnectTo_self env myNodeInfo s node hid] at h
    cases h
  · have := SafeConnectTo_db env myNodeInfo s node
    rw [h] at this
    exact this

theorem SafeConnectTo_eq_db (env : Env D) (myNodeInfo : NodeInfo D) (s s1 : Sys D)
    (node : NodeProfile) (conn : Option Conn)
    (h : SafeConnectTo env myNodeInfo s node = (conn, s1)) : s1.db = s.db := by
  have := SafeConnectTo_db env myNodeInfo s node
  rw [h] at this
  exact this

theorem Absent_SafeStoreNode_dialled (env : Env D) (myNodeInfo : NodeInfo D) (s : Sys D)
    (node : NodeInfo D) (relationType : NodeRelationType)
    (h : Absent myNodeInfo.profile.id s.db) :
    Absent myNodeInfo.profile.id
      (SafeStoreNode env myNodeInfo s
        (NodeDbEntry.mk node relationType NodeContactRoleType.Initiator) none).2.db := by
  by_cases hid : node.profile.id = myNodeInfo.profile.id
  · rw [SafeStoreNode_self_initiator env myNodeInfo s _ hid rfl]
    exact h
  · exact Absent_SafeStoreNode env myNodeInfo s _ none h hid

theorem seedLoop_absent (env : Env D) (myNodeInfo : NodeInfo D)
    (seedNodes : List (NodeInfo D)) (fuel : Nat) :
    ∀ st st2 : SeedPhase D, Absent myNodeInfo.profile.id st.sys.db →
      seedLoop env myNodeInfo seedNodes fuel st = Except.ok st2 →
      Absent myNodeInfo.profile.id st2.sys.db := by
  induction fuel with
  | zero =>
      intro st st2 habs h
      unfold seedLoop at h
      split at h
      · cases h
      · cases h; exact habs
  | succ fuel ih =>
      intro st st2 habs h
      unfold seedLoop at h
      split at h
      · simp only at h
        split at h
        · refine ih _ st2 ?_ h
          exact habs
        · split at h
          · rename_i s1 hs1
            have hdb := SafeConnectTo_eq_db _ _ _ _ _ _ hs1
            refine ih _ st2 ?_ h
            simpa [hdb] using habs
          · rename_i conn s1 hs1
            have hdb := SafeConnectTo_eq_db _ _ _ _ _ _ hs1
            have habs1 : Absent myNodeInfo.profile.id s1.db := by simpa [hdb] using habs
            split at h
            · refine ih _ st2 ?_ h
              simpa [Sys.log] using habs1
            · split at h
              · refine ih _ st2 ?_ h
                simpa [Sys.log] using habs1
              · split at h
                · cases h
                  exact Absent_SafeStoreNode_dialled env myNodeInfo _ _ _
                    (by simpa [Sys.log] using habs1)
                · refine ih _ st2 ?_ h
                  simpa [Sys.log] using habs1
      · cases h; exact habs

theorem refillLoop_db (env : Env D) (myNodeInfo : NodeInfo D) (fuel : Nat) :
    ∀ (s s2 : Sys D) (candidates : Option (List (NodeInfo D))),
      refillLoop env myNodeInfo fuel s = Except.ok (candidates, s2) → s2.db = s.db := by
  induction fuel with
  | zero =>
      intro s s2 candidates h
      unfold refillLoop at h
      cases h
  | succ fuel ih =>
      intro s s2 candidates h
      unfold refillLoop at h
      simp only at h
      split at h
      · cases h; rfl
      · split at h
        · rename_i s1 hs1
          have hdb := SafeConnectTo_eq_db _ _ _ _ _ _ hs1
          cases h
          simpa [Sys.log] using hdb
        · rename_i conn s1 hs1
          have hdb := SafeConnectTo_eq_db _ _ _ _ _ _ hs1
          split at h
          · cases h; simpa [Sys.log] using hdb
          · have := ih _ _ _ h
            simpa [Sys.log, hdb] using this
          · cases h; simpa [Sys.log] using hdb

theorem fillLoop_absent (env : Env D) (myNodeInfo : NodeInfo D) (target : Nat) (fuel : Nat) :
    ∀ (added : Nat) (candidates : List (NodeInfo D)) (s s2 : Sys D) (b : Bool),
      Absent myNodeInfo.profile.id s.db →
      fillLoop env myNodeInfo target fuel added candidates s = Except.ok (b, s2) →
      Absent myNodeInfo.profile.id s2.db := by
  induction fuel with
  | zero =>
      intro added candidates s s2 b habs h
      unfold fillLoop at h
      split at h
      · cases h
      · cases h; exact habs
  | succ fuel ih =>
      intro added candidates s s2 b habs h
      unfold fillLoop at h
      split at h
      · split at h
        · rename_i nodeInfo _
          have hstep := Absent_SafeStoreNode_dialled env myNodeInfo s nodeInfo
            NodeRelationType.Colleague habs
          split at h
          · rename_i s1 hs1
            rw [hs1] at hstep
            exact ih _ _ _ _ _ hstep h
          · rename_i s1 hs1
            rw [hs1] at hstep
            exact ih _ _ _ _ _ hstep h
        · split at h
          · cases h
          · rename_i s1 hr
            cases h
            have := refillLoop_db env myNodeInfo _ _ _ _ hr
            rw [this]; exact habs
          · rename_i cs s1 hr
            have hdb := refillLoop_db env myNodeInfo _ _ _ _ hr
            refine ih _ _ _ _ _ ?_ h
            rw [hdb]; exact habs
      · cases h; exact habs

/-- World discovery never stores an entry with the own node id. -/
theorem DiscoverWorld_absent (env : Env D) (myNodeInfo : NodeInfo D)
    (seedNodes : List (NodeInfo D)) (fuel : Nat) (s s2 : Sys D) (b : Bool)
    (habs : Absent myNodeInfo.profile.id s.db)
    (h : DiscoverWorld env myNodeInfo seedNodes fuel s = Except.ok (b, s2)) :
    Absent myNodeInfo.profile.id s2.db := by
  unfold DiscoverWorld at h
  split at h
  · cases h
  · rename_i st hst
    have h1 := seedLoop_absent env myNodeInfo seedNodes fuel _ st habs hst
    split at h
    · cases h; exact h1
    · exact fillLoop_absent env myNodeInfo _ fuel _ _ _ _ _ h1 h

theorem descentLoop_db (env : Env D) (myNodeInfo : NodeInfo D) (fuel : Nat) :
    ∀ (oldClosestNode newClosestNode : List (NodeInfo D)) (s s2 : Sys D)
      (r : Option (List (NodeInfo D))),
      descentLoop env myNodeInfo fuel oldClosestNode newClosestNode s = Except.ok (r, s2) →
      s2.db = s.db := by
  induction fuel with
  | zero =>
      intro o n s s2 r h
      unfold descentLoop at h
      split at h
      · cases h
      · cases h; rfl
      · cases h
  | succ fuel ih =>
      intro o n s s2 r h
      unfold descentLoop at h
      split at h
      · cases h
      · cases h; rfl
      · split at h
        · cases h
        · split at h
          · rename_i s1 hs1
            cases h
            exact SafeConnectTo_eq_db _ _ _ _ _ _ hs1
          · rename_i conn s1 hs1
            have hdb := SafeConnectTo_eq_db _ _ _ _ _ _ hs1
            simp only at h
            split at h
            · have := ih _ _ _ _ _ h
              simpa [Sys.log, hdb] using this
            · have := ih _ _ _ _ _ h
              simpa [Sys.log, hdb] using this

theorem expandLoop_absent (env : Env D) (myNodeInfo : NodeInfo D)
    (neighbourCandidates : List (NodeInfo D)) (fuel : Nat) :
    ∀ (queue : List (NodeInfo D)) (asked : List NodeId) (s s2 : Sys D) (b : Bool),
      Absent myNodeInfo.profile.id s.db →
      expandLoop env myNodeInfo neighbourCandidates fuel queue asked s = Except.ok (b, s2) →
      Absent myNodeInfo.profile.id s2.db := by
  induction fuel with
  | zero =>
      intro queue asked s s2 b habs h
      unfold expandLoop at h
      split at h
      · cases h
      · cases h; exact habs
  | succ fuel ih =>
      intro queue asked s s2 b habs h
      unfold expandLoop at h
      split at h
      · split at h
        · cases h; exact habs
        · split at h
          · exact ih _ _ _ _ _ habs h
          · split at h
            · rename_i s1 hs1
              have hdb := SafeConnectTo_eq_db _ _ _ _ _ _ hs1
              refine ih _ _ _ _ _ ?_ h
              rw [hdb]; exact habs
            · rename_i conn s1 hs1
              obtain ⟨hne, hdb⟩ := SafeConnectTo_some_ne _ _ _ _ _ _ hs1
              have hstep := Absent_SafeStoreNode env myNodeInfo s1
                (NodeDbEntry.mk _ NodeRelationType.Neighbour NodeContactRoleType.Initiator)
                (some conn) (by rw [hdb]; exact habs) hne
              simp only at h
              split at h
              · refine ih _ _ _ _ _ ?_ h
                simpa [Sys.log] using hstep
              · refine ih _ _ _ _ _ ?_ h
                simpa [Sys.log] using hstep
      · cases h; exact habs

/-- Neighbourhood discovery never stores an entry with the own node id. -/
theorem DiscoverNeighbourhood_absent (env : Env D) (myNodeInfo : NodeInfo D) (fuel : Nat)
    (s s2 : Sys D) (b : Bool) (habs : Absent myNodeInfo.profile.id s.db)
    (h : DiscoverNeighbourhood env myNodeInfo fuel s = Except.ok (b, s2)) :
    Absent myNodeInfo.profile.id s2.db := by
  unfold DiscoverNeighbourhood at h
  split at h
  · cases h; exact habs
  · split at h
    · cases h
    · rename_i s1 hd
      cases h
      rw [descentLoop_db env myNodeInfo fuel _ _ _ _ _ hd]; exact habs
    · rename_i cl s1 hd
      have hdb := descentLoop_db env myNodeInfo fuel _ _ _ _ _ hd
      refine expandLoop_absent env myNodeInfo [] fuel _ _ _ _ _ ?_ h
      rw [hdb]; exact habs

/-! ### Claim C11 -/

theorem Services_find_assign_new {ServiceType ServiceProfile : Type} [DecidableEq ServiceType]
    (services : Services ServiceType ServiceProfile) (t : ServiceType) (p : ServiceProfile)
    (h : Services.find services t = none) :
    Services.find (Services.assign services t p) t = some p ∧
    ∀ t2, t2 ≠ t → Services.find (Services.assign services t p) t2 =
      Services.find services t2 := by
  have hassign : Services.assign services t p = services ++ [(t, p)] := by
    simp [Services.assign, h]
  rw [hassign]
  have hnone : List.find? (fun kv => decide (kv.1 = t)) services = none := by
    unfold Services.find at h
    cases hf : List.find? (fun kv => decide (kv.1 = t)) services with
    | none => rfl
    | some kv => rw [hf] at h; cases h
  constructor
  · unfold Services.find
    rw [List.find?_append, hnone]
    simp
  · intro t2 hne
    unfold Services.find
    rw [List.find?_append]
    cases hf : List.find? (fun kv => decide (kv.1 = t2)) services with
    | none => simp [Ne.symm hne]
    | some kv => simp

/-- C11. Service registration is idempotent-fail: `RegisterService(t, p)` on a registry
that already contains `t` (with some profile `q`) throws and leaves the registry unchanged,
so `t` still maps to `q`; on a registry without `t` it succeeds, and afterwards the
registry maps `t` to `p` and every other type to what it mapped to before. -/
theorem register_service_idempotent_fail {ServiceType ServiceProfile : Type}
    [DecidableEq ServiceType] (services : Services ServiceType ServiceProfile)
    (t : ServiceType) (p : ServiceProfile) :
    (∀ q, Services.find services t = some q →
      RegisterService services t p =
        (Except.error "Service type is already registered", services) ∧
      Services.find (RegisterService services t p).2 t = some q) ∧
    (Services.find services t = none →
      (RegisterService services t p).1 = Except.ok () ∧
      Services.find (RegisterService services t p).2 t = some p ∧
      ∀ t2, t2 ≠ t → Services.find (RegisterService services t p).2 t2 =
        Services.find services t2) := by
  constructor
  · intro q hq
    simp [RegisterService, hq]
  · intro hnone
    have h := Services_find_assign_new services t p hnone
    simp only [RegisterService, hnone]
    exact ⟨trivial, h.1, h.2⟩

/-! ### Claims C12 and C13 -/

theorem GetMessageSizeFromHeader_bytes (b0 b1 b2 b3 : Nat) (rest : List Nat)
    (h0 : b0 < 256) (h1 : b1 < 256) (h2 : b2 < 256) (h3 : b3 < 256) :
    GetMessageSizeFromHeader (b0 :: b1 :: b2 :: b3 :: rest) =
      b0 + 256 * b1 + 65536 * b2 + 16777216 * b3 := by
  simp only [GetMessageSizeFromHeader, List.getD_cons_zero, List.getD_cons_succ,
    Nat.shiftLeft_eq]
  rw [Nat.mod_eq_of_lt h0, Nat.mod_eq_of_lt h1, Nat.mod_eq_of_lt h2, Nat.mod_eq_of_lt h3]
  omega

theorem Stream_read_enough (stream : Stream) (count : Nat) (hg : stream.good = true)
    (hlen : count ≤ stream.incoming.length) :
    stream.read count =
      (stream.incoming.take count, { incoming := stream.incoming.drop count, good := true }) := by
  simp [Stream.read, hg, hlen]

theorem ReceiveMessage_of_header {Message : Type} (parse : List Nat → Message)
    (stream s1 : Stream) (header : List Nat)
    (h : stream.read MessageHeaderSize = (header, s1)) (hg : s1.good = true) :
    ReceiveMessage parse stream =
      if GetMessageSizeFromHeader (header.drop MessageSizeOffset) > MaxMessageSize then
        (Except.error ("Message size is over limit: " ++
          toString (GetMessageSizeFromHeader (header.drop MessageSizeOffset))), s1)
      else
        (Except.ok (some (parse (header ++
          (s1.read (GetMessageSizeFromHeader (header.drop MessageSizeOffset))).1))),
         (s1.read (GetMessageSizeFromHeader (header.drop MessageSizeOffset))).2) := by
  unfold ReceiveMessage
  rw [h]
  simp only [hg, Bool.true_eq_false, if_false]

theorem read_header (v b0 b1 b2 b3 : Nat) (rest : List Nat) :
    Stream.read { incoming := v :: b0 :: b1 :: b2 :: b3 :: rest, good := true }
      MessageHeaderSize = ([v, b0, b1, b2, b3], { incoming := rest, good := true }) := by
  rw [Stream_read_enough _ _ rfl (by simp [MessageHeaderSize])]
  simp [MessageHeaderSize]

/-- What `ReceiveMessage` does after a complete header `v, b0, b1, b2, b3`. -/
theorem ReceiveMessage_after_header {Message : Type} (parse : List Nat → Message)
    (v b0 b1 b2 b3 : Nat) (rest : List Nat)
    (h0 : b0 < 256) (h1 : b1 < 256) (h2 : b2 < 256) (h3 : b3 < 256) :
    ReceiveMessage parse { incoming := v :: b0 :: b1 :: b2 :: b3 :: rest, good := true } =
      if b0 + 256 * b1 + 65536 * b2 + 16777216 * b3 > MaxMessageSize then
        (Except.error ("Message size is over limit: " ++
          toString (b0 + 256 * b1 + 65536 * b2 + 16777216 * b3)),
         { incoming := rest, good := true })
      else
        (Except.ok (some (parse ([v, b0, b1, b2, b3] ++
          (Stream.read { incoming := rest, good := true }
            (b0 + 256 * b1 + 65536 * b2 + 16777216 * b3)).1))),
         (Stream.read { incoming := rest, good := true }
            (b0 + 256 * b1 + 65536 * b2 + 16777216 * b3)).2) := by
  have hsize := GetMessageSizeFromHeader_bytes b0 b1 b2 b3 [] h0 h1 h2 h3
  have hdrop : List.drop MessageSizeOffset [v, b0, b1, b2, b3] = [b0, b1, b2, b3] := rfl
  rw [ReceiveMessage_of_header parse _ _ _ (read_header v b0 b1 b2 b3 rest) rfl, hdrop, hsize]

theorem MaxMessageSize_eq : MaxMessageSize = 1048576 := by
  norm_num [MaxMessageSize]

/-- C13. Header length round trip: for every `n < 2^32`, `GetMessageSizeFromHeader` applied
to the four bytes of the little-endian encoding of `n` returns `n`; for all bytes
`b0 .. b3` it returns `b0 + 256*b1 + 65536*b2 + 16777216*b3`; and `ReceiveMessage` takes
these bytes from offsets 1..4 of the header: after a header `v, b0, b1, b2, b3` that
announces a size within the limit, with the whole body in the stream, it has consumed
exactly the header and as many body bytes as bytes 1..4 encode, whatever byte 0 is. -/
theorem header_length_round_trip :
    (∀ n, n < 2 ^ 32 →
      GetMessageSizeFromHeader
        [n % 256, n / 256 % 256, n / 65536 % 256, n / 16777216 % 256] = n) ∧
    (∀ b0 b1 b2 b3, b0 < 256 → b1 < 256 → b2 < 256 → b3 < 256 →
      GetMessageSizeFromHeader [b0, b1, b2, b3] =
        b0 + 256 * b1 + 65536 * b2 + 16777216 * b3) ∧
    (∀ (Message : Type) (parse : List Nat → Message) (v b0 b1 b2 b3 : Nat) (rest : List Nat),
      b0 < 256 → b1 < 256 → b2 < 256 → b3 < 256 →
      b0 + 256 * b1 + 65536 * b2 + 16777216 * b3 ≤ MaxMessageSize →
      b0 + 256 * b1 + 65536 * b2 + 16777216 * b3 ≤ rest.length →
      ReceiveMessage parse { incoming := v :: b0 :: b1 :: b2 :: b3 :: rest, good := true } =
        (Except.ok (some (parse ([v, b0, b1, b2, b3] ++
            rest.take (b0 + 256 * b1 + 65536 * b2 + 16777216 * b3)))),
         { incoming := rest.drop (b0 + 256 * b1 + 65536 * b2 + 16777216 * b3),
           good := true })) := by
  refine ⟨?_, ?_, ?_⟩
  · intro n hn
    rw [GetMessageSizeFromHeader_bytes _ _ _ _ _ (Nat.mod_lt _ (by norm_num))
      (Nat.mod_lt _ (by norm_num)) (Nat.mod_lt _ (by norm_num)) (Nat.mod_lt _ (by norm_num))]
    omega
  · intro b0 b1 b2 b3 h0 h1 h2 h3
    exact GetMessageSizeFromHeader_bytes b0 b1 b2 b3 [] h0 h1 h2 h3
  · intro Message parse v b0 b1 b2 b3 rest h0 h1 h2 h3 hmax hlen
    rw [ReceiveMessage_after_header parse v b0 b1 b2 b3 rest h0 h1 h2 h3,
      if_neg (not_lt.mpr hmax), Stream_read_enough _ _ rfl hlen]

/-- C12. Message size limit: for a stream that delivers a 5-byte header `v, b0, b1, b2, b3`,
`ReceiveMessage` throws exactly when the body length decoded from bytes 1..4 is greater
than `MaxMessageSize = 1048576`, and then no byte after the header has been read; when the
length is within the limit it reads the body and returns a message. A header announcing
exactly 1048576 is accepted, one announcing 1048577 is rejected. -/
theorem message_size_limit {Message : Type} (parse : List Nat → Message)
    (v b0 b1 b2 b3 : Nat) (rest : List Nat)
    (h0 : b0 < 256) (h1 : b1 < 256) (h2 : b2 < 256) (h3 : b3 < 256) :
    MaxMessageSize = 1048576 ∧
    ((∃ what, (ReceiveMessage parse
        { incoming := v :: b0 :: b1 :: b2 :: b3 :: rest, good := true }).1 =
          Except.error what) ↔
      b0 + 256 * b1 + 65536 * b2 + 16777216 * b3 > 1048576) ∧
    (b0 + 256 * b1 + 65536 * b2 + 16777216 * b3 > 1048576 →
      (ReceiveMessage parse
        { incoming := v :: b0 :: b1 :: b2 :: b3 :: rest, good := true }).2 =
        { incoming := rest, good := true }) ∧
    (b0 + 256 * b1 + 65536 * b2 + 16777216 * b3 ≤ 1048576 →
      ReceiveMessage parse { incoming := v :: b0 :: b1 :: b2 :: b3 :: rest, good := true } =
        (Except.ok (some (parse ([v, b0, b1, b2, b3] ++
          (Stream.read { incoming := rest, good := true }
            (b0 + 256 * b1 + 65536 * b2 + 16777216 * b3)).1))),
         (Stream.read { incoming := rest, good := true }
            (b0 + 256 * b1 + 65536 * b2 + 16777216 * b3)).2)) := by
  have hafter := ReceiveMessage_after_header parse v b0 b1 b2 b3 rest h0 h1 h2 h3
  rw [MaxMessageSize_eq] at hafter
  refine ⟨MaxMessageSize_eq, ?_, ?_, ?_⟩
  · constructor
    · rintro ⟨what, hw⟩
      by_contra hle
      rw [hafter, if_neg hle] at hw
      cases hw
    · intro h
      exact ⟨_, by rw [hafter, if_pos h]⟩
  · intro h
    rw [hafter, if_pos h]
  · intro h
    rw [hafter, if_neg (not_lt.mpr h)]

/-- Witness of C12: a header announcing 1048576 (bytes 0, 0, 16, 0) is accepted, a message
is returned; a header announcing 1048577 (bytes 1, 0, 16, 0) makes `ReceiveMessage` throw
with every byte after the header still unread. -/
theorem message_size_limit_witness :
    (ReceiveMessage (fun _ => ()) { incoming := [1, 0, 0, 16, 0, 7, 7, 7], good := true }).1 =
      Except.ok (some ()) ∧
    (ReceiveMessage (fun _ => ()) { incoming := [1, 1, 0, 16, 0, 7, 7, 7], good := true }).2 =
      { incoming := [7, 7, 7], good := true } :=
  ⟨by
    rw [(message_size_limit (fun _ => ()) 1 0 0 16 0 [7, 7, 7] (by norm_num) (by norm_num)
      (by norm_num) (by norm_num)).2.2.2 (by norm_num)],
   (message_size_limit (fun _ => ()) 1 1 0 16 0 [7, 7, 7]
    (by norm_num) (by norm_num) (by norm_num) (by norm_num)).2.2.1 (by norm_num)⟩

/-! ### The closest stored node -/

theorem DiscoverWorld_eq (env : Env D) (myNodeInfo : NodeInfo D)
    (seedNodes : List (NodeInfo D)) (fuel : Nat) (s : Sys D) :
    DiscoverWorld env myNodeInfo seedNodes fuel s =
      match seedLoop env myNodeInfo seedNodes fuel (seedPhaseStart s) with
      | Except.error f => Except.error f
      | Except.ok st =>
          if st.seedNodeColleagueCount = 0 ∧ st.randomColleagueCandidates = [] ∧
              st.triedSeedNodes.length = seedNodes.length ∧
              (seedNodes.find? (fun seedProfile =>
                decide (myNodeInfo.profile = seedProfile.profile))) = none
          then Except.ok (false, st.sys)
          else fillLoop env myNodeInfo (fillTarget st.seedNodeColleagueCount) fuel 0
            st.randomColleagueCandidates st.sys := rfl

theorem isSeed_eq_false_iff (myNodeInfo : NodeInfo D) (seedNodes : List (NodeInfo D)) :
    isSeed myNodeInfo seedNodes = false ↔
      seedNodes.find? (fun seedProfile => decide (myNodeInfo.profile = seedProfile.profile))
        = none := by
  unfold isSeed
  rw [List.find?_eq_none, List.any_eq_false]

/-- The seed loop never tries more seeds than there are, and it only ends when every seed
has been tried or a seed has reported a positive count and a non-empty list. -/
theorem seedLoop_tried (env : Env D) (myNodeInfo : NodeInfo D)
    (seedNodes : List (NodeInfo D)) (fuel : Nat) :
    ∀ st st2 : SeedPhase D, st.triedSeedNodes.length ≤ seedNodes.length →
      seedLoop env myNodeInfo seedNodes fuel st = Except.ok st2 →
      st2.triedSeedNodes.length ≤ seedNodes.length ∧
      (st2.triedSeedNodes.length = seedNodes.length ∨
        (0 < st2.seedNodeColleagueCount ∧ st2.randomColleagueCandidates ≠ [])) := by
  induction fuel with
  | zero =>
      intro st st2 hle h
      unfold seedLoop at h
      split at h
      · cases h
      · rename_i hnot
        cases h
        exact ⟨hle, Or.inl (by omega)⟩
  | succ fuel ih =>
      intro st st2 hle h
      unfold seedLoop at h
      split at h
      · rename_i hlt
        simp only at h
        split at h
        · refine ih _ st2 ?_ h
          exact hle
        · split at h
          · refine ih _ st2 ?_ h
            simp only [List.length_append, List.length_singleton]
            omega
          · split at h
            · refine ih _ st2 ?_ h
              simp only [List.length_append, List.length_singleton]
              omega
            · split at h
              · refine ih _ st2 ?_ h
                simp only [List.length_append, List.length_singleton]
                omega
              · split at h
                · rename_i hsucc
                  cases h
                  refine ⟨?_, Or.inr ⟨hsucc.1, hsucc.2⟩⟩
                  simp only [List.length_append, List.length_singleton]
                  omega
                · refine ih _ st2 ?_ h
                  simp only [List.length_append, List.length_singleton]
                  omega
      · rename_i hnot
        cases h
        exact ⟨hle, Or.inl (by omega)⟩

/-- When no seed ever reports anything, the seed loop records a zero count and an empty
candidate list and leaves the database alone. -/
theorem seedLoop_nothing (env : Env D) (myNodeInfo : NodeInfo D)
    (seedNodes : List (NodeInfo D)) (hnothing : SeedsAnswerNothing env) (fuel : Nat) :
    ∀ st st2 : SeedPhase D,
      seedLoop env myNodeInfo seedNodes fuel st = Except.ok st2 →
      st.seedNodeColleagueCount = 0 → st.randomColleagueCandidates = [] →
      st2.seedNodeColleagueCount = 0 ∧ st2.randomColleagueCandidates = [] ∧
      st2.sys.db = st.sys.db := by
  induction fuel with
  | zero =>
      intro st st2 h h0 he
      unfold seedLoop at h
      split at h
      · cases h
      · cases h; exact ⟨h0, he, rfl⟩
  | succ fuel ih =>
      intro st st2 h h0 he
      unfold seedLoop at h
      split at h
      · simp only at h
        split at h
        · obtain ⟨r1, r2, r3⟩ := ih _ st2 h h0 he
          exact ⟨r1, r2, r3⟩
        · split at h
          · rename_i s1 hs1
            have hdb := SafeConnectTo_eq_db _ _ _ _ _ _ hs1
            obtain ⟨r1, r2, r3⟩ := ih _ st2 h h0 he
            exact ⟨r1, r2, r3.trans (by simpa [Sys.log] using hdb)⟩
          · rename_i conn s1 hs1
            have hdb := SafeConnectTo_eq_db _ _ _ _ _ _ hs1
            split at h
            · obtain ⟨r1, r2, r3⟩ := ih _ st2 h h0 he
              exact ⟨r1, r2, r3.trans (by simpa [Sys.log] using hdb)⟩
            · rename_i count hcount
              have hc0 : count = 0 := by
                rcases hnothing.1 s1.trace conn NodeRelationType.Colleague with hz | ⟨w, hw⟩
                · rw [hz] at hcount; cases hcount; rfl
                · rw [hw] at hcount; cases hcount
              split at h
              · obtain ⟨r1, r2, r3⟩ := ih _ st2 h hc0 he
                exact ⟨r1, r2, r3.trans (by simpa [Sys.log] using hdb)⟩
              · rename_i candidates hcand
                split at h
                · rename_i hsucc
                  exact absurd hsucc.1 (by omega)
                · have hce : candidates = [] := by
                    rcases hnothing.2 (s1.log (Event.GetNodeCount conn
                      NodeRelationType.Colleague (env.GetNodeCount s1.trace conn
                        NodeRelationType.Colleague))).trace conn
                      (min INIT_WORLD_RANDOM_NODE_COUNT count) Neighbours.Excluded with
                      hz | ⟨w, hw⟩
                    · rw [hz] at hcand; cases hcand; rfl
                    · rw [hw] at hcand; cases hcand
                  obtain ⟨r1, r2, r3⟩ := ih _ st2 h hc0 hce
                  exact ⟨r1, r2, r3.trans (by simpa [Sys.log] using hdb)⟩
      · cases h; exact ⟨h0, he, rfl⟩

/-- The give-up test of `DiscoverWorld`: let the seed loop have ended. If the answers
recorded at its end are a zero colleague count and an empty candidate list, then every seed
has been tried, and `DiscoverWorld` returns at once, true if the own profile is one of the
declared seeds and false otherwise. This is the case when no seed ever reports anything
(every `GetNodeCount` answer is zero or an exception, every `GetRandomNodes` answer the
empty list or an exception). When a positive count or a non-empty list has been recorded,
the check of the seed list is skipped and `DiscoverWorld` returns what its fill phase
returns. -/
theorem seeds_exhausted (env : Env D) (myNodeInfo : NodeInfo D)
    (seedNodes : List (NodeInfo D)) (fuel : Nat) (s : Sys D) (st : SeedPhase D)
    (hloop : seedLoop env myNodeInfo seedNodes fuel (seedPhaseStart s) = Except.ok st) :
    (st.seedNodeColleagueCount = 0 → st.randomColleagueCandidates = [] →
      st.triedSeedNodes.length = seedNodes.length ∧
      DiscoverWorld env myNodeInfo seedNodes fuel s =
        Except.ok (isSeed myNodeInfo seedNodes, st.sys)) ∧
    (SeedsAnswerNothing env →
      st.seedNodeColleagueCount = 0 ∧ st.randomColleagueCandidates = [] ∧ st.sys.db = s.db) ∧
    (¬ (st.seedNodeColleagueCount = 0 ∧ st.randomColleagueCandidates = []) →
      DiscoverWorld env myNodeInfo seedNodes fuel s =
        fillLoop env myNodeInfo (fillTarget st.seedNodeColleagueCount) fuel 0
          st.randomColleagueCandidates st.sys) := by
  refine ⟨?_, ?_, ?_⟩
  · intro hzero hempty
    obtain ⟨_, hend⟩ := seedLoop_tried env myNodeInfo seedNodes fuel (seedPhaseStart s) st
      (Nat.zero_le _) hloop
    have hall : st.triedSeedNodes.length = seedNodes.length := by
      rcases hend with h | ⟨h, _⟩
      · exact h
      · omega
    refine ⟨hall, ?_⟩
    rw [DiscoverWorld_eq, hloop]
    simp only
    cases hseed : isSeed myNodeInfo seedNodes with
    | false =>
        rw [if_pos ⟨hzero, hempty, hall, (isSeed_eq_false_iff _ _).mp hseed⟩]
    | true =>
        have hfound : ¬ (seedNodes.find? (fun seedProfile =>
            decide (myNodeInfo.profile = seedProfile.profile))) = none := by
          rw [← isSeed_eq_false_iff, hseed]; simp
        rw [if_neg (fun h => hfound h.2.2.2)]
        have ht : fillTarget st.seedNodeColleagueCount = 0 := by rw [hzero]; exact fillTarget_zero
        rw [ht, fillLoop_zero_target]
  · intro hnothing
    exact seedLoop_nothing env myNodeInfo seedNodes hnothing fuel (seedPhaseStart s) st hloop
      rfl rfl
  · intro hrec
    rw [DiscoverWorld_eq, hloop]
    simp only
    rw [if_neg (fun h => hrec ⟨h.1, h.2.1⟩)]

/-- Both hardwired seeds are unreachable and the own node is the first seed:
`DiscoverWorld` returns true. -/
theorem seeds_exhausted_witness :
    returned (DiscoverWorld (quietEnv (fun _ => (0 : ℚ))) firstSeed _seedNodes 2
      { db := [], trace := [] }) = some true := by
  have h := (seeds_exhausted (quietEnv (fun _ => (0 : ℚ))) firstSeed _seedNodes 2
    { db := [], trace := [] }
    { triedSeedNodes := ["FirstSeedNodeId", "SecondSeedNodeId"], seedNodeColleagueCount := 0,
      randomColleagueCandidates := [],
      sys := { db := [], trace := [Event.Random 0, Event.Random 1,
        Event.ConnectTo (NodeProfile.mk "SecondSeedNodeId" "6.7.8.9" 5555 "" 0)
          (Except.error "unreachable")] } }
    (by simp [seedLoop, seedPhaseStart, SafeConnectTo, quietEnv, firstSeed, _seedNodes,
      Sys.log])).1 rfl rfl
  rw [h.2]
  simp [returned, isSeed, firstSeed, _seedNodes, gpsAt]

/-- C14. Seeds exhausted, what the code does: the give-up test looks at the count and the
candidate list last recorded, not at whether a seed succeeded. When the seed loop has ended
with an empty candidate list (so no seed succeeded) but with a recorded count whose fill
target is positive, every seed has been tried, the seed list is not consulted, and with no
colleague in the database `DiscoverWorld` returns false from its fill phase, also when the
own profile is one of the declared seeds. -/
theorem declared_seed_gives_up (env : Env D) (myNodeInfo : NodeInfo D)
    (seedNodes : List (NodeInfo D)) (fuel : Nat) (s : Sys D) (st : SeedPhase D)
    (hloop : seedLoop env myNodeInfo seedNodes (fuel + 1) (seedPhaseStart s) = Except.ok st)
    (htarget : 0 < fillTarget st.seedNodeColleagueCount)
    (hcands : st.randomColleagueCandidates = [])
    (hdb : Db.GetRandomNodes st.sys.db (env.Random st.sys.trace) 1 Neighbours.Excluded = []) :
    st.triedSeedNodes.length = seedNodes.length ∧
    DiscoverWorld env myNodeInfo seedNodes (fuel + 1) s =
      Except.ok (false, st.sys.log (Event.Random (env.Random st.sys.trace))) := by
  obtain ⟨_, hend⟩ := seedLoop_tried env myNodeInfo seedNodes (fuel + 1) (seedPhaseStart s) st
    (Nat.zero_le _) hloop
  have hall : st.triedSeedNodes.length = seedNodes.length := by
    rcases hend with h | ⟨_, h⟩
    · exact h
    · exact absurd hcands h
  have hcount : ¬ st.seedNodeColleagueCount = 0 := by
    intro h0
    rw [h0, fillTarget_zero] at htarget
    exact absurd htarget (by decide)
  refine ⟨hall, ?_⟩
  rw [DiscoverWorld_eq, hloop]
  simp only
  rw [if_neg (fun h => hcount h.1), hcands]
  rw [fillLoop]
  rw [if_pos htarget]
  simp only [List.getLast?_nil]
  rw [refillLoop]
  simp only [Sys.log, hdb]

/-- Witness of C14 (failing input): the own node is the first hardwired seed and its
database is empty; the second seed is reachable and answers a colleague count of 5, with an
empty list of random nodes in the first world and with an exception in the second. Every
seed has been tried and none succeeded, the own profile is a declared seed, and
`DiscoverWorld` returns false. -/
theorem declared_seed_gives_up_witness :
    isSeed (firstSeed : NodeInfo ℚ) _seedNodes = true ∧
    returned (DiscoverWorld (answeringEnv (fun _ => (0 : ℚ)) 5 []) firstSeed _seedNodes 2
      { db := [], trace := [] }) = some false ∧
    returned (DiscoverWorld (countOnlyEnv (fun _ => (0 : ℚ)) 5) firstSeed _seedNodes 2
      { db := [], trace := [] }) = some false := by
  have h1 := declared_seed_gives_up (answeringEnv (fun _ => (0 : ℚ)) 5 []) firstSeed
    _seedNodes 1 { db := [], trace := [] }
    { triedSeedNodes := ["FirstSeedNodeId", "SecondSeedNodeId"],
      seedNodeColleagueCount := 5, randomColleagueCandidates := [],
      sys := { db := [], trace := [Event.Random 0, Event.Random 1,
        Event.ConnectTo (NodeProfile.mk "SecondSeedNodeId" "6.7.8.9" 5555 "" 0)
          (Except.ok (some 1)),
        Event.GetNodeCount 1 NodeRelationType.Colleague (Except.ok 5),
        Event.GetRandomNodes 1 5 Neighbours.Excluded (Except.ok [])] } }
    (by simp [seedLoop, seedPhaseStart, SafeConnectTo, answeringEnv, openEnv, quietEnv,
      firstSeed, _seedNodes, Sys.log, INIT_WORLD_RANDOM_NODE_COUNT])
    (by rw [fillTarget_small 5 (by norm_num)]; norm_num) rfl
    (by simp [Db.GetRandomNodes])
  have h2 := declared_seed_gives_up (countOnlyEnv (fun _ => (0 : ℚ)) 5) firstSeed
    _seedNodes 1 { db := [], trace := [] }
    { triedSeedNodes := ["FirstSeedNodeId", "SecondSeedNodeId"],
      seedNodeColleagueCount := 5, randomColleagueCandidates := [],
      sys := { db := [], trace := [Event.Random 0, Event.Random 1,
        Event.ConnectTo (NodeProfile.mk "SecondSeedNodeId" "6.7.8.9" 5555 "" 0)
          (Except.ok (some 1)),
        Event.GetNodeCount 1 NodeRelationType.Colleague (Except.ok 5),
        Event.GetRandomNodes 1 5 Neighbours.Excluded (Except.error "query failed")] } }
    (by simp [seedLoop, seedPhaseStart, SafeConnectTo, countOnlyEnv, answeringEnv, openEnv,
      quietEnv, firstSeed, _seedNodes, Sys.log, INIT_WORLD_RANDOM_NODE_COUNT])
    (by rw [fillTarget_small 5 (by norm_num)]; norm_num) rfl
    (by simp [Db.GetRandomNodes])
  refine ⟨by simp [isSeed, firstSeed, _seedNodes, gpsAt], ?_, ?_⟩
  · rw [h1.2]
    rfl
  · rw [h2.2]
    rfl

/-! ### What a run of `SafeStoreNode` leaves in the trace -/

/-- Every run of `SafeStoreNode` appends events to the trace; among them there is at most
one `Store`, it is for the entry offered, and it succeeded exactly when the function
returns true, in which case the entry is in the database afterwards. -/
theorem SafeStoreNode_trace (env : Env D) (myNodeInfo : NodeInfo D) (s : Sys D)
    (entry : NodeDbEntry D) (nodeConnection : Option Conn) :
    ∃ evs, (SafeStoreNode env myNodeInfo s entry nodeConnection).2.trace = s.trace ++ evs ∧
      (∀ e r, Event.Store e r ∈ evs → e = entry) ∧
      (Event.Store entry (Except.ok true) ∈ evs ↔
        (SafeStoreNode env myNodeInfo s entry nodeConnection).1 = true) ∧
      ((evs.filter (fun e => match e with
          | Event.Store _ (Except.ok true) => true
          | _ => false)).length =
        if (SafeStoreNode env myNodeInfo s entry nodeConnection).1 = true then 1 else 0) ∧
      ((SafeStoreNode env myNodeInfo s entry nodeConnection).1 = true →
        entry ∈ (SafeStoreNode env myNodeInfo s entry nodeConnection).2.db) := by
  have hstore : ∀ (s0 : Sys D) (pre : List (Event D)), s0.trace = s.trace ++ pre →
      (∀ e ∈ pre, ∀ x r, e ≠ Event.Store x r) →
      ∃ evs, (storeOrFalse env s0 entry).2.trace = s.trace ++ evs ∧
        (∀ e r, Event.Store e r ∈ evs → e = entry) ∧
        (Event.Store entry (Except.ok true) ∈ evs ↔ (storeOrFalse env s0 entry).1 = true) ∧
        ((evs.filter (fun e => match e with
            | Event.Store _ (Except.ok true) => true
            | _ => false)).length =
          if (storeOrFalse env s0 entry).1 = true then 1 else 0) ∧
        ((storeOrFalse env s0 entry).1 = true → entry ∈ (storeOrFalse env s0 entry).2.db) := by
    intro s0 pre htr hpre
    have hfilter : pre.filter (fun e => match e with
          | Event.Store _ (Except.ok true) => true
          | _ => false) = [] := by
      rw [List.filter_eq_nil_iff]
      intro e he
      cases e with
      | Store x r => exact absurd rfl (hpre _ he x r)
      | _ => simp
    rw [storeOrFalse_eq]
    refine ⟨pre ++ [Event.Store entry (env.StoreResult s0.trace entry)], ?_, ?_, ?_, ?_, ?_⟩
    · simp [htr, List.append_assoc]
    · intro e r hmem
      rcases List.mem_append.mp hmem with h | h
      · exact absurd rfl (hpre _ h e r)
      · simp at h; exact h.1
    · constructor
      · intro hmem
        rcases List.mem_append.mp hmem with h | h
        · exact absurd rfl (hpre _ h _ _)
        · simp at h
          simp [← h, granted]
      · intro hg
        simp only at hg
        rcases hr : env.StoreResult s0.trace entry with err | b
        · rw [hr] at hg; simp [granted] at hg
        · rw [hr] at hg
          have hb : b = true := by simpa [granted] using hg
          subst hb
          simp
    · rw [List.filter_append, hfilter]
      rcases hr : env.StoreResult s0.trace entry with err | b
      · simp [granted]
      · cases b <;> simp [granted]
    · intro hg
      simp only at hg
      simp [hg, Db.Store]
  by_cases hrej : locallyRejected env myNodeInfo s.db entry = true
  · rw [SafeStoreNode_rejected env myNodeInfo s entry nodeConnection hrej]
    exact ⟨[], by simp, by simp, by simp, by simp, by simp⟩
  have hpre : locallyRejected env myNodeInfo s.db entry = false := by simpa using hrej
  cases hrole : entry.roleType with
  | Acceptor =>
      rw [SafeStoreNode_acceptor env myNodeInfo s entry nodeConnection hpre hrole]
      exact hstore s [] (by simp) (by simp)
  | Initiator =>
      rcases SafeStoreNode_initiator_shape env myNodeInfo s entry nodeConnection hpre hrole with
        ⟨hc, hid, heq⟩ | ⟨hc, hid, hfail, heq⟩ | ⟨c, dialled, r, hob, hr, heq⟩ |
        ⟨c, dialled, r, hob, heq⟩
      · rw [heq]
        exact ⟨[], by simp, by simp, by simp, by simp, by simp⟩
      · rw [heq]
        exact ⟨_, rfl, by simp, by simp, by simp, by simp⟩
      · rw [heq]
        have hd : ∀ e ∈ dialled, ∃ p q, e = Event.ConnectTo p q := by
          intro e he
          rcases hob with ⟨_, rfl⟩ | ⟨_, _, _, rfl⟩
          · cases he
          · exact ⟨_, _, by simpa using he⟩
        have hno : ∀ e ∈ dialled ++ [permissionEvent myNodeInfo entry.relationType c r],
            ∀ x q, e ≠ Event.Store x q := by
          intro e he x q heq2
          rcases List.mem_append.mp he with h | h
          · obtain ⟨p, q2, hpq⟩ := hd _ h
            rw [hpq] at heq2; cases heq2
          · simp only [List.mem_singleton] at h
            rw [h] at heq2
            cases hrel : entry.relationType <;> simp [permissionEvent, hrel] at heq2
        refine ⟨_, rfl, ?_, ?_, ?_, by simp⟩
        · intro e q hmem
          exact absurd rfl (hno _ hmem e q)
        · constructor
          · intro hmem
            exact absurd rfl (hno _ hmem _ _)
          · intro h; simp at h
        · simp only [Bool.false_eq_true, if_false, List.length_eq_zero]
          rw [List.filter_eq_nil_iff]
          intro e he
          cases e with
          | Store x q => exact absurd rfl (hno _ he x q)
          | _ => simp
      · have hd : ∀ e ∈ dialled, ∃ p q, e = Event.ConnectTo p q := by
          intro e he
          rcases hob with ⟨_, rfl⟩ | ⟨_, _, _, rfl⟩
          · cases he
          · exact ⟨_, _, by simpa using he⟩
        have hno : ∀ e ∈ dialled ++
            [permissionEvent myNodeInfo entry.relationType c (Except.ok true)],
            ∀ x q, e ≠ Event.Store x q := by
          intro e he x q heq2
          rcases List.mem_append.mp he with h | h
          · obtain ⟨p, q2, hpq⟩ := hd _ h
            rw [hpq] at heq2; cases heq2
          · simp only [List.mem_singleton] at h
            rw [h] at heq2
            cases hrel : entry.relationType <;> simp [permissionEvent, hrel] at heq2
        have hfilter : (dialled ++
            [permissionEvent myNodeInfo entry.relationType c (Except.ok true)]).filter
            (fun e => match e with
              | Event.Store _ (Except.ok true) => true
              | _ => false) = [] := by
          rw [List.filter_eq_nil_iff]
          intro e he
          cases e with
          | Store x q => exact absurd rfl (hno _ he x q)
          | _ => simp
        rw [heq]
        refine ⟨(dialled ++ [permissionEvent myNodeInfo entry.relationType c (Except.ok true)])
          ++ [Event.Store entry r], by simp [List.append_assoc], ?_, ?_, ?_, ?_⟩
        · intro e q hmem
          rcases List.mem_append.mp hmem with h | h
          · exact absurd rfl (hno _ h e q)
          · simp at h; exact h.1
        · constructor
          · intro hmem
            rcases List.mem_append.mp hmem with h | h
            · exact absurd rfl (hno _ h _ _)
            · simp at h
              simp [← h, granted]
          · intro hg
            simp only at hg
            rcases r with err | b
            · simp [granted] at hg
            · have hb : b = true := by simpa [granted] using hg
              subst hb
              simp
        · rw [List.filter_append, hfilter]
          rcases r with err | b
          · simp [granted]
          · cases b <;> simp [granted]
        · intro hg
          simp only at hg
          simp [hg, Db.Store]

/-! ### Admission requests and stores in the seed phase -/

theorem SafeConnectTo_trace (env : Env D) (myNodeInfo : NodeInfo D) (s : Sys D)
    (node : NodeProfile) :
    ∃ evs, (SafeConnectTo env myNodeInfo s node).2.trace = s.trace ++ evs ∧
      (∀ e ∈ evs, ∃ r, e = Event.ConnectTo node r) := by
  by_cases hid : node.id = myNodeInfo.profile.id
  · rw [SafeConnectTo_self env myNodeInfo s node hid]
    exact ⟨[], by simp, by simp⟩
  · rw [SafeConnectTo_other env myNodeInfo s node hid]
    exact ⟨_, rfl, by simp⟩

theorem SafeConnectTo_eq_trace (env : Env D) (myNodeInfo : NodeInfo D) (s s1 : Sys D)
    (node : NodeProfile) (conn : Option Conn)
    (h : SafeConnectTo env myNodeInfo s node = (conn, s1)) :
    ∃ evs, s1.trace = s.trace ++ evs ∧ (∀ e ∈ evs, ∃ r, e = Event.ConnectTo node r) := by
  have := SafeConnectTo_trace env myNodeInfo s node
  rw [h] at this
  exact this

/-- One iteration of the seed loop in which an untried seed is reachable and answers with
a positive count and a non-empty list: the loop ends with the admission of that seed. -/
theorem seedLoop_success (env : Env D) (myNodeInfo : NodeInfo D)
    (seedNodes : List (NodeInfo D)) (fuel : Nat) (st : SeedPhase D) (seed : NodeInfo D)
    (conn : Conn) (s1 : Sys D) (count : Nat) (candidates : List (NodeInfo D))
    (hlt : st.triedSeedNodes.length < seedNodes.length)
    (hseed : seedNodes[env.Random st.sys.trace % seedNodes.length]? = some seed)
    (hnew : seed.profile.id ∉ st.triedSeedNodes)
    (hconn : SafeConnectTo env myNodeInfo (st.sys.log (Event.Random (env.Random st.sys.trace)))
      seed.profile = (some conn, s1))
    (hcount : env.GetNodeCount s1.trace conn NodeRelationType.Colleague = Except.ok count)
    (hpos : 0 < count)
    (hcands : env.GetRandomNodes
      (s1.log (Event.GetNodeCount conn NodeRelationType.Colleague (Except.ok count))).trace conn
      (min INIT_WORLD_RANDOM_NODE_COUNT count) Neighbours.Excluded = Except.ok candidates)
    (hne : candidates ≠ []) :
    seedLoop env myNodeInfo seedNodes (fuel + 1) st =
      Except.ok
        { triedSeedNodes := st.triedSeedNodes ++ [seed.profile.id],
          seedNodeColleagueCount := count,
          randomColleagueCandidates := candidates,
          sys := (SafeStoreNode env myNodeInfo (afterSeedAnswers s1 conn count candidates)
            (seedAdmission env myNodeInfo seed) none).2 } := by
  have hget : seedNodes.get ⟨env.Random st.sys.trace % seedNodes.length,
      Nat.mod_lt _ (Nat.lt_of_le_of_lt (Nat.zero_le _) hlt)⟩ = seed := by
    have h := List.getElem?_eq_getElem (l := seedNodes)
      (Nat.mod_lt (env.Random st.sys.trace) (Nat.lt_of_le_of_lt (Nat.zero_le _) hlt))
    rw [hseed] at h
    exact (Option.some.inj h).symm
  unfold seedLoop
  rw [dif_pos hlt]
  simp only [hget, hnew, if_false, hconn, hcount]
  rw [hcands]
  simp only [hpos, hne, ne_eq, not_false_eq_true, and_self, if_true, gt_iff_lt]
  rfl

theorem seed_scenario_near :
    seedAdmission (answeringEnv (fun _ => (0 : ℚ)) 1 [nodeAt "peer" 10 10])
      (nodeAt "self" 1 2) firstSeed =
      NodeDbEntry.mk firstSeed NodeRelationType.Neighbour NodeContactRoleType.Initiator := by
  simp [seedAdmission, answeringEnv, degreeEnv, nodeAt, firstSeed, gpsAt,
    NEIGHBOURHOOD_MAX_RANGE_KM]

theorem admittedCount_append (relationType : NodeRelationType) (a b : List (Event D)) :
    admittedCount relationType (a ++ b) =
      admittedCount relationType a + admittedCount relationType b := by
  simp [admittedCount, List.filter_append]

theorem admittedCount_of_no_store (relationType : NodeRelationType) (evs : List (Event D))
    (h : ∀ e ∈ evs, ∀ x r, e ≠ Event.Store x r) : admittedCount relationType evs = 0 := by
  unfold admittedCount
  rw [List.length_eq_zero, List.filter_eq_nil_iff]
  intro e he
  cases e with
  | Store x r => exact absurd rfl (h _ he x r)
  | _ => simp [Event.isAdmission]

/-- An initiator-role admission counts once when `SafeStoreNode` returns true and not at
all when it returns false. -/
theorem SafeStoreNode_admitted (env : Env D) (myNodeInfo : NodeInfo D) (s : Sys D)
    (node : NodeInfo D) (relationType : NodeRelationType) (nodeConnection : Option Conn) :
    ∃ evs, (SafeStoreNode env myNodeInfo s
        (NodeDbEntry.mk node relationType NodeContactRoleType.Initiator) nodeConnection).2.trace =
        s.trace ++ evs ∧
      admittedCount relationType evs =
        if (SafeStoreNode env myNodeInfo s
          (NodeDbEntry.mk node relationType NodeContactRoleType.Initiator) nodeConnection).1 = true
        then 1 else 0 := by
  obtain ⟨evs, htr, honly, _, hcount, _⟩ := SafeStoreNode_trace env myNodeInfo s
    (NodeDbEntry.mk node relationType NodeContactRoleType.Initiator) nodeConnection
  refine ⟨evs, htr, ?_⟩
  rw [← hcount]
  unfold admittedCount
  congr 1
  apply List.filter_congr
  intro e he
  cases e with
  | Store x r =>
      have hx := honly x r he
      subst hx
      rcases r with err | b
      · simp [Event.isAdmission]
      · cases b <;> simp [Event.isAdmission]
  | _ => simp [Event.isAdmission]

theorem refillLoop_trace (env : Env D) (myNodeInfo : NodeInfo D) (fuel : Nat) :
    ∀ (s s2 : Sys D) (candidates : Option (List (NodeInfo D))),
      refillLoop env myNodeInfo fuel s = Except.ok (candidates, s2) →
      ∃ evs, s2.trace = s.trace ++ evs ∧ ∀ e ∈ evs, ∀ x r, e ≠ Event.Store x r := by
  induction fuel with
  | zero =>
      intro s s2 candidates h
      unfold refillLoop at h
      cases h
  | succ fuel ih =>
      intro s s2 candidates h
      unfold refillLoop at h
      simp only at h
      split at h
      · cases h
        exact ⟨[Event.Random (env.Random s.trace)], by simp [Sys.log], by simp⟩
      · split at h
        · rename_i s1 hs1
          obtain ⟨evs, htr, hev⟩ := SafeConnectTo_eq_trace _ _ _ _ _ _ hs1
          cases h
          refine ⟨Event.Random (env.Random s.trace) :: evs, by simpa [Sys.log] using htr, ?_⟩
          intro e he x r heq
          rcases List.mem_cons.mp he with h1 | h1
          · rw [h1] at heq; cases heq
          · obtain ⟨q, hq⟩ := hev e h1
            rw [hq] at heq; cases heq
        · rename_i conn s1 hs1
          obtain ⟨evs, htr, hev⟩ := SafeConnectTo_eq_trace _ _ _ _ _ _ hs1
          have hfirst : ∃ pre, (s1.log (Event.GetRandomNodes conn INIT_WORLD_RANDOM_NODE_COUNT
              Neighbours.Excluded (env.GetRandomNodes s1.trace conn
                INIT_WORLD_RANDOM_NODE_COUNT Neighbours.Excluded))).trace = s.trace ++ pre ∧
              ∀ e ∈ pre, ∀ x r, e ≠ Event.Store x r := by
            refine ⟨Event.Random (env.Random s.trace) :: evs ++
              [Event.GetRandomNodes conn INIT_WORLD_RANDOM_NODE_COUNT Neighbours.Excluded
                (env.GetRandomNodes s1.trace conn INIT_WORLD_RANDOM_NODE_COUNT
                  Neighbours.Excluded)], ?_, ?_⟩
            · simp only [Sys.log, htr]
              simp [List.append_assoc]
            · intro e he x r heq
              rcases List.mem_append.mp he with h0 | h0
              · rcases List.mem_cons.mp h0 with h1 | h1
                · rw [h1] at heq; cases heq
                · obtain ⟨q, hq⟩ := hev e h1
                  rw [hq] at heq; cases heq
              · simp only [List.mem_singleton] at h0
                rw [h0] at heq; cases heq
          obtain ⟨pre, htr2, hpre⟩ := hfirst
          split at h
          · cases h
            exact ⟨pre, htr2, hpre⟩
          · obtain ⟨evs2, htr3, hev2⟩ := ih _ _ _ h
            refine ⟨pre ++ evs2, by rw [htr3, htr2, List.append_assoc], ?_⟩
            intro e he
            rcases List.mem_append.mp he with h0 | h0
            · exact hpre e h0
            · exact hev2 e h0
          · cases h
            exact ⟨pre, htr2, hpre⟩

/-- When the fill loop returns true, the colleagues admitted during it, together with
those counted before, reach the target. -/
theorem fillLoop_admitted (env : Env D) (myNodeInfo : NodeInfo D) (target : Nat) (fuel : Nat) :
    ∀ (added : Nat) (candidates : List (NodeInfo D)) (s s2 : Sys D),
      fillLoop env myNodeInfo target fuel added candidates s = Except.ok (true, s2) →
      ∃ evs, s2.trace = s.trace ++ evs ∧
        target ≤ added + admittedCount NodeRelationType.Colleague evs := by
  induction fuel with
  | zero =>
      intro added candidates s s2 h
      unfold fillLoop at h
      split at h
      · cases h
      · rename_i hnot
        cases h
        exact ⟨[], by simp, by simp [admittedCount]; omega⟩
  | succ fuel ih =>
      intro added candidates s s2 h
      unfold fillLoop at h
      split at h
      · split at h
        · rename_i nodeInfo _
          obtain ⟨evs, htr, hcount⟩ := SafeStoreNode_admitted env myNodeInfo s nodeInfo
            NodeRelationType.Colleague none
          split at h
          · rename_i s1 hs1
            rw [hs1] at htr hcount
            obtain ⟨evs2, htr2, hle⟩ := ih _ _ _ _ h
            refine ⟨evs ++ evs2, by rw [htr2, htr, List.append_assoc], ?_⟩
            rw [admittedCount_append, hcount]
            simp only [if_true]
            omega
          · rename_i s1 hs1
            rw [hs1] at htr hcount
            obtain ⟨evs2, htr2, hle⟩ := ih _ _ _ _ h
            refine ⟨evs ++ evs2, by rw [htr2, htr, List.append_assoc], ?_⟩
            rw [admittedCount_append]
            omega
        · split at h
          · cases h
          · cases h
          · rename_i cs s1 hr
            obtain ⟨evs, htr, hno⟩ := refillLoop_trace env myNodeInfo _ _ _ _ hr
            obtain ⟨evs2, htr2, hle⟩ := ih _ _ _ _ h
            refine ⟨evs ++ evs2, by rw [htr2, htr, List.append_assoc], ?_⟩
            rw [admittedCount_append, admittedCount_of_no_store _ evs hno]
            omega
      · rename_i hnot
        cases h
        exact ⟨[], by simp, by simp [admittedCount]; omega⟩

/-- C17, amended. Whenever `DiscoverWorld` returns true, the seed loop has ended with some
colleague count `n`, and the number of candidates admitted as Colleague-Initiator in the
fill phase that follows (the successful `Store` events of such entries) is at least the
target that the loop compares against, `size_t(0.75f * n)` computed in single precision
before the loop. For `n` below 5592409 this target is the integer part of `0.75 * n`. -/
theorem fill_target_reached (env : Env D) (myNodeInfo : NodeInfo D)
    (seedNodes : List (NodeInfo D)) (fuel : Nat) (s s2 : Sys D)
    (h : DiscoverWorld env myNodeInfo seedNodes fuel s = Except.ok (true, s2)) :
    ∃ st evs, seedLoop env myNodeInfo seedNodes fuel (seedPhaseStart s) = Except.ok st ∧
      s2.trace = st.sys.trace ++ evs ∧
      roundToFloat (3 * roundToFloat st.seedNodeColleagueCount) / 4 ≤
        admittedCount NodeRelationType.Colleague evs ∧
      (st.seedNodeColleagueCount < 5592409 →
        3 * st.seedNodeColleagueCount / 4 ≤ admittedCount NodeRelationType.Colleague evs) := by
  rw [DiscoverWorld_eq] at h
  split at h
  · cases h
  · rename_i st hst
    split at h
    · cases h
    · obtain ⟨evs, htr, hle⟩ := fillLoop_admitted env myNodeInfo _ fuel 0 _ _ _ h
      have hle2 : fillTarget st.seedNodeColleagueCount ≤
          admittedCount NodeRelationType.Colleague evs := by omega
      refine ⟨st, evs, hst, htr, hle2, ?_⟩
      intro hn
      rw [← fillTarget_eq_floor _ hn]
      exact hle2

/-- Witness of C17: the first seed reports two colleagues and one candidate, which is then
admitted as a colleague in the fill phase. -/
theorem fill_target_reached_witness :
    ∃ s2, DiscoverWorld (answeringEnv (fun _ => (0 : ℚ)) 2 [nodeAt "peer" 10 10])
        (nodeAt "self" 50 50) _seedNodes 2 { db := [], trace := [] } = Except.ok (true, s2) ∧
      ∃ st evs, seedLoop (answeringEnv (fun _ => (0 : ℚ)) 2 [nodeAt "peer" 10 10])
          (nodeAt "self" 50 50) _seedNodes 2 (seedPhaseStart { db := [], trace := [] }) =
          Except.ok st ∧
        s2.trace = st.sys.trace ++ evs ∧
        roundToFloat (3 * roundToFloat st.seedNodeColleagueCount) / 4 ≤
          admittedCount NodeRelationType.Colleague evs ∧
        (st.seedNodeColleagueCount < 5592409 →
          3 * st.seedNodeColleagueCount / 4 ≤
            admittedCount NodeRelationType.Colleague evs) := by
  have hx : ∃ s2, DiscoverWorld (answeringEnv (fun _ => (0 : ℚ)) 2 [nodeAt "peer" 10 10])
      (nodeAt "self" 50 50) _seedNodes 2 { db := [], trace := [] } = Except.ok (true, s2) := by
    have hs := seedLoop_success (answeringEnv (fun _ => (0 : ℚ)) 2 [nodeAt "peer" 10 10])
      (nodeAt "self" 50 50) _seedNodes 1 (seedPhaseStart { db := [], trace := [] }) firstSeed 1
      { db := [], trace := [Event.Random 0,
          Event.ConnectTo (firstSeed : NodeInfo ℚ).profile (Except.ok (some 1))] }
      2 [nodeAt "peer" 10 10]
      (by simp [seedPhaseStart, _seedNodes])
      (by simp [seedPhaseStart, answeringEnv, openEnv, quietEnv, _seedNodes, firstSeed, gpsAt])
      (by simp [seedPhaseStart])
      (by simp [seedPhaseStart, SafeConnectTo, answeringEnv, openEnv, quietEnv, firstSeed,
        nodeAt, Sys.log])
      rfl (by norm_num) rfl (by simp)
    have hadm : seedAdmission (answeringEnv (fun _ => (0 : ℚ)) 2 [nodeAt "peer" 10 10])
        (nodeAt "self" 50 50) firstSeed =
        NodeDbEntry.mk firstSeed NodeRelationType.Colleague NodeContactRoleType.Initiator := by
      norm_num [seedAdmission, answeringEnv, degreeEnv, nodeAt, firstSeed, gpsAt,
        NEIGHBOURHOOD_MAX_RANGE_KM]
    rw [DiscoverWorld_eq, hs, hadm]
    simp [fillLoop, fillTarget_small 2 (by norm_num), afterSeedAnswers, SafeStoreNode,
      SafeConnectTo,
      locallyRejected, BubbleOverlaps, GetBubbleSize_eq, obtainConnection, initiatorHandshake,
      AskPermission, storeOrFalse, StoreEntry, Db.Store, Db.Load, Db.GetClosestNodes,
      Db.GetNodeCount, Db.matchesFilter, Db.closerTo, answeringEnv, openEnv, quietEnv,
      degreeEnv, firstSeed, nodeAt, gpsAt, _seedNodes, Sys.log, permissionEvent,
      NEIGHBOURHOOD_MAX_NODE_COUNT]
    norm_num
  obtain ⟨s2, h⟩ := hx
  exact ⟨s2, h, fill_target_reached _ _ _ _ _ _ h⟩

/-- C17, counterexample. The own node at (1.0, 2.0) has an empty database; the first
hardwired seed is reachable, answers a colleague count of 1 and one candidate, and is
admitted (as a neighbour). `DiscoverWorld` then returns true at once: the target is the
integer part of 0.75, which is 0, so the fill loop does not run and no colleague is
admitted in the whole run. -/
theorem fill_target_counterexample :
    ∃ st : SeedPhase ℚ,
      seedLoop (answeringEnv (fun _ => (0 : ℚ)) 1 [nodeAt "peer" 10 10]) (nodeAt "self" 1 2)
        _seedNodes 1 (seedPhaseStart { db := [], trace := [] }) = Except.ok st ∧
      st.seedNodeColleagueCount = 1 ∧
      st.randomColleagueCandidates = [nodeAt "peer" 10 10] ∧
      DiscoverWorld (answeringEnv (fun _ => (0 : ℚ)) 1 [nodeAt "peer" 10 10])
        (nodeAt "self" 1 2) _seedNodes 1 { db := [], trace := [] } =
        Except.ok (true, st.sys) ∧
      admittedCount NodeRelationType.Colleague st.sys.trace = 0 := by
  have hs := seedLoop_success (answeringEnv (fun _ => (0 : ℚ)) 1 [nodeAt "peer" 10 10])
    (nodeAt "self" 1 2) _seedNodes 0 (seedPhaseStart { db := [], trace := [] }) firstSeed 1
    { db := [], trace := [Event.Random 0,
        Event.ConnectTo (firstSeed : NodeInfo ℚ).profile (Except.ok (some 1))] }
    1 [nodeAt "peer" 10 10]
    (by simp [seedPhaseStart, _seedNodes])
    (by simp [seedPhaseStart, answeringEnv, openEnv, quietEnv, _seedNodes, firstSeed, gpsAt])
    (by simp [seedPhaseStart])
    (by simp [seedPhaseStart, SafeConnectTo, answeringEnv, openEnv, quietEnv, firstSeed,
      nodeAt, Sys.log])
    rfl (by norm_num) rfl (by simp)
  refine ⟨_, hs, rfl, rfl, ?_, ?_⟩
  · rw [DiscoverWorld_eq, hs]
    simp [fillTarget_small 1 (by norm_num), fillLoop]
  · rw [seed_scenario_near]
    simp [admittedCount, Event.isAdmission, afterSeedAnswers, SafeStoreNode, SafeConnectTo,
      locallyRejected, BubbleOverlaps, GetBubbleSize_eq, obtainConnection, initiatorHandshake,
      AskPermission, storeOrFalse, StoreEntry, Db.Store, Db.Load, Db.GetClosestNodes,
      Db.GetNodeCount, answeringEnv, openEnv, quietEnv, degreeEnv, firstSeed, nodeAt, gpsAt,
      Sys.log, permissionEvent, NEIGHBOURHOOD_MAX_NODE_COUNT, NEIGHBOURHOOD_MAX_RANGE_KM]
    norm_num [Event.isAdmission]
    intro hrel
    cases hrel

/-! ### Dials in the trace -/

theorem dialCount_append (id : NodeId) (a b : List (Event D)) :
    dialCount id (a ++ b) = dialCount id a + dialCount id b := by
  simp [dialCount, List.filter_append]

theorem dialCount_nil (id : NodeId) : dialCount id ([] : List (Event D)) = 0 := rfl

theorem dialCount_connect (id : NodeId) (node : NodeProfile)
    (r : Except Err (Option Conn)) :
    dialCount id [(Event.ConnectTo node r : Event D)] = if node.id = id then 1 else 0 := by
  by_cases h : node.id = id <;> simp [dialCount, Event.isDial, h]

theorem dialCount_of_no_dial (id : NodeId) (evs : List (Event D))
    (h : ∀ e ∈ evs, ∀ node r, e ≠ Event.ConnectTo node r) : dialCount id evs = 0 := by
  unfold dialCount
  rw [List.length_eq_zero, List.filter_eq_nil_iff]
  intro e he
  cases e with
  | ConnectTo node r => exact absurd rfl (h _ he node r)
  | _ => simp [Event.isDial]

theorem dialCount_permission (id : NodeId) (myNodeInfo : NodeInfo D)
    (relationType : NodeRelationType) (conn : Conn) (r : Except Err Bool) :
    dialCount id [permissionEvent myNodeInfo relationType conn r] = 0 := by
  cases relationType <;> simp [dialCount, Event.isDial, permissionEvent]

theorem dialCount_store (id : NodeId) (entry : NodeDbEntry D) (r : Except Err Bool) :
    dialCount id [(Event.Store entry r : Event D)] = 0 := by
  simp [dialCount, Event.isDial]

/-- The dials of `SafeConnectTo`: at most one, and only of the given profile. -/
theorem SafeConnectTo_dials (env : Env D) (myNodeInfo : NodeInfo D) (s s1 : Sys D)
    (node : NodeProfile) (conn : Option Conn)
    (h : SafeConnectTo env myNodeInfo s node = (conn, s1)) :
    ∃ evs, s1.trace = s.trace ++ evs ∧
      (∀ id, dialCount id evs ≤ if node.id = id then 1 else 0) ∧
      (∀ e ∈ evs, ∀ x r, e ≠ Event.Store x r) ∧
      (∀ c, conn = some c → dialCount node.id evs = 1) := by
  by_cases hid : node.id = myNodeInfo.profile.id
  · rw [SafeConnectTo_self env myNodeInfo s node hid] at h
    cases h
    refine ⟨[], by simp, ?_, by simp, ?_⟩
    · intro id; simp [dialCount_nil]
    · intro c hc; cases hc
  · rw [SafeConnectTo_other env myNodeInfo s node hid] at h
    cases h
    refine ⟨_, rfl, ?_, by simp, ?_⟩
    · intro id; rw [dialCount_connect]
    · intro c _; rw [dialCount_connect]; simp

/-- The dials of `SafeStoreNode`: none when a connection is handed in, otherwise at most
one, and only of the candidate. -/
theorem SafeStoreNode_dials (env : Env D) (myNodeInfo : NodeInfo D) (s : Sys D)
    (entry : NodeDbEntry D) (nodeConnection : Option Conn) :
    ∃ evs, (SafeStoreNode env myNodeInfo s entry nodeConnection).2.trace = s.trace ++ evs ∧
      (∀ id, dialCount id evs ≤ if entry.profile.id = id then 1 else 0) ∧
      (∀ conn, nodeConnection = some conn → ∀ id, dialCount id evs = 0) := by
  have hob : ∀ conn dialled, Obtained env myNodeInfo s entry nodeConnection conn dialled →
      (∀ id, dialCount id dialled ≤ if entry.profile.id = id then 1 else 0) ∧
      (∀ c, nodeConnection = some c → ∀ id, dialCount id dialled = 0) := by
    intro conn dialled h
    rcases h with ⟨_, rfl⟩ | ⟨hnone, _, _, rfl⟩
    · exact ⟨fun id => by simp [dialCount_nil], fun _ _ id => dialCount_nil id⟩
    · refine ⟨fun id => by rw [dialCount_connect], ?_⟩
      intro c hc
      rw [hnone] at hc
      cases hc
  by_cases hrej : locallyRejected env myNodeInfo s.db entry = true
  · rw [SafeStoreNode_rejected env myNodeInfo s entry nodeConnection hrej]
    exact ⟨[], by simp, fun id => by simp [dialCount_nil], fun _ _ id => dialCount_nil id⟩
  have hpre : locallyRejected env myNodeInfo s.db entry = false := by simpa using hrej
  cases hrole : entry.roleType with
  | Acceptor =>
      rw [SafeStoreNode_acceptor env myNodeInfo s entry nodeConnection hpre hrole,
        storeOrFalse_eq]
      exact ⟨_, rfl, fun id => by simp [dialCount_store], fun _ _ id => dialCount_store id _ _⟩
  | Initiator =>
      rcases SafeStoreNode_initiator_shape env myNodeInfo s entry nodeConnection hpre hrole with
        ⟨hc, hid, heq⟩ | ⟨hc, hid, hfail, heq⟩ | ⟨c, dialled, r, hobt, hr, heq⟩ |
        ⟨c, dialled, r, hobt, heq⟩
      · rw [heq]
        exact ⟨[], by simp, fun id => by simp [dialCount_nil], fun _ _ id => dialCount_nil id⟩
      · rw [heq]
        refine ⟨_, rfl, fun id => by rw [dialCount_connect], ?_⟩
        intro conn hconn
        rw [hc] at hconn
        cases hconn
      · rw [heq]
        obtain ⟨h1, h2⟩ := hob c dialled hobt
        refine ⟨_, rfl, ?_, ?_⟩
        · intro id
          rw [dialCount_append, dialCount_permission]
          exact h1 id
        · intro conn hconn id
          rw [dialCount_append, dialCount_permission, h2 conn hconn id]
      · rw [heq]
        obtain ⟨h1, h2⟩ := hob c dialled hobt
        have hrest : ∀ id, dialCount id
            [permissionEvent myNodeInfo entry.relationType c (Except.ok true),
              Event.Store entry r] = 0 := by
          intro id
          have := dialCount_append id
            [permissionEvent myNodeInfo entry.relationType c (Except.ok true)]
            [(Event.Store entry r : Event D)]
          rw [dialCount_permission, dialCount_store] at this
          simpa using this
        refine ⟨_, rfl, ?_, ?_⟩
        · intro id
          rw [dialCount_append, hrest]
          exact h1 id
        · intro conn hconn id
          rw [dialCount_append, hrest, h2 conn hconn id]

/-! ### Claim C18 -/

/-- The dials of the seed loop: a seed that has been tried is not dialled again by the
loop, a seed that is never tried is never dialled, and only the seed tried last can be
dialled twice (once by the loop and once more by the admission that ends the loop). -/
theorem seedLoop_dials (env : Env D) (myNodeInfo : NodeInfo D)
    (seedNodes : List (NodeInfo D)) (fuel : Nat) :
    ∀ st st2 : SeedPhase D,
      seedLoop env myNodeInfo seedNodes fuel st = Except.ok st2 →
      st.triedSeedNodes.Nodup →
      st2.triedSeedNodes.Nodup ∧ (∀ id ∈ st.triedSeedNodes, id ∈ st2.triedSeedNodes) ∧
      ∃ evs, st2.sys.trace = st.sys.trace ++ evs ∧
        (∀ id ∈ st.triedSeedNodes, dialCount id evs = 0) ∧
        (∀ id, id ∉ st2.triedSeedNodes → dialCount id evs = 0) ∧
        (∀ id, dialCount id evs ≤ 1 ∨
          (st2.triedSeedNodes.getLast? = some id ∧ dialCount id evs ≤ 2)) := by
  induction fuel with
  | zero =>
      intro st st2 h hnd
      have hst : st2 = st := by
        unfold seedLoop at h
        split at h
        · cases h
        · cases h; rfl
      subst hst
      exact ⟨hnd, fun _ hid => hid, [], by simp, fun _ _ => dialCount_nil _,
        fun _ _ => dialCount_nil _, fun id => Or.inl (by simp [dialCount_nil])⟩
  | succ fuel ih =>
      intro st st2 h hnd
      have hstep : ∀ (id0 : NodeId) (st1 : SeedPhase D),
          seedLoop env myNodeInfo seedNodes fuel st1 = Except.ok st2 →
          id0 ∉ st.triedSeedNodes → st1.triedSeedNodes = st.triedSeedNodes ++ [id0] →
          (∃ pre, st1.sys.trace = st.sys.trace ++ pre ∧
            ∀ id, dialCount id pre ≤ if id0 = id then 1 else 0) →
          st2.triedSeedNodes.Nodup ∧ (∀ id ∈ st.triedSeedNodes, id ∈ st2.triedSeedNodes) ∧
          ∃ evs, st2.sys.trace = st.sys.trace ++ evs ∧
            (∀ id ∈ st.triedSeedNodes, dialCount id evs = 0) ∧
            (∀ id, id ∉ st2.triedSeedNodes → dialCount id evs = 0) ∧
            (∀ id, dialCount id evs ≤ 1 ∨
              (st2.triedSeedNodes.getLast? = some id ∧ dialCount id evs ≤ 2)) := by
        intro id0 st1 hrun hnew htried hP
        obtain ⟨pre, htr, hpre⟩ := hP
        have hnd1 : st1.triedSeedNodes.Nodup := by
          rw [htried]
          exact List.nodup_append.mpr ⟨hnd, List.nodup_singleton _, by simpa using hnew⟩
        obtain ⟨r1, r2, evs, r3, r4, r5, r6⟩ := ih st1 st2 hrun hnd1
        refine ⟨r1, ?_, pre ++ evs, ?_, ?_, ?_, ?_⟩
        · intro id hid
          exact r2 id (by rw [htried]; simp [hid])
        · rw [r3, htr, List.append_assoc]
        · intro id hid
          have hne : ¬ id0 = id := fun hx => hnew (hx ▸ hid)
          have h1 := hpre id
          rw [if_neg hne] at h1
          rw [dialCount_append, r4 id (by rw [htried]; simp [hid])]
          omega
        · intro id hid
          have hid1 : id ∉ st1.triedSeedNodes := fun hx => hid (r2 id hx)
          have hne : ¬ id0 = id := by
            intro hx
            apply hid1
            rw [htried, ← hx]
            simp
          have h1 := hpre id
          rw [if_neg hne] at h1
          rw [dialCount_append, r5 id hid]
          omega
        · intro id
          by_cases hne : id0 = id
          · subst hne
            have h1 := hpre id0
            rw [if_pos rfl] at h1
            left
            rw [dialCount_append, r4 id0 (by rw [htried]; simp)]
            omega
          · have h1 := hpre id
            rw [if_neg hne] at h1
            rcases r6 id with h6 | ⟨h6, h7⟩
            · left
              rw [dialCount_append]
              omega
            · right
              exact ⟨h6, by rw [dialCount_append]; omega⟩
      have hdone : ∀ (id0 : NodeId) (count : Nat) (candidates : List (NodeInfo D))
          (s3 : Sys D) (entry : NodeDbEntry D),
          st2 = { triedSeedNodes := st.triedSeedNodes ++ [id0], seedNodeColleagueCount := count,
                  randomColleagueCandidates := candidates,
                  sys := (SafeStoreNode env myNodeInfo s3 entry none).2 } →
          id0 ∉ st.triedSeedNodes → entry.profile.id = id0 →
          (∃ pre, s3.trace = st.sys.trace ++ pre ∧
            ∀ id, dialCount id pre ≤ if id0 = id then 1 else 0) →
          st2.triedSeedNodes.Nodup ∧ (∀ id ∈ st.triedSeedNodes, id ∈ st2.triedSeedNodes) ∧
          ∃ evs, st2.sys.trace = st.sys.trace ++ evs ∧
            (∀ id ∈ st.triedSeedNodes, dialCount id evs = 0) ∧
            (∀ id, id ∉ st2.triedSeedNodes → dialCount id evs = 0) ∧
            (∀ id, dialCount id evs ≤ 1 ∨
              (st2.triedSeedNodes.getLast? = some id ∧ dialCount id evs ≤ 2)) := by
        intro id0 count candidates s3 entry hst hnew hentry hP
        obtain ⟨pre, htr, hpre⟩ := hP
        obtain ⟨sevs, hs, hd, _⟩ := SafeStoreNode_dials env myNodeInfo s3 entry none
        rw [hentry] at hd
        subst hst
        refine ⟨?_, ?_, pre ++ sevs, ?_, ?_, ?_, ?_⟩
        · exact List.nodup_append.mpr ⟨hnd, List.nodup_singleton _, by simpa using hnew⟩
        · intro id hid
          simp [hid]
        · simp only
          rw [hs, htr, List.append_assoc]
        · intro id hid
          have hne : ¬ id0 = id := fun hx => hnew (hx ▸ hid)
          have h1 := hpre id
          have h2 := hd id
          rw [if_neg hne] at h1 h2
          rw [dialCount_append]
          omega
        · intro id hid
          have hne : ¬ id0 = id := by
            intro hx
            apply hid
            rw [← hx]
            simp
          have h1 := hpre id
          have h2 := hd id
          rw [if_neg hne] at h1 h2
          rw [dialCount_append]
          omega
        · intro id
          have h1 := hpre id
          have h2 := hd id
          by_cases hne : id0 = id
          · subst hne
            rw [if_pos rfl] at h1 h2
            right
            exact ⟨by simp, by rw [dialCount_append]; omega⟩
          · rw [if_neg hne] at h1 h2
            left
            rw [dialCount_append]
            omega
      have hlog : ∀ (id0 : NodeId) (s : Sys D) (e : Event D),
          (∀ node r, e ≠ Event.ConnectTo node r) →
          (∃ pre, s.trace = st.sys.trace ++ pre ∧
            ∀ id, dialCount id pre ≤ if id0 = id then 1 else 0) →
          ∃ pre, (s.log e).trace = st.sys.trace ++ pre ∧
            ∀ id, dialCount id pre ≤ if id0 = id then 1 else 0 := by
        intro id0 s e he hP
        obtain ⟨pre, htr, hpre⟩ := hP
        refine ⟨pre ++ [e], by simp [Sys.log, htr], ?_⟩
        intro id
        rw [dialCount_append, dialCount_of_no_dial id [e] (by
          intro x hx node r hxe
          rw [List.mem_singleton] at hx
          rw [hx] at hxe
          exact he node r hxe)]
        exact hpre id
      unfold seedLoop at h
      split at h
      · rename_i hlt
        simp only at h
        split at h
        · obtain ⟨r1, r2, evs, r3, r4, r5, r6⟩ := ih _ st2 h hnd
          have hz : ∀ id, dialCount id
              ((Event.Random (env.Random st.sys.trace) : Event D) :: evs) = dialCount id evs := by
            intro id
            simp [dialCount, Event.isDial]
          refine ⟨r1, r2, Event.Random (env.Random st.sys.trace) :: evs, ?_, ?_, ?_, ?_⟩
          · simpa [Sys.log] using r3
          · intro id hid; rw [hz]; exact r4 id hid
          · intro id hid; rw [hz]; exact r5 id hid
          · intro id; rw [hz]; exact r6 id
        · rename_i hnew
          split at h
          · rename_i s1 hs1
            obtain ⟨evs1, htr1, hd1, _, _⟩ := SafeConnectTo_dials _ _ _ _ _ _ hs1
            have hP1 : ∃ pre, s1.trace = st.sys.trace ++ pre ∧ ∀ id, dialCount id pre ≤
                if (seedNodes.get ⟨env.Random st.sys.trace % seedNodes.length,
                  Nat.mod_lt _ (Nat.lt_of_le_of_lt (Nat.zero_le _) hlt)⟩).profile.id = id
                then 1 else 0 := by
              refine ⟨Event.Random (env.Random st.sys.trace) :: evs1, ?_, ?_⟩
              · simpa [Sys.log] using htr1
              · intro id
                have := hd1 id
                simpa [dialCount, Event.isDial] using this
            exact hstep _ _ h hnew rfl hP1
          · rename_i conn s1 hs1
            obtain ⟨evs1, htr1, hd1, _, _⟩ := SafeConnectTo_dials _ _ _ _ _ _ hs1
            have hP1 : ∃ pre, s1.trace = st.sys.trace ++ pre ∧ ∀ id, dialCount id pre ≤
                if (seedNodes.get ⟨env.Random st.sys.trace % seedNodes.length,
                  Nat.mod_lt _ (Nat.lt_of_le_of_lt (Nat.zero_le _) hlt)⟩).profile.id = id
                then 1 else 0 := by
              refine ⟨Event.Random (env.Random st.sys.trace) :: evs1, ?_, ?_⟩
              · simpa [Sys.log] using htr1
              · intro id
                have := hd1 id
                simpa [dialCount, Event.isDial] using this
            split at h
            · exact hstep _ _ h hnew rfl
                (hlog _ _ _ (by intro node r hx; cases hx) hP1)
            · split at h
              · exact hstep _ _ h hnew rfl
                  (hlog _ _ _ (by intro node r hx; cases hx)
                    (hlog _ _ _ (by intro node r hx; cases hx) hP1))
              · split at h
                · exact hdone _ _ _ _ _ (Except.ok.inj h).symm hnew rfl
                    (hlog _ _ _ (by intro node r hx; cases hx)
                      (hlog _ _ _ (by intro node r hx; cases hx) hP1))
                · exact hstep _ _ h hnew rfl
                    (hlog _ _ _ (by intro node r hx; cases hx)
                      (hlog _ _ _ (by intro node r hx; cases hx) hP1))
      · cases h
        exact ⟨hnd, fun _ hid => hid, [], by simp, fun _ _ => dialCount_nil _,
          fun _ _ => dialCount_nil _, fun id => Or.inl (by simp [dialCount_nil])⟩

/-- With a generator that keeps returning the same value and seeds that cannot be dialled,
the seed loop never ends once the first seed has been tried: every further iteration draws
that seed again and skips it. -/
theorem seedLoop_constant_draw (log10 : D → D) (myNodeInfo : NodeInfo D) (fuel : Nat) :
    ∀ s : Sys D, seedLoop (constantDrawEnv log10 0) myNodeInfo _seedNodes fuel
      { triedSeedNodes := ["FirstSeedNodeId"], seedNodeColleagueCount := 0,
        randomColleagueCandidates := [], sys := s } = Except.error Fault.outOfFuel := by
  induction fuel with
  | zero =>
      intro s
      simp [seedLoop, _seedNodes]
  | succ fuel ih =>
      intro s
      unfold seedLoop
      simp only [_seedNodes, constantDrawEnv, quietEnv, List.length_cons, List.length_nil,
        List.length_singleton]
      simp only [Nat.zero_mod, List.get_eq_getElem, List.getElem_cons_zero]
      simp only [Nat.reduceAdd, Nat.one_lt_ofNat, dite_true, List.mem_singleton, if_true]
      exact ih _

theorem seedLoop_constant_draw_start (log10 : D → D) (myNodeInfo : NodeInfo D) (fuel : Nat)
    (s : Sys D) :
    seedLoop (constantDrawEnv log10 0) myNodeInfo _seedNodes fuel (seedPhaseStart s) =
      Except.error Fault.outOfFuel := by
  cases fuel with
  | zero => simp [seedLoop, seedPhaseStart, _seedNodes]
  | succ fuel =>
      unfold seedLoop
      by_cases hid : "FirstSeedNodeId" = myNodeInfo.profile.id
      · simp [seedPhaseStart, _seedNodes, SafeConnectTo, hid, Sys.log,
          constantDrawEnv, quietEnv]
        have := seedLoop_constant_draw log10 myNodeInfo fuel
          { db := s.db, trace := s.trace ++ [Event.Random 0] }
        simpa [hid, _seedNodes, constantDrawEnv, quietEnv] using this
      · simp [seedPhaseStart, _seedNodes, SafeConnectTo, hid, Sys.log,
          constantDrawEnv, quietEnv]
        have := seedLoop_constant_draw log10 myNodeInfo fuel
          { db := s.db, trace := s.trace ++ [Event.Random 0,
            Event.ConnectTo (NodeProfile.mk "FirstSeedNodeId" "1.2.3.4" 5555 "" 0)
              (Except.error "unreachable")] }
        simpa [_seedNodes, constantDrawEnv, quietEnv] using this

/-- C18, amended. When the seed loop of `DiscoverWorld` ends, it has tried at most
`|seeds|` seeds and none of them twice; a seed that was not tried was not dialled, and no
seed was dialled more than once, except that the seed tried last may have been dialled
twice (the admission that ends the loop dials it again). Iterations that draw a seed
already tried are skipped and are not bounded. -/
theorem seed_phase_dials (env : Env D) (myNodeInfo : NodeInfo D)
    (seedNodes : List (NodeInfo D)) (fuel : Nat) (s : Sys D) (st : SeedPhase D)
    (h : seedLoop env myNodeInfo seedNodes fuel (seedPhaseStart s) = Except.ok st) :
    st.triedSeedNodes.Nodup ∧ st.triedSeedNodes.length ≤ seedNodes.length ∧
    ∃ evs, st.sys.trace = s.trace ++ evs ∧
      (∀ id, id ∉ st.triedSeedNodes → dialCount id evs = 0) ∧
      (∀ id, dialCount id evs ≤ 1 ∨
        (st.triedSeedNodes.getLast? = some id ∧ dialCount id evs ≤ 2)) := by
  obtain ⟨r1, _, evs, r3, _, r5, r6⟩ :=
    seedLoop_dials env myNodeInfo seedNodes fuel _ _ h (by simp [seedPhaseStart])
  have hlen := (seedLoop_tried env myNodeInfo seedNodes fuel _ _
    (by simp [seedPhaseStart]) h).1
  exact ⟨r1, hlen, evs, r3, r5, r6⟩

/-- Witness of C18: the first hardwired seed answers at the first draw. -/
theorem seed_phase_dials_witness :
    ∃ st : SeedPhase ℚ,
      seedLoop (answeringEnv (fun _ => (0 : ℚ)) 1 [nodeAt "peer" 10 10]) (nodeAt "self" 1 2)
        _seedNodes 1 (seedPhaseStart { db := [], trace := [] }) = Except.ok st ∧
      st.triedSeedNodes.Nodup ∧ st.triedSeedNodes.length ≤ (_seedNodes : List (NodeInfo ℚ)).length ∧
      ∃ evs, st.sys.trace = ([] : List (Event ℚ)) ++ evs ∧
        (∀ id, id ∉ st.triedSeedNodes → dialCount id evs = 0) ∧
        (∀ id, dialCount id evs ≤ 1 ∨
          (st.triedSeedNodes.getLast? = some id ∧ dialCount id evs ≤ 2)) := by
  have hs := seedLoop_success (answeringEnv (fun _ => (0 : ℚ)) 1 [nodeAt "peer" 10 10])
    (nodeAt "self" 1 2) _seedNodes 0 (seedPhaseStart { db := [], trace := [] }) firstSeed 1
    { db := [], trace := [Event.Random 0,
        Event.ConnectTo (firstSeed : NodeInfo ℚ).profile (Except.ok (some 1))] }
    1 [nodeAt "peer" 10 10]
    (by simp [seedPhaseStart, _seedNodes])
    (by simp [seedPhaseStart, answeringEnv, openEnv, quietEnv, _seedNodes, firstSeed, gpsAt])
    (by simp [seedPhaseStart])
    (by simp [seedPhaseStart, SafeConnectTo, answeringEnv, openEnv, quietEnv, firstSeed,
      nodeAt, Sys.log])
    rfl (by norm_num) rfl (by simp)
  exact ⟨_, hs, seed_phase_dials _ _ _ _ _ _ hs⟩

/-- C18, counterexample. The generator returns 0 at every draw and no seed can be dialled:
after three iterations, and after a thousand, the loop over the two hardwired seeds has
not ended (the second seed is never drawn). And when the first seed answers at the first
draw, it is dialled twice: by the loop, and again by the admission. -/
theorem seed_phase_counterexample :
    seedLoop (constantDrawEnv (fun _ => (0 : ℚ)) 0) (nodeAt "self" 0 0) _seedNodes 3
      (seedPhaseStart { db := [], trace := [] }) = Except.error Fault.outOfFuel ∧
    seedLoop (constantDrawEnv (fun _ => (0 : ℚ)) 0) (nodeAt "self" 0 0) _seedNodes 1000
      (seedPhaseStart { db := [], trace := [] }) = Except.error Fault.outOfFuel ∧
    ∃ st : SeedPhase ℚ,
      seedLoop (answeringEnv (fun _ => (0 : ℚ)) 1 [nodeAt "peer" 10 10]) (nodeAt "self" 1 2)
        _seedNodes 1 (seedPhaseStart { db := [], trace := [] }) = Except.ok st ∧
      dialCount "FirstSeedNodeId" st.sys.trace = 2 := by
  refine ⟨seedLoop_constant_draw_start _ _ _ _, seedLoop_constant_draw_start _ _ _ _, ?_⟩
  have hs := seedLoop_success (answeringEnv (fun _ => (0 : ℚ)) 1 [nodeAt "peer" 10 10])
    (nodeAt "self" 1 2) _seedNodes 0 (seedPhaseStart { db := [], trace := [] }) firstSeed 1
    { db := [], trace := [Event.Random 0,
        Event.ConnectTo (firstSeed : NodeInfo ℚ).profile (Except.ok (some 1))] }
    1 [nodeAt "peer" 10 10]
    (by simp [seedPhaseStart, _seedNodes])
    (by simp [seedPhaseStart, answeringEnv, openEnv, quietEnv, _seedNodes, firstSeed, gpsAt])
    (by simp [seedPhaseStart])
    (by simp [seedPhaseStart, SafeConnectTo, answeringEnv, openEnv, quietEnv, firstSeed,
      nodeAt, Sys.log])
    rfl (by norm_num) rfl (by simp)
  refine ⟨_, hs, ?_⟩
  rw [seed_scenario_near]
  simp [dialCount, Event.isDial, afterSeedAnswers, SafeStoreNode, SafeConnectTo,
    locallyRejected, BubbleOverlaps, GetBubbleSize_eq, obtainConnection, initiatorHandshake,
    AskPermission, storeOrFalse, StoreEntry, Db.Store, Db.Load, Db.GetClosestNodes,
    Db.GetNodeCount, answeringEnv, openEnv, quietEnv, degreeEnv, firstSeed, nodeAt, gpsAt,
    Sys.log, permissionEvent, NEIGHBOURHOOD_MAX_NODE_COUNT, NEIGHBOURHOOD_MAX_RANGE_KM]
  norm_num [Event.isDial]

/-! ### Claim C19 -/

theorem chainPeer_id_length (n : Nat) : (chainPeer n : NodeInfo D).profile.id.length = n := by
  simp [chainPeer, nodeAt, String.length]

theorem chainPeer_ne_self (n : Nat) : (chainPeer (n + 1) : NodeInfo D).profile.id ≠ "self" := by
  intro h
  have h2 : 'p' :: List.replicate n 'p' = ['s', 'e', 'l', 'f'] := congrArg String.data h
  exact absurd (List.cons.inj h2).1 (by decide)

theorem expandLoop_nil (env : Env D) (myNodeInfo : NodeInfo D)
    (neighbourCandidates : List (NodeInfo D)) (fuel : Nat) (asked : List NodeId) (s : Sys D) :
    expandLoop env myNodeInfo neighbourCandidates fuel [] asked s = Except.ok (true, s) := by
  cases fuel with
  | zero => simp [expandLoop]
  | succ fuel =>
      unfold expandLoop
      split <;> rfl

/-- One iteration of the expansion loop on a peer of the chain: the peer is dialled, is
asked to accept the node as a neighbour and refuses, and is asked for its neighbours. -/
theorem expandLoop_chain_step (log10 : D → D) (length : Nat) (db : List (NodeDbEntry D))
    (hdb : Db.GetNodeCount db NodeRelationType.Neighbour < NEIGHBOURHOOD_MAX_NODE_COUNT)
    (k fuel : Nat) (trace : List (Event D)) (asked : List NodeId)
    (hasked : ∀ id ∈ asked, id.length ≤ k) :
    expandLoop (chainEnv log10 length) (nodeAt "self" 0 0) [] (fuel + 1) [chainPeer (k + 1)]
      asked { db := db, trace := trace } =
    expandLoop (chainEnv log10 length) (nodeAt "self" 0 0) [] fuel
      (if k + 1 < length then [chainPeer (k + 2)] else [])
      ((chainPeer (k + 1) : NodeInfo D).profile.id :: asked)
      { db := db, trace := trace ++
        [Event.ConnectTo (chainPeer (k + 1) : NodeInfo D).profile (Except.ok (some (k + 1))),
         Event.AcceptNeighbour (k + 1) (nodeAt "self" 0 0) (Except.ok false),
         Event.GetClosestNodes (k + 1) (gpsAt 0 0)
           (some (INIT_NEIGHBOURHOOD_QUERY_NODE_COUNT : D)) 10 Neighbours.Included
           (if k + 1 < length then Except.ok [chainPeer (k + 2)] else Except.ok [])] } := by
  have hnew : (chainPeer (k + 1) : NodeInfo D).profile.id ∉ asked := by
    intro hmem
    have := hasked _ hmem
    rw [chainPeer_id_length] at this
    omega
  have hself : ¬ (chainPeer (k + 1) : NodeInfo D).profile.id =
      (nodeAt "self" (0 : D) 0).profile.id := chainPeer_ne_self k
  have hconn : SafeConnectTo (chainEnv log10 length) (nodeAt "self" 0 0)
      { db := db, trace := trace } (chainPeer (k + 1) : NodeInfo D).profile =
      (some (k + 1), { db := db, trace := trace ++
        [Event.ConnectTo (chainPeer (k + 1) : NodeInfo D).profile
          (Except.ok (some (k + 1)))] }) := by
    unfold SafeConnectTo
    rw [if_neg hself]
    simp [chainEnv, Sys.log, chainPeer_id_length]
  have hstore : SafeStoreNode (chainEnv log10 length) (nodeAt "self" 0 0)
      { db := db, trace := trace ++
        [Event.ConnectTo (chainPeer (k + 1) : NodeInfo D).profile (Except.ok (some (k + 1)))] }
      (NodeDbEntry.mk (chainPeer (k + 1)) NodeRelationType.Neighbour
        NodeContactRoleType.Initiator) (some (k + 1)) =
      (false, { db := db, trace := trace ++
        [Event.ConnectTo (chainPeer (k + 1) : NodeInfo D).profile (Except.ok (some (k + 1))),
         Event.AcceptNeighbour (k + 1) (nodeAt "self" 0 0) (Except.ok false)] }) := by
    have hcount : ¬ NEIGHBOURHOOD_MAX_NODE_COUNT ≤
        Db.GetNodeCount db NodeRelationType.Neighbour := by omega
    simp [SafeStoreNode, locallyRejected, initiatorHandshake, obtainConnection, AskPermission,
      chainEnv, quietEnv, chainPeer, nodeAt, gpsAt, Sys.log, hcount,
      NEIGHBOURHOOD_MAX_RANGE_KM]
  rw [expandLoop]
  rw [if_pos (by simp [NEIGHBOURHOOD_MAX_NODE_COUNT])]
  simp only [hnew, if_false, hconn, hstore]
  by_cases hlt : k + 1 < length
  · simp [chainEnv, Sys.log, hlt, nodeAt, gpsAt]
  · simp [chainEnv, Sys.log, hlt, nodeAt, gpsAt]

/-- The expansion loop walks the whole chain, however long it is: every peer of the chain
is asked to accept the node as a neighbour. -/
theorem expandLoop_chain (log10 : D → D) (length : Nat) (db : List (NodeDbEntry D))
    (hdb : Db.GetNodeCount db NodeRelationType.Neighbour < NEIGHBOURHOOD_MAX_NODE_COUNT)
    (m : Nat) :
    ∀ (k fuel : Nat) (trace : List (Event D)) (asked : List NodeId),
      k + 1 + m = length → m + 1 ≤ fuel → (∀ id ∈ asked, id.length ≤ k) →
      ∃ evs, expandLoop (chainEnv log10 length) (nodeAt "self" 0 0) [] fuel
          [chainPeer (k + 1)] asked { db := db, trace := trace } =
          Except.ok (true, { db := db, trace := trace ++ evs }) ∧
        neighbourRequests evs = m + 1 := by
  induction m with
  | zero =>
      intro k fuel trace asked hk hfuel hasked
      obtain ⟨fuel, rfl⟩ : ∃ f, fuel = f + 1 := ⟨fuel - 1, by omega⟩
      rw [expandLoop_chain_step log10 length db hdb k fuel trace asked hasked]
      rw [if_neg (by omega), expandLoop_nil]
      exact ⟨_, rfl, by simp [neighbourRequests, Event.isNeighbourRequest]⟩
  | succ m ih =>
      intro k fuel trace asked hk hfuel hasked
      obtain ⟨fuel, rfl⟩ : ∃ f, fuel = f + 1 := ⟨fuel - 1, by omega⟩
      rw [expandLoop_chain_step log10 length db hdb k fuel trace asked hasked]
      rw [if_pos (by omega)]
      obtain ⟨evs, hrun, hcount⟩ := ih (k + 1) fuel _
        ((chainPeer (k + 1) : NodeInfo D).profile.id :: asked) (by omega) (by omega) (by
          intro id hid
          rcases List.mem_cons.mp hid with h1 | h1
          · rw [h1, chainPeer_id_length]
          · have := hasked id h1
            omega)
      rw [hrun]
      refine ⟨[Event.ConnectTo (chainPeer (k + 1) : NodeInfo D).profile
          (Except.ok (some (k + 1))),
        Event.AcceptNeighbour (k + 1) (nodeAt "self" 0 0) (Except.ok false),
        Event.GetClosestNodes (k + 1) (gpsAt 0 0)
          (some (INIT_NEIGHBOURHOOD_QUERY_NODE_COUNT : D)) 10 Neighbours.Included
          (if k + 1 < length then Except.ok [chainPeer (k + 2)] else Except.ok [])] ++ evs,
        by rw [List.append_assoc], ?_⟩
      simp only [neighbourRequests] at hcount ⊢
      rw [List.filter_append, List.length_append, hcount]
      simp [Event.isNeighbourRequest]
      omega

theorem descentLoop_chain (log10 : D → D) (length fuel : Nat) (db : List (NodeDbEntry D)) :
    descentLoop (chainEnv log10 length) (nodeAt "self" 0 0) (fuel + 1) [] [chainPeer 1]
      { db := db, trace := [] } =
    Except.ok (some [chainPeer 1], { db := db, trace :=
      [Event.ConnectTo (chainPeer 1 : NodeInfo D).profile (Except.ok (some 1)),
       Event.GetClosestNodes 1 (gpsAt 0 0) none 1 Neighbours.Included
         (Except.ok [chainPeer 1])] }) := by
  have hself : ¬ (chainPeer 1 : NodeInfo D).profile.id =
      (nodeAt "self" (0 : D) 0).profile.id := chainPeer_ne_self 0
  have hconn : SafeConnectTo (chainEnv log10 length) (nodeAt "self" 0 0)
      { db := db, trace := [] } (chainPeer 1 : NodeInfo D).profile =
      (some 1, { db := db, trace :=
        [Event.ConnectTo (chainPeer 1 : NodeInfo D).profile (Except.ok (some 1))] }) := by
    unfold SafeConnectTo
    rw [if_neg hself]
    simp [chainEnv, Sys.log, chainPeer_id_length]
  rw [descentLoop]
  simp only [closestChanged, List.length_nil, List.length_singleton, List.head?_cons, hconn]
  cases fuel with
  | zero => simp [descentLoop, closestChanged, chainEnv, Sys.log, nodeAt, gpsAt]
  | succ fuel => simp [descentLoop, closestChanged, chainEnv, Sys.log, nodeAt, gpsAt]

/-- C20. The cap of the expansion loop never triggers: `neighbourCandidates` stays empty,
so the loop runs until the queue is empty. In a chain of `length` reachable peers that
each name the next one and refuse the request, one run of `DiscoverNeighbourhood` asks
every peer of the chain to accept the node as a neighbour, also when `length` is above
`NEIGHBOURHOOD_MAX_NODE_COUNT`. -/
theorem bfs_cap_not_enforced (log10 : D → D) (length : Nat) (h : 0 < length) :
    ∃ s2 : Sys D,
      DiscoverNeighbourhood (chainEnv log10 length) (nodeAt "self" 0 0) (length + 1)
        { db := [NodeDbEntry.mk (chainPeer 1) NodeRelationType.Colleague
            NodeContactRoleType.Acceptor], trace := [] } = Except.ok (true, s2) ∧
      neighbourRequests s2.trace = length := by
  have hdb : Db.GetNodeCount [(NodeDbEntry.mk (chainPeer 1) NodeRelationType.Colleague
      NodeContactRoleType.Acceptor : NodeDbEntry D)] NodeRelationType.Neighbour <
      NEIGHBOURHOOD_MAX_NODE_COUNT := by
    simp [Db.GetNodeCount, NEIGHBOURHOOD_MAX_NODE_COUNT]
  obtain ⟨evs, hrun, hcount⟩ := expandLoop_chain log10 length _ hdb (length - 1) 0
    (length + 1)
    [Event.ConnectTo (chainPeer 1 : NodeInfo D).profile (Except.ok (some 1)),
     Event.GetClosestNodes 1 (gpsAt 0 0) none 1 Neighbours.Included (Except.ok [chainPeer 1])]
    [] (by omega) (by omega) (by simp)
  have hdn : DiscoverNeighbourhood (chainEnv log10 length) (nodeAt "self" 0 0) (length + 1)
      { db := [NodeDbEntry.mk (chainPeer 1) NodeRelationType.Colleague
          NodeContactRoleType.Acceptor], trace := [] } =
      expandLoop (chainEnv log10 length) (nodeAt "self" 0 0) [] (length + 1)
        [chainPeer (0 + 1)] []
        { db := [NodeDbEntry.mk (chainPeer 1) NodeRelationType.Colleague
            NodeContactRoleType.Acceptor],
          trace := [Event.ConnectTo (chainPeer 1 : NodeInfo D).profile (Except.ok (some 1)),
            Event.GetClosestNodes 1 (gpsAt 0 0) none 1 Neighbours.Included
              (Except.ok [chainPeer 1])] } := by
    unfold DiscoverNeighbourhood
    have hlocal : Db.GetClosestNodes (chainEnv log10 length).GetDistanceKm
        [(NodeDbEntry.mk (chainPeer 1) NodeRelationType.Colleague
          NodeContactRoleType.Acceptor : NodeDbEntry D)]
        (nodeAt "self" (0 : D) 0).location none 1 Neighbours.Included = [chainPeer 1] := by
      simp [Db.GetClosestNodes, Db.matchesFilter]
    simp only [hlocal, descentLoop_chain]
  rw [hdn, hrun]
  refine ⟨_, rfl, ?_⟩
  simp only [neighbourRequests] at hcount ⊢
  rw [List.filter_append, List.length_append, hcount]
  simp [Event.isNeighbourRequest]
  omega

/-- Witness of C20: a chain of 150 peers, 150 requests in one pass. -/
theorem bfs_cap_not_enforced_witness :
    0 < 150 ∧ ∃ s2 : Sys ℚ,
      DiscoverNeighbourhood (chainEnv (fun _ => (0 : ℚ)) 150) (nodeAt "self" 0 0) (150 + 1)
        { db := [NodeDbEntry.mk (chainPeer 1) NodeRelationType.Colleague
            NodeContactRoleType.Acceptor], trace := [] } = Except.ok (true, s2) ∧
      neighbourRequests s2.trace = 150 :=
  ⟨by decide, bfs_cap_not_enforced (fun _ => (0 : ℚ)) 150 (by decide)⟩

/-! ### Claims C21 and C22: the descent loop -/

/-- The loop condition of the descent on a non-empty list of the previous hop: it never
takes the front of an empty list, and it is false exactly when the reply has the length
of that list and its first node has the id of the first node of that list. -/
theorem closestChanged_cons (front : NodeInfo D) (rest reply : List (NodeInfo D)) :
    (closestChanged (front :: rest) reply = Except.ok false ∨
      closestChanged (front :: rest) reply = Except.ok true) ∧
    (closestChanged (front :: rest) reply = Except.ok false ↔
      (reply.length = (front :: rest).length ∧
        ∃ n, reply.head? = some n ∧ n.profile.id = front.profile.id)) := by
  unfold closestChanged
  by_cases hlen : (front :: rest).length = reply.length
  · rw [if_neg (by simpa using hlen)]
    cases reply with
    | nil => simp at hlen
    | cons n more =>
        simp only [List.head?_cons]
        by_cases hid : front.profile.id = n.profile.id
        · simp [hid, hlen.symm]
        · have hid2 : ¬ n.profile.id = front.profile.id := fun hx => hid hx.symm
          simp [hid, hid2]
  · rw [if_pos hlen]
    constructor
    · right; rfl
    · constructor
      · intro hx; cases hx
      · intro hx; exact absurd hx.1.symm hlen

theorem closestChanged_self (front : NodeInfo D) (rest : List (NodeInfo D)) :
    closestChanged (front :: rest) (front :: rest) = Except.ok false := by
  simp [closestChanged]

/-- When the loop condition is false, the descent loop returns the current list. -/
theorem descentLoop_unchanged (env : Env D) (myNodeInfo : NodeInfo D) (fuel : Nat)
    (old new : List (NodeInfo D)) (s : Sys D)
    (h : closestChanged old new = Except.ok false) :
    descentLoop env myNodeInfo fuel old new s = Except.ok (some new, s) := by
  cases fuel with
  | zero => rw [descentLoop]; simp only [h]
  | succ fuel => rw [descentLoop]; simp only [h]

/-- One hop of the descent loop whose dial fails: the loop returns the answer that stands
for `return false`. -/
theorem descentLoop_dial_fails (env : Env D) (myNodeInfo : NodeInfo D) (fuel : Nat)
    (old : List (NodeInfo D)) (front : NodeInfo D) (rest : List (NodeInfo D)) (s s1 : Sys D)
    (henter : closestChanged old (front :: rest) = Except.ok true)
    (hconn : SafeConnectTo env myNodeInfo s front.profile = (none, s1)) :
    descentLoop env myNodeInfo (fuel + 1) old (front :: rest) s = Except.ok (none, s1) := by
  rw [descentLoop]
  simp only [henter, List.head?_cons, hconn]

/-- One hop of the descent loop whose dial succeeds: the loop goes on with the reply, or
with the list it had when the query throws. -/
theorem descentLoop_hop (env : Env D) (myNodeInfo : NodeInfo D) (fuel : Nat)
    (old : List (NodeInfo D)) (front : NodeInfo D) (rest : List (NodeInfo D)) (s s1 : Sys D)
    (conn : Conn)
    (henter : closestChanged old (front :: rest) = Except.ok true)
    (hconn : SafeConnectTo env myNodeInfo s front.profile = (some conn, s1)) :
    descentLoop env myNodeInfo (fuel + 1) old (front :: rest) s =
      descentLoop env myNodeInfo fuel (front :: rest)
        (match env.GetClosestNodes s1.trace conn myNodeInfo.location none 1
            Neighbours.Included with
          | Except.ok reply => reply
          | Except.error _ => front :: rest)
        (s1.log (Event.GetClosestNodes conn myNodeInfo.location none 1 Neighbours.Included
          (env.GetClosestNodes s1.trace conn myNodeInfo.location none 1
            Neighbours.Included))) := by
  rw [descentLoop]
  simp only [henter, List.head?_cons, hconn]
  cases env.GetClosestNodes s1.trace conn myNodeInfo.location none 1 Neighbours.Included <;> rfl

/-- C21, amended. Greedy descent: at a hop of the descent loop of `DiscoverNeighbourhood`
the first node of the current list is dialled. (1) If the dial yields no connection, the
loop aborts, and `DiscoverNeighbourhood` returns false. (2) If the query to the peer
throws, the loop ends at this hop with the list it had. (3) If the peer replies, the loop
ends at this hop if and only if the reply has as many nodes as the current list and its
first node has the identity of the asked peer; otherwise the loop condition holds again and
the loop goes on with the reply. (4) The list with which the loop ends, whatever its
length, is the initial queue of the expansion. -/
theorem descent_fixed_point (env : Env D) (myNodeInfo : NodeInfo D) (fuel : Nat)
    (old : List (NodeInfo D)) (front : NodeInfo D) (rest : List (NodeInfo D)) (s : Sys D)
    (henter : closestChanged old (front :: rest) = Except.ok true) :
    (∀ s1, SafeConnectTo env myNodeInfo s front.profile = (none, s1) →
      descentLoop env myNodeInfo (fuel + 1) old (front :: rest) s = Except.ok (none, s1)) ∧
    (∀ conn s1, SafeConnectTo env myNodeInfo s front.profile = (some conn, s1) →
      (∀ what, env.GetClosestNodes s1.trace conn myNodeInfo.location none 1
          Neighbours.Included = Except.error what →
        descentLoop env myNodeInfo (fuel + 1) old (front :: rest) s =
          Except.ok (some (front :: rest),
            s1.log (Event.GetClosestNodes conn myNodeInfo.location none 1 Neighbours.Included
              (Except.error what)))) ∧
      (∀ reply, env.GetClosestNodes s1.trace conn myNodeInfo.location none 1
          Neighbours.Included = Except.ok reply →
        ((reply.length = (front :: rest).length ∧
            ∃ n, reply.head? = some n ∧ n.profile.id = front.profile.id) →
          descentLoop env myNodeInfo (fuel + 1) old (front :: rest) s =
            Except.ok (some reply,
              s1.log (Event.GetClosestNodes conn myNodeInfo.location none 1
                Neighbours.Included (Except.ok reply)))) ∧
        (¬ (reply.length = (front :: rest).length ∧
            ∃ n, reply.head? = some n ∧ n.profile.id = front.profile.id) →
          closestChanged (front :: rest) reply = Except.ok true ∧
          descentLoop env myNodeInfo (fuel + 1) old (front :: rest) s =
            descentLoop env myNodeInfo fuel (front :: rest) reply
              (s1.log (Event.GetClosestNodes conn myNodeInfo.location none 1
                Neighbours.Included (Except.ok reply)))))) ∧
    (∀ (fuel0 : Nat) (s0 s3 : Sys D) (closest : NodeInfo D) (others : List (NodeInfo D)),
      Db.GetClosestNodes env.GetDistanceKm s0.db myNodeInfo.location none 1
        Neighbours.Included = closest :: others →
      (descentLoop env myNodeInfo fuel0 [] (closest :: others) s0 = Except.ok (none, s3) →
        DiscoverNeighbourhood env myNodeInfo fuel0 s0 = Except.ok (false, s3)) ∧
      (∀ queue, descentLoop env myNodeInfo fuel0 [] (closest :: others) s0 =
          Except.ok (some queue, s3) →
        DiscoverNeighbourhood env myNodeInfo fuel0 s0 =
          expandLoop env myNodeInfo [] fuel0 queue [] s3)) := by
  refine ⟨?_, ?_, ?_⟩
  · intro s1 hconn
    exact descentLoop_dial_fails env myNodeInfo fuel old front rest s s1 henter hconn
  · intro conn s1 hconn
    have hhop := descentLoop_hop env myNodeInfo fuel old front rest s s1 conn henter hconn
    constructor
    · intro what hq
      rw [hhop, hq]
      exact descentLoop_unchanged env myNodeInfo fuel _ _ _ (closestChanged_self front rest)
    · intro reply hq
      rw [hq] at hhop
      obtain ⟨hcases, hiff⟩ := closestChanged_cons front rest reply
      constructor
      · intro hsame
        rw [hhop]
        exact descentLoop_unchanged env myNodeInfo fuel _ _ _ (hiff.mpr hsame)
      · intro hnot
        refine ⟨?_, hhop⟩
        rcases hcases with hc | hc
        · exact absurd (hiff.mp hc) hnot
        · exact hc
  · intro fuel0 s0 s3 closest others hlocal
    constructor
    · intro hd
      unfold DiscoverNeighbourhood
      simp only [hlocal, hd]
    · intro queue hd
      unfold DiscoverNeighbourhood
      simp only [hlocal, hd]

/-- Witness of C21: the peer "a" is the closest node known and names itself. -/
theorem descent_fixed_point_witness :
    closestChanged [] [(nodeAt "a" 0 1 : NodeInfo ℚ)] = Except.ok true ∧
    descentLoop (relayEnv (fun _ => (0 : ℚ))) (nodeAt "self" 0 0) 1 [] [nodeAt "a" 0 1]
      { db := [colleagueAt "a" 0 1], trace := [] } =
      Except.ok (some [nodeAt "a" 0 1],
        Sys.log ({ db := [colleagueAt "a" 0 1],
                   trace := [Event.ConnectTo (nodeAt "a" (0 : ℚ) 1).profile
                     (Except.ok (some 1))] } : Sys ℚ)
          (Event.GetClosestNodes 1 (nodeAt "self" (0 : ℚ) 0).location none 1
            Neighbours.Included (Except.ok [nodeAt "a" 0 1]))) :=
  ⟨by simp [closestChanged],
    ((((descent_fixed_point (relayEnv (fun _ => (0 : ℚ))) (nodeAt "self" 0 0) 0 []
      (nodeAt "a" 0 1) [] { db := [colleagueAt "a" 0 1], trace := [] }
      (by simp [closestChanged])).2.1 1
      { db := [colleagueAt "a" 0 1],
        trace := [Event.ConnectTo (nodeAt "a" (0 : ℚ) 1).profile (Except.ok (some 1))] }
      (by simp [SafeConnectTo, relayEnv, quietEnv, nodeAt, Sys.log])).2
      [nodeAt "a" 0 1] (by simp [relayEnv, quietEnv])).1
      ⟨rfl, nodeAt "a" 0 1, rfl, rfl⟩)⟩

/-- C21, counterexample. The own node knows the peer "a". When the query to "a" throws,
the descent loop ends at that hop without aborting although the peer returned no node, and
`DiscoverNeighbourhood` goes on and returns true. And when "a" answers with the two nodes
"a" and "b", the loop does not end at the first hop although the first node returned has
the identity of the asked peer; it dials "a" once more, and the expansion starts with a
queue of two nodes. -/
theorem descent_fixed_point_counterexample :
    descentLoop (throwingEnv (fun _ => (0 : ℚ))) (nodeAt "self" 0 0) 1 [] [nodeAt "a" 0 1]
      { db := [colleagueAt "a" 0 1], trace := [] } =
      Except.ok (some [nodeAt "a" 0 1],
        { db := [colleagueAt "a" 0 1],
          trace := [Event.ConnectTo (nodeAt "a" (0 : ℚ) 1).profile (Except.ok (some 1)),
            Event.GetClosestNodes 1 (gpsAt 0 0) none 1 Neighbours.Included
              (Except.error "query failed")] }) ∧
    returned (DiscoverNeighbourhood (throwingEnv (fun _ => (0 : ℚ))) (nodeAt "self" 0 0) 2
      { db := [colleagueAt "a" 0 1], trace := [] }) = some true ∧
    descentLoop (pairEnv (fun _ => (0 : ℚ))) (nodeAt "self" 0 0) 2 [] [nodeAt "a" 0 1]
      { db := [colleagueAt "a" 0 1], trace := [] } =
      Except.ok (some [nodeAt "a" 0 1, nodeAt "b" 0 2],
        { db := [colleagueAt "a" 0 1],
          trace := [Event.ConnectTo (nodeAt "a" (0 : ℚ) 1).profile (Except.ok (some 1)),
            Event.GetClosestNodes 1 (gpsAt 0 0) none 1 Neighbours.Included
              (Except.ok [nodeAt "a" 0 1, nodeAt "b" 0 2]),
            Event.ConnectTo (nodeAt "a" (0 : ℚ) 1).profile (Except.ok (some 1)),
            Event.GetClosestNodes 1 (gpsAt 0 0) none 1 Neighbours.Included
              (Except.ok [nodeAt "a" 0 1, nodeAt "b" 0 2])] }) := by
  refine ⟨?_, ?_, ?_⟩
  · simp [descentLoop, closestChanged, SafeConnectTo, throwingEnv, openEnv, quietEnv, nodeAt,
      gpsAt, Sys.log]
  · simp [returned, DiscoverNeighbourhood, descentLoop, closestChanged, expandLoop,
      SafeStoreNode, SafeConnectTo, locallyRejected, obtainConnection, initiatorHandshake,
      AskPermission, storeOrFalse, StoreEntry, Db.Store, Db.GetClosestNodes, Db.GetNodeCount,
      Db.matchesFilter, throwingEnv, openEnv, quietEnv, colleagueAt, nodeAt, gpsAt, Sys.log,
      NEIGHBOURHOOD_MAX_NODE_COUNT, NEIGHBOURHOOD_MAX_RANGE_KM,
      INIT_NEIGHBOURHOOD_QUERY_NODE_COUNT]
  · simp [descentLoop, closestChanged, SafeConnectTo, pairEnv, openEnv, quietEnv, nodeAt,
      gpsAt, Sys.log]

/-- C22. The descent loop takes the front of an empty list when a peer replies with the
empty list: the loop condition holds (the sizes differ), and the next iteration evaluates
`newClosestNode.front()` to choose the peer to dial. In particular `DiscoverNeighbourhood`
does so when the closest node known to the database answers with the empty list. -/
theorem descent_front_of_empty_reply (env : Env D) (myNodeInfo : NodeInfo D) (fuel : Nat)
    (old : List (NodeInfo D)) (front : NodeInfo D) (rest : List (NodeInfo D)) (s s1 : Sys D)
    (conn : Conn)
    (henter : closestChanged old (front :: rest) = Except.ok true)
    (hconn : SafeConnectTo env myNodeInfo s front.profile = (some conn, s1))
    (hreply : env.GetClosestNodes s1.trace conn myNodeInfo.location none 1
      Neighbours.Included = Except.ok []) :
    descentLoop env myNodeInfo (fuel + 2) old (front :: rest) s =
      Except.error Fault.emptyFront ∧
    (old = [] →
      Db.GetClosestNodes env.GetDistanceKm s.db myNodeInfo.location none 1
        Neighbours.Included = front :: rest →
      DiscoverNeighbourhood env myNodeInfo (fuel + 2) s = Except.error Fault.emptyFront) := by
  have hrun : descentLoop env myNodeInfo (fuel + 2) old (front :: rest) s =
      Except.error Fault.emptyFront := by
    rw [descentLoop_hop env myNodeInfo (fuel + 1) old front rest s s1 conn henter hconn, hreply]
    rw [descentLoop]
    simp [closestChanged]
  refine ⟨hrun, ?_⟩
  intro hold hlocal
  subst hold
  unfold DiscoverNeighbourhood
  simp only [hlocal, hrun]

/-- Witness of C22: the closest node known, "a", can be dialled and answers with the empty
list; `DiscoverNeighbourhood` then takes the front of an empty list. -/
theorem descent_front_of_empty_reply_witness :
    DiscoverNeighbourhood (openEnv (fun _ => (0 : ℚ))) (nodeAt "self" 0 0) 2
      { db := [colleagueAt "a" 0 1], trace := [] } = Except.error Fault.emptyFront :=
  (descent_front_of_empty_reply (openEnv (fun _ => (0 : ℚ))) (nodeAt "self" 0 0) 0 []
    (nodeAt "a" 0 1) [] { db := [colleagueAt "a" 0 1], trace := [] }
    { db := [colleagueAt "a" 0 1],
      trace := [Event.ConnectTo (nodeAt "a" (0 : ℚ) 1).profile (Except.ok (some 1))] } 1
    (by simp [closestChanged])
    (by simp [SafeConnectTo, openEnv, quietEnv, nodeAt, Sys.log])
    (by simp [openEnv, quietEnv])).2 rfl
    (by simp [Db.GetClosestNodes, Db.matchesFilter, colleagueAt])

/-! ### Claim C23 -/

/-- The pre-check of `SafeStoreNode` reads the world only through `log10` and
`GetDistanceKm`. -/
theorem locallyRejected_congr (env env2 : Env D) (myNodeInfo : NodeInfo D)
    (db : List (NodeDbEntry D)) (entry : NodeDbEntry D)
    (hlog : env2.log10 = env.log10) (hdist : env2.GetDistanceKm = env.GetDistanceKm) :
    locallyRejected env2 myNodeInfo db entry = locallyRejected env myNodeInfo db entry := by
  unfold locallyRejected BubbleOverlaps
  simp only [GetBubbleSize_eq, hlog, hdist]

/-- C23. Acceptor admission is purely local: for an entry with role Acceptor,
`SafeStoreNode` returns true exactly when the pre-check passes and `Store(entry)` returns
true (an exception of `Store` counts as false); when the pre-check fails nothing happens,
otherwise the only call it makes is that one `Store`; so it never dials and calls no remote
operation, and its outcome is the same in every world with the same `log10`, distances and
`Store` behaviour, whatever the peers do. `AcceptColleague` and `AcceptNeighbour` are such
calls. -/
theorem acceptor_admission_is_local (env : Env D) (myNodeInfo : NodeInfo D) (s : Sys D)
    (entry : NodeDbEntry D) (nodeConnection : Option Conn)
    (hrole : entry.roleType = NodeContactRoleType.Acceptor) :
    (SafeStoreNode env myNodeInfo s entry nodeConnection).1 =
      (!locallyRejected env myNodeInfo s.db entry &&
        granted (env.StoreResult s.trace entry)) ∧
    (locallyRejected env myNodeInfo s.db entry = true →
      SafeStoreNode env myNodeInfo s entry nodeConnection = (false, s)) ∧
    (locallyRejected env myNodeInfo s.db entry = false →
      newEvents s (SafeStoreNode env myNodeInfo s entry nodeConnection).2 =
        [Event.Store entry (env.StoreResult s.trace entry)]) ∧
    (∀ e ∈ newEvents s (SafeStoreNode env myNodeInfo s entry nodeConnection).2,
      e = Event.Store entry (env.StoreResult s.trace entry)) ∧
    (∀ env2 : Env D, env2.log10 = env.log10 → env2.GetDistanceKm = env.GetDistanceKm →
      env2.StoreResult = env.StoreResult →
      SafeStoreNode env2 myNodeInfo s entry nodeConnection =
        SafeStoreNode env myNodeInfo s entry nodeConnection) ∧
    (∀ node : NodeInfo D,
      AcceptColleague env myNodeInfo s node = SafeStoreNode env myNodeInfo s
        (NodeDbEntry.mk node NodeRelationType.Colleague NodeContactRoleType.Acceptor) none ∧
      AcceptNeighbour env myNodeInfo s node = SafeStoreNode env myNodeInfo s
        (NodeDbEntry.mk node NodeRelationType.Neighbour NodeContactRoleType.Acceptor) none) := by
  have hshape : ∀ env1 : Env D,
      SafeStoreNode env1 myNodeInfo s entry nodeConnection =
        if locallyRejected env1 myNodeInfo s.db entry = true then (false, s)
        else (granted (env1.StoreResult s.trace entry),
          { db := if granted (env1.StoreResult s.trace entry) = true then Db.Store s.db entry
                  else s.db,
            trace := s.trace ++ [Event.Store entry (env1.StoreResult s.trace entry)] }) := by
    intro env1
    by_cases hrej : locallyRejected env1 myNodeInfo s.db entry = true
    · rw [if_pos hrej]
      exact SafeStoreNode_rejected env1 myNodeInfo s entry nodeConnection hrej
    · rw [if_neg hrej]
      have hpre : locallyRejected env1 myNodeInfo s.db entry = false := by simpa using hrej
      rw [SafeStoreNode_acceptor env1 myNodeInfo s entry nodeConnection hpre hrole,
        storeOrFalse_eq]
  refine ⟨?_, ?_, ?_, ?_, ?_, ?_⟩
  · rw [hshape env]
    by_cases hrej : locallyRejected env myNodeInfo s.db entry = true
    · simp [hrej]
    · simp [hrej]
  · intro hrej
    exact SafeStoreNode_rejected env myNodeInfo s entry nodeConnection hrej
  · intro hpre
    rw [hshape env]
    simp [hpre, newEvents]
  · intro e he
    rw [hshape env] at he
    by_cases hrej : locallyRejected env myNodeInfo s.db entry = true
    · simp [hrej, newEvents] at he
    · simpa [hrej, newEvents] using he
  · intro env2 hlog hdist hstore
    rw [hshape env2, hshape env,
      locallyRejected_congr env env2 myNodeInfo s.db entry hlog hdist, hstore]
  · intro node
    exact ⟨rfl, rfl⟩

/-- Witness of C23: a colleague is accepted into an empty database without any call but
`Store`. -/
theorem acceptor_admission_is_local_witness :
    (colleagueAt "c" 5 5 : NodeDbEntry ℚ).roleType = NodeContactRoleType.Acceptor ∧
    (SafeStoreNode (quietEnv (fun _ => (0 : ℚ))) (nodeAt "self" 0 0)
      { db := [], trace := [] } (colleagueAt "c" 5 5) none).1 = true ∧
    newEvents { db := [], trace := [] }
      (SafeStoreNode (quietEnv (fun _ => (0 : ℚ))) (nodeAt "self" 0 0)
        { db := [], trace := [] } (colleagueAt "c" 5 5) none).2 =
      [Event.Store (colleagueAt "c" 5 5) (Except.ok true)] := by
  have h := acceptor_admission_is_local (quietEnv (fun _ => (0 : ℚ))) (nodeAt "self" 0 0)
    { db := [], trace := [] } (colleagueAt "c" 5 5) none rfl
  have hpre : locallyRejected (quietEnv (fun _ => (0 : ℚ))) (nodeAt "self" 0 0) []
      (colleagueAt "c" 5 5) = false := by
    simp [locallyRejected, BubbleOverlaps, Db.GetClosestNodes, colleagueAt]
  refine ⟨rfl, ?_, ?_⟩
  · rw [h.1]
    show (!locallyRejected (quietEnv (fun _ => (0 : ℚ))) (nodeAt "self" 0 0) []
      (colleagueAt "c" 5 5) && _) = true
    rw [hpre]
    rfl
  · exact h.2.2.1 hpre

end Theorems

end LocNet
